import Mathlib

set_option maxRecDepth 4000

/-!
Verification development for the DeckSmithPro deck-planning pipeline
(server/lib: planDeck, lockDeckPlanToAgency10, isWeakAgencyConceptLine,
extractExplicitOutlineSignals, normalizePlan).

The JavaScript source is shallowly embedded: JSON-like runtime values are
modelled by the inductive type `Json`, JS strings by `List Char`, and JS
numbers by `JNum` (an integer or NaN; the relevant code paths only ever
produce integers or NaN, fractional doubles are collapsed to NaN by the
string-to-number parser, which no claim depends on).  A missing object
field and JS `undefined` are both modelled as `Json.null`; the embedded
code never distinguishes the two (it only applies `??`, `||`, truthiness
tests, and `(v ?? '').toString()` to values that can be undefined).
-/

namespace DeckSmith

/-- JS strings are modelled as lists of characters. -/
abbrev JStr := List Char

/-- Shorthand turning a Lean string literal into a `JStr`. -/
def js (s : String) : JStr := s.data

/-- JS numbers as they occur on the embedded code paths: an integer or NaN. -/
inductive JNum where
  | nan : JNum
  | int (n : ℤ) : JNum
deriving DecidableEq, Repr

/-- JSON-like JS runtime values.  Objects are ordered key-value lists,
mirroring JS property insertion order. -/
inductive Json where
  | null : Json
  | bool (b : Bool) : Json
  | num (n : JNum) : Json
  | str (s : JStr) : Json
  | arr (xs : List Json) : Json
  | obj (fs : List (JStr × Json)) : Json

/-- Is this value JS `null`/`undefined`? -/
def Json.isNull : Json → Bool
  | Json.null => true
  | _ => false

/-- `Json.str` of a Lean string literal. -/
def jstr (s : String) : Json := Json.str s.data

/-- `Json.num` of an integer literal. -/
def jint (n : ℤ) : Json := Json.num (JNum.int n)

/-- JS truthiness. -/
def truthy : Json → Bool
  | Json.null => false
  | Json.bool b => b
  | Json.num JNum.nan => false
  | Json.num (JNum.int n) => n ≠ 0
  | Json.str s => s ≠ []
  | Json.arr _ => true
  | Json.obj _ => true

/-- JS `a || b`. -/
def jsOr (a b : Json) : Json := if truthy a then a else b

/-- JS `a ?? b` (with `undefined` collapsed into `Json.null`). -/
def jsQQ (a b : Json) : Json := if a.isNull then b else a

/-- First-match lookup in an object field list. -/
def lookupField : List (JStr × Json) → JStr → Json
  | [], _ => Json.null
  | (k, v) :: fs, key => if k = key then v else lookupField fs key

/-- JS property read `base[key]`.  On non-objects this yields `Json.null`
(JS yields `undefined`; the embedded code only reads properties of
non-objects where the result is immediately guarded, and never reads a
property of `null`/`undefined` unguarded on the paths embedded here). -/
def jsGet (base : Json) (key : JStr) : Json :=
  match base with
  | Json.obj fs => lookupField fs key
  | _ => Json.null

/-- Shorthand: property read with a literal key. -/
def jget (base : Json) (key : String) : Json := jsGet base key.data

/-- Set a key in an ordered field list: replace the first occurrence in
place, else append (JS assignment / object-literal override semantics). -/
def setField : List (JStr × Json) → JStr → Json → List (JStr × Json)
  | [], key, v => [(key, v)]
  | (k, w) :: fs, key, v =>
    if k = key then (k, v) :: fs else (k, w) :: setField fs key v

/-- The field list contributed by `...base` in a JS object spread:
objects contribute their fields, strings and arrays contribute their
elements keyed by decimal index, primitives contribute nothing. -/
def natToStr (n : ℕ) : JStr := Nat.toDigits 10 n

def spreadFields : Json → List (JStr × Json)
  | Json.obj fs => fs
  | Json.str s => (s.enum.map fun p => (natToStr p.1, Json.str [p.2]))
  | Json.arr xs => (xs.enum.map fun p => (natToStr p.1, p.2))
  | _ => []

/-- `{ ...base, k₁: v₁, … }`: spread `base`, then apply the overrides in
order. -/
def mkSpread (base : Json) (overrides : List (JStr × Json)) : Json :=
  Json.obj (overrides.foldl (fun acc kv => setField acc kv.1 kv.2) (spreadFields base))

mutual

/-- JS `String(v)` / `v.toString()`. -/
def jsToString : Json → JStr
  | Json.null => js "null"
  | Json.bool true => js "true"
  | Json.bool false => js "false"
  | Json.num JNum.nan => js "NaN"
  | Json.num (JNum.int n) =>
    if n < 0 then '-' :: natToStr n.natAbs else natToStr n.natAbs
  | Json.str s => s
  | Json.arr xs => jsToStringArr xs
  | Json.obj _ => js "[object Object]"

/-- JS `Array.prototype.toString` (join by commas, `null` elements
become empty). -/
def jsToStringArr : List Json → JStr
  | [] => []
  | [Json.null] => []
  | [x] => jsToString x
  | Json.null :: x :: xs => ',' :: jsToStringArr (x :: xs)
  | x :: y :: xs => jsToString x ++ ',' :: jsToStringArr (y :: xs)

end

/-! ### String helpers (JS `trim`, `toLowerCase`, `includes`, `split`) -/

/-- JS whitespace (`\s`, restricted to its ASCII members, which are the
only ones the embedded strings contain). -/
def jsWsChar (c : Char) : Bool :=
  c == ' ' || c == '\t' || c == '\n' || c == '\r' || c == '\x0b' || c == '\x0c'

/-- JS `String.prototype.trim`. -/
def trimStr (s : JStr) : JStr :=
  ((s.dropWhile jsWsChar).reverse.dropWhile jsWsChar).reverse

/-- JS `String.prototype.toLowerCase` (ASCII). -/
def toLowerStr (s : JStr) : JStr := s.map Char.toLower

/-- JS `String.prototype.includes` (substring test). -/
def containsSub (needle : JStr) : JStr → Bool
  | [] => needle.isEmpty
  | c :: rest => needle.isPrefixOf (c :: rest) || containsSub needle rest

/-- JS `String.prototype.split` on a predicate-matching single character
(keeps empty pieces, like `split(',')` / `split(/x/)`). -/
def splitOnPred (p : Char → Bool) : JStr → List JStr
  | [] => [[]]
  | x :: xs =>
    if p x then [] :: splitOnPred p xs
    else
      match splitOnPred p xs with
      | r :: rs => (x :: r) :: rs
      | [] => [[x]]

/-- JS `split(',')`. -/
def splitComma (s : JStr) : List JStr := splitOnPred (· == ',') s

/-- `s.trim().split(/\s+/).filter(Boolean)`: the maximal non-whitespace
runs of `s`. -/
def fieldsWs (s : JStr) : List JStr :=
  (splitOnPred jsWsChar s).filter (fun w => !w.isEmpty)

/-- JS `\w` (ASCII word character). -/
def isWordChar (c : Char) : Bool := c.isAlphanum || c == '_'

/-! ### Number coercion and `asStr` / `clampInt` from the source -/

/-- JS `Number(string)`: trimmed empty string is `0`, an optionally
signed decimal integer literal is its value, everything else is NaN in
this model (fractional literals are collapsed to NaN; no embedded code
path feeds a fractional literal to a place a claim depends on). -/
def strToNum (s : JStr) : JNum :=
  let t := trimStr s
  let digitsVal : JStr → ℤ := fun ds =>
    ds.foldl (fun a c => a * 10 + (c.toNat - '0'.toNat : ℤ)) 0
  match t with
  | [] => JNum.int 0
  | '-' :: ds =>
    if !ds.isEmpty && ds.all Char.isDigit then JNum.int (-(digitsVal ds)) else JNum.nan
  | '+' :: ds =>
    if !ds.isEmpty && ds.all Char.isDigit then JNum.int (digitsVal ds) else JNum.nan
  | ds =>
    if ds.all Char.isDigit then JNum.int (digitsVal ds) else JNum.nan

/-- JS `Number(v)` / unary `+`. Arrays and objects convert through their
string form (`ToPrimitive`). -/
def jsToNum : Json → JNum
  | Json.null => JNum.int 0
  | Json.bool b => JNum.int (if b then 1 else 0)
  | Json.num k => k
  | Json.str s => strToNum s
  | v => strToNum (jsToString v)

/-- Source `asStr(v, max)`: `(v ?? '').toString().slice(0, max)`. -/
def asStr (v : Json) (maxLen : ℕ := 200) : JStr :=
  if v.isNull then [] else (jsToString v).take maxLen

/-- Source `clampInt(n, lo, hi, fallback)`:
`Math.max(lo, Math.min(hi, Number.isFinite(+n) ? Math.floor(+n) : fallback))`.
`Math.floor` is the identity on the integer number model. -/
def clampInt (n : Json) (lo hi fallb : ℤ) : ℤ :=
  match jsToNum n with
  | JNum.nan => max lo (min hi fallb)
  | JNum.int m => max lo (min hi m)

/-! ### Agency concept quality gate: `isWeakAgencyConceptLine`, `briefKeywords` -/

/-- Is this (optional) character a `\b` word boundary partner, i.e. absent
or a non-word character? -/
def boundaryOk : Option Char → Bool
  | none => true
  | some c => !isWordChar c

/-- Helper for `testWordCI`: scan the suffixes of `t`, tracking the
preceding character for the left word boundary. -/
def testWordCIAux (w : JStr) (prev : Option Char) : JStr → Bool
  | [] => boundaryOk prev && w.isEmpty
  | c :: rest =>
    (boundaryOk prev && w.isPrefixOf (c :: rest) &&
      boundaryOk (((c :: rest).drop w.length).head?)) ||
    testWordCIAux w (some c) rest

/-- Case-insensitive whole-word search: JS `/\bw\b/i.test(s)`. -/
def testWordCI (w s : JStr) : Bool :=
  testWordCIAux (toLowerStr w) none (toLowerStr s)

/-- JS `/^\s*\w+\s+campaign\b/i.test(s)`.  `\w+` and `\s+` are maximal
runs (no backtracking is possible because `\w`, `\s` and the literal
`campaign` start with pairwise disjoint character classes). -/
def startsWordCampaign (s : JStr) : Bool :=
  let t1 := (toLowerStr s).dropWhile jsWsChar
  let wordRun := t1.takeWhile isWordChar
  let rest := t1.dropWhile isWordChar
  let wsRun := rest.takeWhile jsWsChar
  let t4 := rest.dropWhile jsWsChar
  !wordRun.isEmpty && !wsRun.isEmpty &&
    (js "campaign").isPrefixOf t4 && boundaryOk ((t4.drop 8).head?)

/-- Source `briefKeywords(text)`: whitelist terms occurring in the
lowercased brief, each contributing its first space-separated token,
deduplicated in insertion order (the JS `Set`). -/
def briefKeywords (text : JStr) : List JStr :=
  let t := toLowerStr text
  let whitelist : List JStr :=
    [js "radio", js "frequency", js "frequencies", js "city", js "cities",
     js "tune", js "tuned", js "vibe", js "vibes", js "listen", js "listening",
     js "airwaves", js "station", js "stations", js "audience", js "fans",
     js "music", js "beats", js "sound", js "saudi", js "riyadh", js "jeddah",
     js "dammam", js "khobar", js "ooh", js "out of home", js "campaign"]
  whitelist.foldl
    (fun found w =>
      if containsSub w t then
        let tok := (splitOnPred (· == ' ') w).headD []
        if tok ∈ found then found else found ++ [tok]
      else found)
    []

/-- Rule 2 of the classifier: generic campaign phrasing
(`/\bcampaign\b/i` together with `/\b(out of home|ooh)\b/i`, or
`/^\s*\w+\s+campaign\b/i`). -/
def genericCampaignLine (s : JStr) : Bool :=
  (testWordCI (js "campaign") s &&
    (testWordCI (js "out of home") s || testWordCI (js "ooh") s)) ||
  startsWordCampaign s

/-- Rule 3 of the classifier: the comma-separated items of `s` (trimmed,
empties dropped). -/
def commaParts (s : JStr) : List JStr :=
  ((splitComma s).map trimStr).filter (fun p => !p.isEmpty)

/-- Rule 3 of the classifier: a 3+ item comma list whose items all start
with the same letter, case-insensitively. -/
def allitList (s : JStr) : Bool :=
  let parts := commaParts s
  let firstc := Char.toLower ((parts.headD []).headD ' ')
  decide (3 ≤ parts.length) &&
    parts.all (fun p => Char.toLower (p.headD ' ') == firstc)

/-- Rule 4 of the classifier: the word list of `s` after replacing
`.`, `·`, `•` by spaces (`replace(/[.·•]/g, ' ').trim().split(/\s+/)
.filter(Boolean)`). -/
def conceptWords (s : JStr) : List JStr :=
  fieldsWs (s.map fun c => if c == '.' || c == '·' || c == '•' then ' ' else c)

/-- Source `isWeakAgencyConceptLine(line, briefText)` translated rule by
rule (each early `return true` becomes an `if` branch). -/
def isWeakAgencyConceptLine (line briefText : JStr) : Bool :=
  let s := trimStr line
  if s.isEmpty then true
  else if containsSub (js ":") s then true
  else if genericCampaignLine s then true
  else if allitList s then true
  else if decide (12 < (conceptWords s).length) then true
  else
    let kw := briefKeywords briefText
    if !kw.isEmpty then
      let sNorm := toLowerStr s
      let hit := kw.any (fun k => containsSub k sNorm)
      if !hit && decide ((conceptWords s).length ≤ 6) then true else false
    else false

/-- Claim C6, spec side: the weak-line classifier as the claim words it —
a disjunction of: empty trimmed line, a colon, generic campaign phrasing,
a 3+ item alliterative comma list, more than 12 words, or at most 6 words
sharing no token with the whitelist terms present in the brief. -/
def specWeakLine (line briefText : JStr) : Bool :=
  let s := trimStr line
  s.isEmpty || containsSub (js ":") s || genericCampaignLine s || allitList s ||
    decide (12 < (conceptWords s).length) ||
    (decide ((conceptWords s).length ≤ 6) &&
      !(briefKeywords briefText).any (fun k => containsSub k (toLowerStr s)))

/-- Claim C6, amended spec side: as `specWeakLine`, but the short-line /
no-keyword-overlap rule only applies when at least one whitelist term is
present in the brief (the source skips rule 5 when `briefKeywords` is
empty). -/
def specWeakLineAmended (line briefText : JStr) : Bool :=
  let s := trimStr line
  s.isEmpty || containsSub (js ":") s || genericCampaignLine s || allitList s ||
    decide (12 < (conceptWords s).length) ||
    (!(briefKeywords briefText).isEmpty &&
      decide ((conceptWords s).length ≤ 6) &&
      !(briefKeywords briefText).any (fun k => containsSub k (toLowerStr s)))

/-! ### Outline signal extraction: `extractExplicitOutlineSignals` -/

/-- JS `text.split(/\r?\n/)`. -/
def splitLines : JStr → List JStr
  | [] => [[]]
  | '\r' :: '\n' :: rest => [] :: splitLines rest
  | '\n' :: rest => [] :: splitLines rest
  | c :: rest =>
    match splitLines rest with
    | r :: rs => (c :: r) :: rs
    | [] => [[c]]

/-- Case-insensitive literal-prefix strip: if the lowercase of the head
of `s` is `w`, return the remainder. -/
def stripHeadCI (w : String) (s : JStr) : Option JStr :=
  if toLowerStr (s.take w.data.length) = w.data then some (s.drop w.data.length) else none

/-- Decimal value of a digit run. -/
def digitsToNat (ds : JStr) : ℕ :=
  ds.foldl (fun a c => a * 10 + (c.toNat - '0'.toNat)) 0

/-- Read a maximal digit run of length between 1 and `maxD` (a regex
`\d{1,maxD}` followed by a non-digit pattern: longer runs cannot match,
because every backtracked shorter attempt leaves a digit where the next
pattern expects a separator or non-digit). -/
def takeDigitRun (maxD : ℕ) (s : JStr) : Option (ℕ × JStr) :=
  let ds := s.takeWhile Char.isDigit
  if 1 ≤ ds.length ∧ ds.length ≤ maxD then some (digitsToNat ds, s.drop ds.length)
  else none

/-- Source regex `re1 = /^\s*(slide|page)\s*(\d{1,3})\s*[:\-–•]\s*(.+?)\s*$/i`:
on a match, yields `parseInt` of the digits and the trimmed tail group
(`\s*(.+?)\s*$` with a lazy middle amounts to trimming; the match requires
a nonempty tail after the separator). -/
def re1Match (ln : JStr) : Option (ℕ × JStr) := do
  let t1 := ln.dropWhile jsWsChar
  let t2 ←
    match stripHeadCI "slide" t1 with
    | some r => some r
    | none => stripHeadCI "page" t1
  let (n, t3) ← takeDigitRun 3 (t2.dropWhile jsWsChar)
  match t3.dropWhile jsWsChar with
  | c :: rest =>
    if (c == ':' || c == '-' || c == '–' || c == '•') && !rest.isEmpty then
      some (n, trimStr rest)
    else none
  | [] => none

/-- Source regex `re2 = /^\s*(\d{1,3})\s*[\).:-]\s*(.+?)\s*$/`. -/
def re2Match (ln : JStr) : Option (ℕ × JStr) := do
  let (n, t3) ← takeDigitRun 3 (ln.dropWhile jsWsChar)
  match t3.dropWhile jsWsChar with
  | c :: rest =>
    if (c == ')' || c == '.' || c == ':' || c == '-') && !rest.isEmpty then
      some (n, trimStr rest)
    else none
  | [] => none

/-- The `items` list of `extractExplicitOutlineSignals`: per line, try
`re1` (pushing only a nonempty title, and skipping `re2` whenever `re1`
matched), then `re2` (pushing only a nonempty title of at most 140
characters). -/
def rawOutlineItems (text : JStr) : List (ℕ × JStr) :=
  (splitLines text).foldl
    (fun acc ln =>
      match re1Match ln with
      | some (n, title) => if title.isEmpty then acc else acc ++ [(n, title)]
      | none =>
        (match re2Match ln with
         | some (n, title) =>
           if !title.isEmpty && decide (title.length ≤ 140) then acc ++ [(n, title)]
           else acc
         | none => acc))
    []

/-- The `byN` map: deduplicate by slide number, keeping the first title
(JS `Map` insertion order). -/
def dedupeAux (acc : List (ℕ × JStr)) : List (ℕ × JStr) → List (ℕ × JStr)
  | [] => acc
  | it :: rest =>
    if it.1 ∈ acc.map Prod.fst then dedupeAux acc rest
    else dedupeAux (acc ++ [it]) rest

def dedupeByN (items : List (ℕ × JStr)) : List (ℕ × JStr) := dedupeAux [] items

/-- Comparison used to model `.sort((a, b) => a[0] - b[0])`; the keys are
pairwise distinct after deduplication, so any comparison sort yields the
same list as insertion sort by key. -/
def byKeyLE (a b : ℕ × JStr) : Prop := a.1 ≤ b.1

instance : DecidableRel byKeyLE := fun a b => Nat.decLe a.1 b.1

instance : IsTotal (ℕ × JStr) byKeyLE := ⟨fun a b => Nat.le_total a.1 b.1⟩

instance : IsTrans (ℕ × JStr) byKeyLE := ⟨fun _ _ _ h1 h2 => Nat.le_trans h1 h2⟩

/-- The result type of `extractExplicitOutlineSignals`. -/
structure OutlineSignals where
  outline : List (ℕ × JStr)
  range : Option (ℕ × ℕ)

/-- One attempt of the slide-count-range regex
`/(\d{1,2})\s*[–-]\s*(\d{1,2})\s*slides?/i` at a fixed start position
(greedy `\d{1,2}` with backtracking to one digit). -/
def rangeMatchAt (t : JStr) : Option (ℕ × ℕ) :=
  let afterDigits : ℕ → Option (ℕ × JStr) := fun k =>
    let ds := t.take k
    if ds.length = k ∧ ds.all Char.isDigit then some (digitsToNat ds, t.drop k) else none
  let step2 : ℕ × JStr → Option (ℕ × ℕ) := fun (n1, r1) =>
    match r1.dropWhile jsWsChar with
    | c :: r2 =>
      if c == '–' || c == '-' then
        let r3 := r2.dropWhile jsWsChar
        let fin : ℕ × JStr → Option (ℕ × ℕ) := fun (n2, r4) =>
          if toLowerStr ((r4.dropWhile jsWsChar).take 5) = js "slide" then some (n1, n2)
          else none
        let ds2 := r3.takeWhile Char.isDigit
        match (if 2 ≤ ds2.length then some (digitsToNat (r3.take 2), r3.drop 2) else none) with
        | some p => (fin p).orElse fun _ =>
            if 1 ≤ ds2.length then fin (digitsToNat (r3.take 1), r3.drop 1) else none
        | none =>
          if 1 ≤ ds2.length then fin (digitsToNat (r3.take 1), r3.drop 1) else none
      else none
    | [] => none
  let ds1 := t.takeWhile Char.isDigit
  match (if 2 ≤ ds1.length then afterDigits 2 else none) with
  | some p => (step2 p).orElse fun _ =>
      match afterDigits 1 with
      | some q => step2 q
      | none => none
  | none =>
    match afterDigits 1 with
    | some q => step2 q
    | none => none

/-- Leftmost search for the range regex over the whole text. -/
def findRange : JStr → Option (ℕ × ℕ)
  | [] => none
  | c :: rest =>
    match rangeMatchAt (c :: rest) with
    | some p => some p
    | none => findRange rest

/-- Source `extractExplicitOutlineSignals(briefText)`. -/
def extractExplicitOutlineSignals (briefText : JStr) : OutlineSignals :=
  { outline := List.insertionSort byKeyLE (dedupeByN (rawOutlineItems briefText))
    range := findRange briefText }

/-- Json encoding of the outline, as attached to the extraction result
(`extract.explicit_outline = outlineSignals.outline`). -/
def outlineToJson (o : List (ℕ × JStr)) : Json :=
  Json.arr (o.map fun it => Json.obj [(js "slide", jint it.1), (js "title", Json.str it.2)])

/-- Json encoding of the slide-count range hint. -/
def rangeToJson : Option (ℕ × ℕ) → Json
  | none => Json.null
  | some (a, b) => Json.obj [(js "min", jint a), (js "max", jint b)]

/-! ### Agency structural lock: `AGENCY_CREATIVE_10`, `shouldLockAgency10`,
`lockNarrativeToAgency10`, `takeFirstMatch`, `lockDeckPlanToAgency10` -/

structure AgencySection where
  id : JStr
  name : JStr
  kind : JStr
  slide_kinds : List JStr

/-- The fixed 10-beat agency creative structure. -/
def AGENCY_CREATIVE_10 : List AgencySection :=
  [⟨js "s1_title", js "Title", js "title", [js "title", js "cover"]⟩,
   ⟨js "s2_current_audience", js "Current Audience", js "current_audience",
     [js "current_audience", js "audience"]⟩,
   ⟨js "s3_about_brand", js "About the Brand", js "about_brand",
     [js "about_brand", js "brand"]⟩,
   ⟨js "s4_challenge", js "The Challenge / The Problem", js "challenge",
     [js "challenge", js "problem"]⟩,
   ⟨js "s5_opportunity", js "The Opportunity", js "opportunity",
     [js "opportunity", js "insight_or_reframe"]⟩,
   ⟨js "s6_pillars", js "Communication Pillars / Media Types", js "communication_pillars",
     [js "communication_pillars", js "strategy_pillars"]⟩,
   ⟨js "s7_concept", js "Creative Concept", js "creative_concept",
     [js "creative_concept", js "big_idea"]⟩,
   ⟨js "s8_visual_identity", js "Visual Identity", js "visual_identity",
     [js "visual_identity", js "visual_direction"]⟩,
   ⟨js "s9_execution", js "Execution Example", js "execution_example",
     [js "execution_example", js "execution_examples"]⟩,
   ⟨js "s10_thanks", js "Thank You", js "thank_you", [js "thank_you", js "close"]⟩]

/-- Source `shouldLockAgency10(extractJson, options)`. -/
def shouldLockAgency10 (extractJson options : Json) : Bool :=
  let requested :=
    trimStr (asStr (jsOr (jget options "deckType") (jsOr (jget options "deck_type") (jstr ""))) 80)
  if toLowerStr requested = js "ad_agency" then true
  else
    let suggested :=
      trimStr (asStr (jsOr (jget extractJson "deck_type_suggestion")
        (jsOr (jget extractJson "deck_type") (jstr ""))) 80)
    toLowerStr suggested = js "ad_agency"

/-- Source `isAgencyTypographic(options)`. -/
def isAgencyTypographic (options : Json) : Bool :=
  toLowerStr (trimStr (asStr
    (jsOr (jget options "deckStyle") (jsOr (jget options "deck_style") (jstr ""))) 80)) =
    js "agency_typographic"

/-- Source `lockNarrativeToAgency10(narrativeJson, extractJson)`. -/
def lockNarrativeToAgency10 (narrativeJson extractJson : Json) : Json :=
  let thesis := asStr (jsOr (jget narrativeJson "thesis") (jsOr (jget extractJson "objective")
    (jsOr (jget extractJson "title") (jstr "A campaign story that earns attention.")))) 220
  mkSpread narrativeJson
    [(js "deck_type", jstr "ad_agency"),
     (js "recipe_name", jstr "agency_creative_10"),
     (js "thesis", Json.str thesis),
     (js "sections", Json.arr (AGENCY_CREATIVE_10.enum.map fun p =>
       Json.obj
         [(js "id", Json.str p.2.id),
          (js "name", Json.str p.2.name),
          (js "goal", Json.str (js "Deliver " ++ toLowerStr p.2.name ++ js " with one clear idea.")),
          (js "key_message", jstr ""),
          (js "must_include", Json.arr []),
          (js "slide_kinds", Json.arr (p.2.slide_kinds.map Json.str)),
          (js "transition_to_next",
            if p.1 = AGENCY_CREATIVE_10.length - 1 then jstr ""
            else jstr "Next: we build the case.")]))]

/-- The `defaultLayoutByKind` table for `agency_typographic` deck style. -/
def layoutTableTypo : List (JStr × Json) :=
  [(js "title", jstr "agency_center"), (js "cover", jstr "agency_center"),
   (js "current_audience", jstr "agency_infographic"), (js "audience", jstr "agency_infographic"),
   (js "about_brand", jstr "agency_half"), (js "brand", jstr "agency_half"),
   (js "challenge", jstr "agency_half"), (js "problem", jstr "agency_half"),
   (js "opportunity", jstr "agency_infographic"),
   (js "insight_or_reframe", jstr "agency_infographic"),
   (js "communication_pillars", jstr "agency_infographic"),
   (js "strategy_pillars", jstr "agency_infographic"),
   (js "creative_concept", jstr "agency_center"), (js "big_idea", jstr "agency_center"),
   (js "visual_identity", jstr "agency_half"), (js "visual_direction", jstr "agency_half"),
   (js "execution_example", jstr "full_bleed"), (js "execution_examples", jstr "full_bleed"),
   (js "thank_you", jstr "agency_center"), (js "close", jstr "agency_center")]

/-- The `defaultLayoutByKind` table for the default deck style. -/
def layoutTableDefault : List (JStr × Json) :=
  [(js "title", jstr "hero"), (js "cover", jstr "hero"),
   (js "current_audience", jstr "cards"), (js "audience", jstr "cards"),
   (js "about_brand", jstr "split"), (js "brand", jstr "split"),
   (js "challenge", jstr "full_bleed"), (js "problem", jstr "full_bleed"),
   (js "opportunity", jstr "two_column"), (js "insight_or_reframe", jstr "two_column"),
   (js "communication_pillars", jstr "process_steps"),
   (js "strategy_pillars", jstr "process_steps"),
   (js "creative_concept", jstr "hero"), (js "big_idea", jstr "hero"),
   (js "visual_identity", jstr "image_caption"), (js "visual_direction", jstr "image_caption"),
   (js "execution_example", jstr "full_bleed"), (js "execution_examples", jstr "full_bleed"),
   (js "thank_you", jstr "hero"), (js "close", jstr "hero")]

/-- `defaultLayoutByKind[kind]` (undefined becomes `Json.null`). -/
def defaultLayoutByKind (typographic : Bool) (k : JStr) : Json :=
  lookupField (if typographic then layoutTableTypo else layoutTableDefault) k

/-- `defaultImagePromptByKind[kind]`. -/
def defaultImagePromptByKind (k : JStr) : Json :=
  lookupField
    [(js "title",
      jstr "High-contrast abstract campaign key visual, premium editorial lighting, minimal, no text"),
     (js "current_audience",
      jstr "Modern editorial audience collage, diverse silhouettes, premium lighting, minimal, no text"),
     (js "about_brand", jstr "Premium brand essence key visual, clean minimal composition, no text"),
     (js "challenge", jstr "Dramatic abstract tension visual, high contrast, minimal, no text"),
     (js "opportunity", jstr "Optimistic breakthrough abstract visual, premium lighting, minimal, no text"),
     (js "communication_pillars",
      jstr "Minimal bento-style abstract icons and shapes, premium, high contrast, no text"),
     (js "creative_concept", jstr "Signature campaign platform key visual, iconic, bold, minimal, no text"),
     (js "visual_identity", jstr "Design system moodboard: materials, textures, color swatches, minimal, no text"),
     (js "execution_example",
      jstr "Cinematic outdoor advertising mockup scene, generic, premium lighting, no logos, no text"),
     (js "thank_you", jstr "Soft gradient background, premium minimal, no text")]
    k

/-- Property read through an optional draft-slide match (`match?.key`). -/
def mget (m : Option Json) (key : String) : Json :=
  match m with
  | some x => jsGet x key.data
  | none => Json.null

/-- Source `takeFirstMatch` scan: first enumerated draft slide whose
index is unused and whose lowercased `kind` is among the (lowercased)
acceptable kinds. -/
def takeFirstMatchAux (kindsLower : List JStr) (used : List ℕ) :
    List (ℕ × Json) → Option (ℕ × Json)
  | [] => none
  | (i, x) :: rest =>
    if i ∉ used ∧ toLowerStr (jsToString (jsOr (jsGet x (js "kind")) (jstr ""))) ∈ kindsLower
    then some (i, x)
    else takeFirstMatchAux kindsLower used rest

def takeFirstMatch (existing : List Json) (used : List ℕ) (kinds : List JStr) :
    Option (ℕ × Json) :=
  takeFirstMatchAux (kinds.map toLowerStr) used existing.enum

/-- The sequence of `takeFirstMatch` results over the ten required kinds,
threading the `used` index set exactly as the source map does. -/
def agencyMatchesAux (existing : List Json) (used : List ℕ) :
    List AgencySection → List (Option (ℕ × Json))
  | [] => []
  | s :: rest =>
    match takeFirstMatch existing used s.slide_kinds with
    | some (i, x) => some (i, x) :: agencyMatchesAux existing (used ++ [i]) rest
    | none => none :: agencyMatchesAux existing used rest

def agencyMatches (existing : List Json) : List (Option (ℕ × Json)) :=
  agencyMatchesAux existing [] AGENCY_CREATIVE_10

/-- The draft-slide indices consumed by the lock, in required-kind order. -/
def agencyMatchIndices (existing : List Json) : List ℕ :=
  (agencyMatches existing).filterMap (fun o => o.map Prod.fst)

/-- One locked slide (`safe` in the source), including the
creative-concept and typographic mutations applied before `return safe`. -/
def buildLockedSlide (typographic : Bool) (title subtitle : JStr) (idx : ℕ)
    (s : AgencySection) (m : Option Json) : Json :=
  let baseKind := s.kind
  let layout := jsOr (mget m "layout")
    (jsOr (defaultLayoutByKind typographic baseKind) (jstr "split"))
  let titleV := jsOr (mget m "title")
    (if baseKind = js "title" then Json.str title else Json.str s.name)
  let subtitleV := jsOr (mget m "subtitle")
    (if baseKind = js "title" then Json.str subtitle else jstr "")
  let bullets0 : List Json :=
    match mget m "bullets" with
    | Json.arr xs => xs
    | _ => []
  let imagePrompt :=
    match mget m "image_prompt" with
    | Json.str s' => Json.str s'
    | _ => jsOr (defaultImagePromptByKind baseKind)
        (jstr "High-contrast abstract campaign key visual, premium editorial lighting, minimal, no text")
  let subtitleV2 :=
    if baseKind = js "creative_concept" then jsOr subtitleV (jstr "The big idea in one line.")
    else subtitleV
  let bullets1 := if baseKind = js "creative_concept" then bullets0.take 3 else bullets0
  let bullets2 :=
    if typographic then
      let maxBullets : ℕ :=
        if baseKind = js "communication_pillars" ∨ baseKind = js "current_audience" ∨
            baseKind = js "opportunity" then 3 else 2
      bullets1.take maxBullets
    else bullets1
  Json.obj
    [(js "kind", Json.str baseKind),
     (js "section", Json.str s.name),
     (js "layout", layout),
     (js "title", titleV),
     (js "subtitle", subtitleV2),
     (js "bullets", Json.arr bullets2),
     (js "stat", jsQQ (mget m "stat") Json.null),
     (js "quote", jsQQ (mget m "quote") Json.null),
     (js "image_prompt", imagePrompt),
     (js "speaker_notes", jsOr (mget m "speaker_notes") (jstr "")),
     (js "setup_line", jsOr (mget m "setup_line") (jstr "")),
     (js "takeaway", jsOr (mget m "takeaway") (jstr "")),
     (js "bridge_line", jsOr (mget m "bridge_line")
       (if idx = AGENCY_CREATIVE_10.length - 1 then jstr "" else jstr "Next:"))]

/-- The locked slide list (the `AGENCY_CREATIVE_10.map((s, idx) => …)`
of the source, with `takeFirstMatch` consuming indices left to right). -/
def lockedSlides (typographic : Bool) (title subtitle : JStr) (existing : List Json) :
    List Json :=
  (AGENCY_CREATIVE_10.enum.zip (agencyMatches existing)).map fun pm =>
    buildLockedSlide typographic title subtitle pm.1.1 pm.1.2 (pm.2.map Prod.snd)

/-- Source `lockDeckPlanToAgency10(deckPlan, extractJson, options)`. -/
def lockDeckPlanToAgency10 (deckPlan extractJson options : Json) : Json :=
  let title := asStr (jsOr (jget deckPlan "deck_title")
    (jsOr (jget extractJson "title") (jstr "Creative Campaign"))) 120
  let subtitle := asStr (jsOr (jget deckPlan "deck_subtitle")
    (jsOr (jget extractJson "subtitle") (jstr ""))) 140
  let typographic := isAgencyTypographic options
  let existing :=
    match jget deckPlan "slides" with
    | Json.arr xs => xs
    | _ => []
  mkSpread deckPlan
    [(js "deck_type", jstr "ad_agency"),
     (js "deck_title", Json.str title),
     (js "deck_subtitle", Json.str subtitle),
     (js "recommended_slide_count", jint 10),
     (js "slides", Json.arr (lockedSlides typographic title subtitle existing))]

/-! ### Concept refinement (pure part shared by the OpenAI and Gemini
variants; the two differ only in null-tolerant property access on the
parsed response, which coincides with this model whenever the response is
an object or the call is skipped) -/

/-- Errors thrown on the embedded code paths. -/
inductive JsErr where
  | generation (stage : JStr)
  | typeError
deriving DecidableEq

/-- The `findIndex` predicate of the concept-refinement stage:
`['creative_concept','big_idea'].includes((s?.kind || '').toString()
.toLowerCase())`, factored through the slide `kind` value. -/
def conceptKindValPred (v : Json) : Bool :=
  decide (toLowerStr (jsToString (jsOr v (jstr ""))) ∈
    [js "creative_concept", js "big_idea"])

def conceptKindPred (s : Json) : Bool := conceptKindValPred (jsGet s (js "kind"))

/-- `findIndex` with a running index. -/
def findIdxAux (pred : Json → Bool) : ℕ → List Json → Option ℕ
  | _, [] => none
  | i, s :: rest => if pred s then some i else findIdxAux pred (i + 1) rest

/-- Index of the first creative-concept slide
(`slides.findIndex(s => ['creative_concept','big_idea'].includes((s?.kind
|| '').toString().toLowerCase()))`, with `-1` modelled as `none`). -/
def conceptIdx (slides : List Json) : Option ℕ :=
  findIdxAux conceptKindPred 0 slides

/-- The replacement object for the concept slide
(`{...(s || {}), title, subtitle, bullets}` in the source). -/
def refinePatchOne (out : Json) (currentLine patchedLine : JStr) (s : Json) : Json :=
  mkSpread (jsOr s (Json.obj []))
    [(js "title", Json.str
        (if patchedLine ≠ [] then patchedLine
         else if currentLine ≠ [] then currentLine
         else js "Big idea")),
     (js "subtitle", Json.str (jsToString
        (jsOr (jget out "supporting_line") (jsOr (jsGet s (js "subtitle")) (jstr ""))))),
     (js "bullets",
      match jget out "proof_points" with
      | Json.arr xs => Json.arr (xs.filter truthy)
      | _ =>
        match jsGet s (js "bullets") with
        | Json.arr ys => Json.arr ys
        | _ => Json.arr [])]

/-- `const currentLine = (current.title || '').toString()` with
`current = slides[idx] || {}`. -/
def refineCurrentLine (slides : List Json) (idx : ℕ) : JStr :=
  jsToString (jsOr (jget (jsOr (slides.getD idx Json.null) (Json.obj [])) "title") (jstr ""))

/-- `const conceptLine = (out.concept_line || '').toString().trim()`. -/
def refineConceptLine (out : Json) : JStr :=
  trimStr (jsToString (jsOr (jget out "concept_line") (jstr "")))

/-- The patched slide list once a parsed refinement response `out` is in
hand (`nextSlides` in the source). -/
def refinePatchSlides (out : Json) (briefText : JStr) (slides : List Json) (idx : ℕ) :
    List Json :=
  let currentLine := refineCurrentLine slides idx
  let needsHelp := isWeakAgencyConceptLine currentLine briefText
  let conceptLine := refineConceptLine out
  let keep := truthy (jget out "keep_existing")
  let finalLine := if keep ∧ ¬needsHelp then currentLine else conceptLine
  let patchedLine :=
    if isWeakAgencyConceptLine finalLine briefText then
      (if conceptLine ≠ [] then conceptLine else currentLine)
    else finalLine
  slides.enum.map fun p =>
    if p.1 = idx then refinePatchOne out currentLine patchedLine p.2 else p.2

/-- Source `refineAgencyConceptWith…`: find the concept slide (returning
the plan untouched when absent — in that case no generation call is even
made), then either propagate a failed/empty generation outcome or patch
only the concept slide. -/
def refineAgencyConcept (response : Except JsErr (Option Json)) (briefText : JStr)
    (deckPlan : Json) : Except JsErr Json :=
  let slides :=
    match jget deckPlan "slides" with
    | Json.arr xs => xs
    | _ => []
  match conceptIdx slides with
  | none => Except.ok deckPlan
  | some idx =>
    match response with
    | Except.error e => Except.error e
    | Except.ok none => Except.ok deckPlan
    | Except.ok (some out) =>
      Except.ok (mkSpread (jsOr deckPlan (Json.obj []))
        [(js "slides", Json.arr (refinePatchSlides out briefText slides idx))])

/-! ### Normalization pass: `normalizePlan` and helpers -/

/-- Renderer-supported layouts (`SLIDE_LAYOUTS`). -/
def SLIDE_LAYOUTS : List JStr :=
  [js "hero", js "split", js "full_bleed", js "quote", js "stats", js "two_column",
   js "agency_center", js "agency_half", js "agency_infographic",
   js "section_header", js "agenda", js "cards", js "image_caption", js "timeline",
   js "kpi_dashboard", js "traffic_light", js "table", js "pricing",
   js "comparison_matrix", js "process_steps", js "team_grid", js "logo_wall", js "cta",
   js "swot", js "funnel", js "now_next_later", js "okr", js "case_study",
   js "chart_bar", js "chart_line", js "diagram", js "org_chart", js "faq",
   js "appendix", js "infographic_3"]

/-- Source `defaultTheme()`. -/
def defaultTheme : Json :=
  Json.obj
    [(js "vibe", jstr "Modern, premium"),
     (js "primary_color", jstr "#0B0F1A"),
     (js "secondary_color", jstr "#2A7FFF"),
     (js "font_heading", jstr "Aptos Display"),
     (js "font_body", jstr "Aptos")]

/-- Source `defaultSlide(idx)`. -/
def defaultSlide (idx : ℕ) : Json :=
  Json.obj
    [(js "kind", if idx = 0 then jstr "cover" else jstr "content"),
     (js "layout", if idx = 0 then jstr "hero" else jstr "split"),
     (js "section", jstr ""),
     (js "setup_line", jstr ""),
     (js "takeaway", jstr ""),
     (js "bridge_line", jstr ""),
     (js "title", if idx = 0 then jstr "Title" else Json.str (js "Slide " ++ natToStr (idx + 1))),
     (js "subtitle", jstr ""),
     (js "bullets", Json.arr []),
     (js "stat", Json.null),
     (js "quote", Json.null),
     (js "agenda_items", Json.null),
     (js "cards", Json.null),
     (js "timeline_items", Json.null),
     (js "kpis", Json.null),
     (js "status_items", Json.null),
     (js "table", Json.null),
     (js "pricing", Json.null),
     (js "matrix", Json.null),
     (js "steps", Json.null),
     (js "people", Json.null),
     (js "logo_items", Json.null),
     (js "cta", Json.null),
     (js "swot", Json.null),
     (js "funnel", Json.null),
     (js "now_next_later", Json.null),
     (js "okrs", Json.null),
     (js "case_study", Json.null),
     (js "diagram", Json.null),
     (js "icons", Json.null),
     (js "chart", Json.null),
     (js "org_chart", Json.null),
     (js "faq", Json.null),
     (js "image_prompt", jstr "Abstract premium background related to the slide topic"),
     (js "speaker_notes", jstr "")]

/-- Source `inferLayoutFromKind(kind)` (first matching rule wins;
`null` when nothing matches). -/
def inferLayoutFromKind (kind : JStr) : Json :=
  let k := toLowerStr kind
  if containsSub (js "cover") k then jstr "hero"
  else if containsSub (js "agenda") k then jstr "agenda"
  else if containsSub (js "section") k then jstr "section_header"
  else if containsSub (js "timeline") k || containsSub (js "roadmap") k then jstr "timeline"
  else if containsSub (js "swot") k then jstr "swot"
  else if containsSub (js "funnel") k then jstr "funnel"
  else if containsSub (js "now") k && containsSub (js "next") k && containsSub (js "later") k then
    jstr "now_next_later"
  else if containsSub (js "okr") k || containsSub (js "okrs") k then jstr "okr"
  else if containsSub (js "case study") k || containsSub (js "casestudy") k then jstr "case_study"
  else if containsSub (js "chart") k || containsSub (js "trend") k then jstr "chart_line"
  else if containsSub (js "diagram") k || containsSub (js "flow") k then jstr "diagram"
  else if containsSub (js "org") k || containsSub (js "organisation") k ||
      containsSub (js "organization") k then jstr "org_chart"
  else if containsSub (js "faq") k || containsSub (js "q&a") k then jstr "faq"
  else if containsSub (js "kpi") k || containsSub (js "metrics") k ||
      containsSub (js "dashboard") k then jstr "kpi_dashboard"
  else if containsSub (js "status") k || containsSub (js "ryg") k ||
      containsSub (js "traffic") k then jstr "traffic_light"
  else if containsSub (js "pricing") k || containsSub (js "package") k then jstr "pricing"
  else if containsSub (js "comparison") k || containsSub (js "matrix") k then
    jstr "comparison_matrix"
  else if containsSub (js "process") k || containsSub (js "steps") k then jstr "process_steps"
  else if containsSub (js "team") k then jstr "team_grid"
  else if containsSub (js "clients") k || containsSub (js "logos") k then jstr "logo_wall"
  else if containsSub (js "pillar") k || containsSub (js "infographic") k then jstr "infographic_3"
  else if containsSub (js "cta") k || containsSub (js "next steps") k ||
      containsSub (js "contact") k then jstr "cta"
  else Json.null

/-- The layouts for which `normalizePlan` forces `image_prompt` to
`'NONE'` when it is empty or `none`. -/
def dataHeavyLayouts : List JStr :=
  [js "kpi_dashboard", js "traffic_light", js "table", js "pricing",
   js "comparison_matrix", js "process_steps", js "team_grid", js "logo_wall",
   js "swot", js "funnel", js "now_next_later", js "okr", js "chart_bar",
   js "chart_line", js "diagram", js "org_chart", js "faq", js "case_study",
   js "appendix", js "infographic_3"]

/-- `Array.isArray(v) ? v.slice(0, cap).map(x => asStr(x, n)).filter(Boolean)
: dflt` — the string-array normalizer used for `bullets`, `agenda_items`,
`logo_items` and `key_results`. -/
def normStrArr (cap n : ℕ) (dflt : Json) (v : Json) : Json :=
  match v with
  | Json.arr xs => Json.arr (((xs.take cap).map fun u => Json.str (asStr u n)).filter truthy)
  | _ => dflt

/-- `Array.isArray(v) ? v.slice(0, cap).map(c => ({f₁: asStr(c?.f₁, n₁), …}))
: null` — the record-array normalizer used for `cards`, `timeline_items`,
`kpis`, `steps`, `people`, `funnel` and `faq`. -/
def normRecArr (cap : ℕ) (fields : List (JStr × ℕ)) (v : Json) : Json :=
  match v with
  | Json.arr xs => Json.arr ((xs.take cap).map fun c =>
      Json.obj (fields.map fun f => (f.1, Json.str (asStr (jsGet c f.1) f.2))))
  | _ => Json.null

/-- One element of the `status_items` normalizer (with the
red/yellow/green fallback). -/
def normStatusItem (it : Json) : Json :=
  let st := toLowerStr (jsToString (jsOr (jsGet it (js "status")) (jstr "")))
  Json.obj
    [(js "item", Json.str (asStr (jsGet it (js "item")) 90)),
     (js "status", Json.str
       (if st ∈ [js "red", js "yellow", js "green"] then st else js "yellow")),
     (js "owner", Json.str (asStr (jsGet it (js "owner")) 40)),
     (js "eta", Json.str (asStr (jsGet it (js "eta")) 30)),
     (js "blocker", Json.str (asStr (jsGet it (js "blocker")) 120))]

/-- The `status_items` normalizer. -/
def normStatusItems (v : Json) : Json :=
  match v with
  | Json.arr xs => Json.arr ((xs.take 12).map normStatusItem)
  | _ => Json.null

/-- One row of the `table` normalizer
(`Array.isArray(r) ? r.slice(0, 6).map(v => asStr(v, 40)) : []`). -/
def normTableRow (r : Json) : Json :=
  match r with
  | Json.arr vs => Json.arr ((vs.take 6).map fun u => Json.str (asStr u 40))
  | _ => Json.arr []

/-- The row filter of the `table` normalizer (`r.length >= 2`). -/
def normTableRowPred (r : Json) : Bool :=
  match r with
  | Json.arr vs => decide (2 ≤ vs.length)
  | _ => false

/-- The `table` normalizer. -/
def normTable (v : Json) : Json :=
  if truthy v then
    match jsGet v (js "headers"), jsGet v (js "rows") with
    | Json.arr hs, Json.arr rs =>
      Json.obj
        [(js "headers", Json.arr ((hs.take 6).map fun h => Json.str (asStr h 40))),
         (js "rows", Json.arr (((rs.take 12).map normTableRow).filter normTableRowPred))]
    | _, _ => Json.null
  else Json.null

/-- One element of the `okrs` normalizer. -/
def normOkrItem (o : Json) : Json :=
  Json.obj
    [(js "objective", Json.str (asStr (jsGet o (js "objective")) 120)),
     (js "key_results", normStrArr 6 160 (Json.arr []) (jsGet o (js "key_results")))]

/-- The `okrs` normalizer. -/
def normOkrs (v : Json) : Json :=
  match v with
  | Json.arr xs => Json.arr ((xs.take 5).map normOkrItem)
  | _ => Json.null

/-- The `diagram` normalizer. -/
def normDiagram (v : Json) : Json :=
  if truthy v then
    Json.obj
      [(js "code", Json.str (asStr (jsOr (jsGet v (js "code")) (jstr "")) 4000)),
       (js "theme", Json.str (asStr (jsOr (jsGet v (js "theme")) (jstr "")) 40))]
  else Json.null

/-- One element of the `icons` normalizer. -/
def normIconItem (ic : Json) : Json :=
  Json.obj
    [(js "name", Json.str (asStr (jsOr (jsGet ic (js "name")) (jstr "")) 120)),
     (js "label", Json.str (asStr (jsOr (jsGet ic (js "label")) (jstr "")) 80))]

/-- The `icons` normalizer. -/
def normIcons (v : Json) : Json :=
  match v with
  | Json.arr xs => Json.arr ((xs.take 6).map normIconItem)
  | _ => Json.null

/-- The `labels` element list of the `chart` normalizer. -/
def normChartLabels (w : Json) : List Json :=
  match w with
  | Json.arr ls => (ls.take 10).map fun u => Json.str (asStr u 80)
  | _ => []

/-- The `values` element list of the `chart` normalizer. -/
def normChartValues (w : Json) : List Json :=
  match w with
  | Json.arr vs => (vs.take 10).map fun u => Json.num (jsToNum u)
  | _ => []

/-- The `chart` normalizer. -/
def normChart (v : Json) : Json :=
  if truthy v then
    Json.obj
      [(js "chart_type", Json.str (asStr (jsOr (jsGet v (js "chart_type")) (jstr "")) 20)),
       (js "labels", Json.arr (normChartLabels (jsGet v (js "labels")))),
       (js "values", Json.arr (normChartValues (jsGet v (js "values")))),
       (js "value_suffix", Json.str (asStr (jsOr (jsGet v (js "value_suffix")) (jstr "")) 20)),
       (js "spec", jsQQ (jsGet v (js "spec")) Json.null)]
  else Json.null

/-- `asStr(s?.kind || base.kind, 60)`. -/
def normKind (idx : ℕ) (s : Json) : JStr :=
  asStr (jsOr (jsGet s (js "kind")) (jsGet (defaultSlide idx) (js "kind"))) 60

/-- `layoutRaw = asStr(s?.layout || inferred || base.layout, 40)`;
`SLIDE_LAYOUTS.includes(layoutRaw) ? layoutRaw : base.layout`. -/
def normLayout (idx : ℕ) (s : Json) : JStr :=
  let layoutRaw := asStr (jsOr (jsGet s (js "layout"))
    (jsOr (inferLayoutFromKind (normKind idx s)) (jsGet (defaultSlide idx) (js "layout")))) 40
  if layoutRaw ∈ SLIDE_LAYOUTS then layoutRaw
  else jsToString (jsGet (defaultSlide idx) (js "layout"))

/-- `asStr(s?.title || base.title, 140)`. -/
def normTitle (idx : ℕ) (s : Json) : JStr :=
  asStr (jsOr (jsGet s (js "title")) (jsGet (defaultSlide idx) (js "title"))) 140

/-- `asStr(s?.subtitle || '', 240)`. -/
def normSubtitle (s : Json) : JStr := asStr (jsOr (jsGet s (js "subtitle")) (jstr "")) 240

/-- `asStr(s?.image_prompt ?? base.image_prompt, 800)` with the
data-heavy-layout `NONE` override applied afterwards. -/
def normImagePrompt (idx : ℕ) (s : Json) : JStr :=
  let ip0 := asStr (jsQQ (jsGet s (js "image_prompt"))
    (jsGet (defaultSlide idx) (js "image_prompt"))) 800
  if normLayout idx s ∈ dataHeavyLayouts ∧
      (trimStr ip0 = [] ∨ toLowerStr (trimStr ip0) = js "none") then js "NONE"
  else ip0

/-- `asStr(s?.speaker_notes ?? '', 1600)`. -/
def normSpeakerNotes (s : Json) : JStr :=
  asStr (jsQQ (jsGet s (js "speaker_notes")) (jstr "")) 1600

/-- The per-slide normalization (`slides = (plan.slides || []).map((s, idx)
=> { … })`).  The source builds `{ ...base, overrides }` where the
override literal covers every `defaultSlide` key except `section`,
`setup_line`, `takeaway` and `bridge_line`, then conditionally reassigns
`image_prompt`; the resulting object is written out here directly in base
key order. -/
def normalizeSlide (idx : ℕ) (s : Json) : Json :=
  Json.obj
    [(js "kind", Json.str (normKind idx s)),
     (js "layout", Json.str (normLayout idx s)),
     (js "section", jstr ""),
     (js "setup_line", jstr ""),
     (js "takeaway", jstr ""),
     (js "bridge_line", jstr ""),
     (js "title", Json.str (normTitle idx s)),
     (js "subtitle", Json.str (normSubtitle s)),
     (js "bullets", normStrArr 8 180 (Json.arr []) (jsGet s (js "bullets"))),
     (js "stat", jsQQ (jsGet s (js "stat")) Json.null),
     (js "quote", jsQQ (jsGet s (js "quote")) Json.null),
     (js "agenda_items", normStrArr 10 120 Json.null (jsGet s (js "agenda_items"))),
     (js "cards", normRecArr 6 [(js "title", 80), (js "body", 220), (js "tag", 40)]
       (jsGet s (js "cards"))),
     (js "timeline_items", normRecArr 12
       [(js "date_or_phase", 40), (js "label", 80), (js "detail", 140)]
       (jsGet s (js "timeline_items"))),
     (js "kpis", normRecArr 8 [(js "label", 60), (js "value", 40), (js "delta", 30)]
       (jsGet s (js "kpis"))),
     (js "status_items", normStatusItems (jsGet s (js "status_items"))),
     (js "table", normTable (jsGet s (js "table"))),
     (js "pricing", jsQQ (jsGet s (js "pricing")) Json.null),
     (js "matrix", jsQQ (jsGet s (js "matrix")) Json.null),
     (js "steps", normRecArr 8 [(js "title", 70), (js "detail", 160)] (jsGet s (js "steps"))),
     (js "people", normRecArr 10 [(js "name", 60), (js "role", 60), (js "bio", 200)]
       (jsGet s (js "people"))),
     (js "logo_items", normStrArr 30 40 Json.null (jsGet s (js "logo_items"))),
     (js "cta", jsQQ (jsGet s (js "cta")) Json.null),
     (js "swot", jsQQ (jsGet s (js "swot")) Json.null),
     (js "funnel", normRecArr 7 [(js "label", 60), (js "value", 40)] (jsGet s (js "funnel"))),
     (js "now_next_later", jsQQ (jsGet s (js "now_next_later")) Json.null),
     (js "okrs", normOkrs (jsGet s (js "okrs"))),
     (js "case_study", jsQQ (jsGet s (js "case_study")) Json.null),
     (js "diagram", normDiagram (jsGet s (js "diagram"))),
     (js "icons", normIcons (jsGet s (js "icons"))),
     (js "chart", normChart (jsGet s (js "chart"))),
     (js "org_chart", jsQQ (jsGet s (js "org_chart")) Json.null),
     (js "faq", normRecArr 8 [(js "q", 140), (js "a", 220)] (jsGet s (js "faq"))),
     (js "image_prompt", Json.str (normImagePrompt idx s)),
     (js "speaker_notes", Json.str (normSpeakerNotes s))]

/-- The anchor slide injected when no infographic-style slide is present. -/
def infographicSlide : Json :=
  Json.obj
    [(js "kind", jstr "infographic_summary"),
     (js "layout", jstr "infographic_3"),
     (js "title", jstr "Speak Locally. Resonate Nationally."),
     (js "subtitle", jstr "Our strategy turns complexity into three simple pillars:"),
     (js "cards", Json.arr
       [Json.obj [(js "title", jstr "Hyper-Local Pride"),
                  (js "body", jstr "Celebrate unique identity and local cues."),
                  (js "tag", jstr "pin")],
        Json.obj [(js "title", jstr "Universal Invitation"),
                  (js "body", jstr "Unify the campaign under one idea."),
                  (js "tag", jstr "signal")],
        Json.obj [(js "title", jstr "Simplicity & Clarity"),
                  (js "body", jstr "Make the call-to-action unforgettable."),
                  (js "tag", jstr "hashtag")]]),
     (js "image_prompt", jstr "NONE"),
     (js "speaker_notes", jstr "")]

/-- The anchor slide injected when no quote-style slide is present. -/
def quoteSlide (plan : Json) : Json :=
  let quoteText := asStr (jsOr (jsGet (jget plan "_extract") (js "objective"))
    (jsOr (jsGet (jget plan "_extract") (js "source_summary"))
      (jstr "A single, memorable idea beats a dozen scattered messages."))) 260
  Json.obj
    [(js "kind", jstr "quote"),
     (js "layout", jstr "quote"),
     (js "title", jstr "Key Thought"),
     (js "subtitle", jstr ""),
     (js "quote", Json.obj [(js "text", Json.str quoteText), (js "attribution", jstr "")]),
     (js "image_prompt", jstr "Abstract premium background, subtle texture, no text"),
     (js "speaker_notes", jstr "")]

/-- `s.layout === 'quote'` style check used by the anchor detection. -/
def slideLayoutIs (l : String) (s : Json) : Bool :=
  match jsGet s (js "layout") with
  | Json.str x => x = l.data
  | _ => false

/-- Anchor injection for non-locked archetypes (both `hasQuote` and
`hasInfographic` are computed before either splice, the splices then run
in source order). -/
def injectAnchors (plan : Json) (slides : List Json) : List Json :=
  let hasQuote := slides.any fun s =>
    slideLayoutIs "quote" s ||
      containsSub (js "quote") (toLowerStr (jsToString (jsOr (jsGet s (js "kind")) (jstr ""))))
  let hasInfographic := slides.any fun s =>
    slideLayoutIs "infographic_3" s ||
      containsSub (js "pillar") (toLowerStr (jsToString (jsOr (jsGet s (js "kind")) (jstr ""))))
  let slides1 :=
    if !hasInfographic then slides.insertIdx (min 2 slides.length) infographicSlide
    else slides
  if !hasQuote then slides1.insertIdx (max (slides1.length - 1) 1) (quoteSlide plan)
  else slides1

/-- Is this slide protected by the trim loop
(`layout === 'quote' || layout === 'infographic_3'` after string
coercion)? -/
def anchorKeep (s : Json) : Bool :=
  let layout := toLowerStr (jsToString (jsOr (jsGet s (js "layout")) (jstr "")))
  layout = js "quote" || layout = js "infographic_3"

/-- Remove the first non-anchor element of a reversed slide list. -/
def dropFirstNonAnchorRev : List Json → Option (List Json)
  | [] => none
  | x :: xs =>
    if anchorKeep x then (dropFirstNonAnchorRev xs).map (x :: ·)
    else some xs

/-- Remove the last non-anchor slide, as one iteration of the source
`while` loop does (scan `i` from the end, `continue` on anchors, remove
the first hit). -/
def removeLastNonAnchor (slides : List Json) : Option (List Json) :=
  (dropFirstNonAnchorRev slides.reverse).map List.reverse

theorem dropFirstNonAnchorRev_length :
    ∀ {l l2 : List Json}, dropFirstNonAnchorRev l = some l2 → l2.length < l.length := by
  intro l
  induction l with
  | nil => intro l2 h; simp [dropFirstNonAnchorRev] at h
  | cons x xs ih =>
    intro l2 h
    rw [dropFirstNonAnchorRev] at h
    split at h
    · cases h2 : dropFirstNonAnchorRev xs with
      | none => rw [h2] at h; simp at h
      | some ys =>
        rw [h2] at h
        simp only [Option.map_some'] at h
        cases h
        simpa using Nat.succ_lt_succ (ih h2)
    · cases h
      simp

theorem removeLastNonAnchor_length {slides slides2 : List Json}
    (h : removeLastNonAnchor slides = some slides2) : slides2.length < slides.length := by
  unfold removeLastNonAnchor at h
  cases h2 : dropFirstNonAnchorRev slides.reverse with
  | none => rw [h2] at h; simp at h
  | some ys =>
    rw [h2] at h
    simp only [Option.map_some'] at h
    cases h
    have := dropFirstNonAnchorRev_length h2
    simpa using this

/-- The trim `while` loop of `normalizePlan`, with an explicit fuel for
structural recursion.  Each iteration removes exactly one slide, so a
fuel equal to the initial length is never exhausted before the loop
condition fails: fuel reaches 0 only once the list is empty, and an empty
list fails `target < slides.length` anyway. -/
def trimLoopFuel : ℕ → List Json → ℕ → List Json
  | 0, slides, _ => slides
  | fuel + 1, slides, target =>
    if target < slides.length then
      match removeLastNonAnchor slides with
      | some slides2 => trimLoopFuel fuel slides2 target
      | none => slides
    else slides

def trimLoop (slides : List Json) (target : ℕ) : List Json :=
  trimLoopFuel slides.length slides target

/-- The `requestedSlides` computation of `normalizePlan`. -/
def requestedSlidesOf (plan options : Json) : ℤ :=
  clampInt
    (jsQQ (jget options "nSlides")
      (jsQQ (jget plan "recommended_slide_count")
        (match jget plan "slides" with
         | Json.arr xs => jint xs.length
         | _ => jint 10)))
    5 30 10

/-- The `deckType` computation of `normalizePlan`. -/
def deckTypeOf (plan options : Json) : JStr :=
  trimStr (toLowerStr (asStr
    (jsOr (jget plan "deck_type")
      (jsOr (jget options "deckType")
        (jsOr (jget options "deck_type")
          (jsOr (jsGet (jget plan "_extract") (js "deck_type_suggestion")) (jstr "other")))))
    80))

/-- The field list of `{ ...defaultTheme(), ...(plan.theme || {}) }`. -/
def foldTheme (plan : Json) : List (JStr × Json) :=
  (spreadFields (jsOr (jget plan "theme") (Json.obj []))).foldl
    (fun acc kv => setField acc kv.1 kv.2) (spreadFields defaultTheme)

/-- The `theme` computation of `normalizePlan`
(`{ ...defaultTheme(), ...(plan.theme || {}) }` plus the conditional
`deck_style` assignment). -/
def themeOf (plan options : Json) : Json :=
  let theme0 := Json.obj (foldTheme plan)
  if truthy (jget options "deckStyle") ∧ ¬truthy (jsGet theme0 (js "deck_style")) then
    match theme0 with
    | Json.obj fs => Json.obj (setField fs (js "deck_style") (jget options "deckStyle"))
    | x => x
  else theme0

/-- The final slide list of `normalizePlan`, given the elements `xs` of
the `plan.slides` array: per-slide normalization, anchor injection for
non-locked deck types, the trim loop, and the hard cap. -/
def finalSlidesOf (plan options : Json) (xs : List Json) : List Json :=
  let slides0 := xs.enum.map fun p => normalizeSlide p.1 p.2
  let withAnchors :=
    if deckTypeOf plan options ≠ js "ad_agency" then injectAnchors plan slides0 else slides0
  let targetN := (requestedSlidesOf plan options).toNat
  (trimLoop withAnchors targetN).take targetN

/-- The successfully returned object of `normalizePlan`. -/
def normalizePlanCore (plan options : Json) (xs : List Json) : Json :=
  Json.obj
    [(js "deck_type", Json.str (deckTypeOf plan options)),
     (js "deck_title", Json.str (asStr
       (jsOr (jget plan "deck_title")
         (jsOr (jsGet (jget plan "_extract") (js "title")) (jstr "Untitled Deck"))) 140)),
     (js "deck_subtitle", Json.str (asStr
       (jsOr (jget plan "deck_subtitle")
         (jsOr (jsGet (jget plan "_extract") (js "subtitle")) (jstr ""))) 200)),
     (js "recommended_slide_count", Json.num (JNum.int
       (clampInt (jsQQ (jget plan "recommended_slide_count") (jint (requestedSlidesOf plan options)))
         5 30 (requestedSlidesOf plan options)))),
     (js "theme", themeOf plan options),
     (js "slides", Json.arr (finalSlidesOf plan options xs)),
     (js "brand_logo", jsOr (jget plan "brand_logo")
       (jsOr (jsGet (jget plan "theme") (js "brand_logo")) Json.null)),
     (js "_extract", jsOr (jget plan "_extract") Json.null)]

/-- Source `normalizePlan(plan, options)`.  The one modelled throw site is
`(plan.slides || []).map(...)`: a truthy non-array `plan.slides` has no
`.map` method and raises a `TypeError` in the source, yielding
`Except.error` here; otherwise the returned object is
`normalizePlanCore`. -/
def normalizePlan (plan options : Json) : Except JsErr Json :=
  match jsOr (jget plan "slides") (Json.arr []) with
  | Json.arr xs => Except.ok (normalizePlanCore plan options xs)
  | _ => Except.error JsErr.typeError

/-! ### The planning pipeline: `planDeck` and the delivery call site.

Every Generation Service call is abstracted by a supplied outcome
(`Except`), covering both providers uniformly: the embedded logic between
the calls is identical for OpenAI and Gemini.  `Except.error` models a
rejected call, a missing/empty response treated as an error by the stage,
or a `JSON.parse` throw; the refinement stage additionally distinguishes
a missing response body, which that stage swallows (`Except.ok none`). -/

/-- The per-request Generation Service outcomes, in pipeline order. -/
structure StageOutcomes where
  onePassR : Except JsErr Json
  extractR : Except JsErr Json
  narrativeR : Except JsErr Json
  messagingR : Except JsErr Json
  assembleR : Except JsErr Json
  editR : Except JsErr Json
  refineR : Except JsErr (Option Json)

/-- `v === false` (used by `options.twoPass !== false` and
`options.editorPass !== false`). -/
def isFalseJ : Json → Bool
  | Json.bool false => true
  | _ => false

/-- A strict-mode JS property assignment `v[key] = x`: updates objects,
is invisible on arrays for every property the embedded code later reads,
and throws a `TypeError` on primitives. -/
def jsSetProp (v : Json) (key : JStr) (x : Json) : Except JsErr Json :=
  match v with
  | Json.obj fs => Except.ok (Json.obj (setField fs key x))
  | Json.arr ys => Except.ok (Json.arr ys)
  | _ => Except.error JsErr.typeError

/-- The two conditional mutations
`extract.explicit_outline = outlineSignals.outline` and
`extract.slide_count_range_hint = outlineSignals.range` of `planDeck`. -/
def attachSignals (briefText : JStr) (extract : Json) : Except JsErr Json :=
  let sig := extractExplicitOutlineSignals briefText
  let step1 :=
    if sig.outline ≠ [] then
      jsSetProp extract (js "explicit_outline") (outlineToJson sig.outline)
    else Except.ok extract
  match step1 with
  | Except.error e => Except.error e
  | Except.ok e1 =>
    match sig.range with
    | some r => jsSetProp e1 (js "slide_count_range_hint") (rangeToJson (some r))
    | none => Except.ok e1

/-- The tail of `planDeck` from the locked/unlocked plan on: the concept
refinement (locked only) and the `_extract` / `_narrative` / `_messaging`
property assignments. -/
def planDeckFinish (locked : Bool) (refineR : Except JsErr (Option Json)) (briefText : JStr)
    (planLocked extract narrativeLocked messaging : Json) : Except JsErr Json :=
  match (if locked then refineAgencyConcept refineR briefText planLocked
         else Except.ok planLocked) with
  | Except.error e => Except.error e
  | Except.ok planRefined =>
    match jsSetProp planRefined (js "_extract") extract with
    | Except.error e => Except.error e
    | Except.ok p1 =>
      match jsSetProp p1 (js "_narrative") narrativeLocked with
      | Except.error e => Except.error e
      | Except.ok p2 => jsSetProp p2 (js "_messaging") messaging

/-- Source `planDeck(briefText, options)` with the Generation Service
calls abstracted by `oc` (the non-two-pass branch returns the legacy
one-pass call outcome directly); a rejected `await` propagates as the
stage error. -/
def planDeck (oc : StageOutcomes) (briefText : JStr) (options : Json) :
    Except JsErr Json :=
  let twoPass := !isFalseJ (jget options "twoPass")
  if !twoPass then oc.onePassR
  else
    match oc.extractR with
    | Except.error e => Except.error e
    | Except.ok extract0 =>
      match attachSignals briefText extract0 with
      | Except.error e => Except.error e
      | Except.ok extract =>
        match oc.narrativeR with
        | Except.error e => Except.error e
        | Except.ok narrative =>
          let narrativeLocked :=
            if shouldLockAgency10 extract options then
              lockNarrativeToAgency10 narrative extract
            else narrative
          match oc.messagingR with
          | Except.error e => Except.error e
          | Except.ok messaging =>
            match oc.assembleR with
            | Except.error e => Except.error e
            | Except.ok draftPlan =>
              let useEditorPass := !isFalseJ (jget options "editorPass")
              match (if useEditorPass then oc.editR else Except.ok draftPlan) with
              | Except.error e => Except.error e
              | Except.ok plan =>
                let planLocked :=
                  if shouldLockAgency10 extract options then
                    lockDeckPlanToAgency10 plan extract options
                  else plan
                planDeckFinish (shouldLockAgency10 extract options) oc.refineR briefText
                  planLocked extract narrativeLocked messaging

/-- The delivery call site (`server/index.js`):
`normalizePlan(await planDeck(briefText, options), options)`. -/
def deliverPlan (oc : StageOutcomes) (briefText : JStr) (options : Json) :
    Except JsErr Json :=
  match planDeck oc briefText options with
  | Except.error e => Except.error e
  | Except.ok raw => normalizePlan raw options

/-- Concrete all-success stage outcomes (each generation call returns an
empty object; the refinement response has no content), used to
instantiate the pipeline theorems. -/
def trivialOutcomes : StageOutcomes :=
  { onePassR := Except.ok (Json.obj [])
    extractR := Except.ok (Json.obj [])
    narrativeR := Except.ok (Json.obj [])
    messagingR := Except.ok (Json.obj [])
    assembleR := Except.ok (Json.obj [])
    editR := Except.ok (Json.obj [])
    refineR := Except.ok none }

/-- Concrete outcomes whose extraction call fails, used to instantiate
the error-propagation theorem. -/
def failingExtractOutcomes : StageOutcomes :=
  { onePassR := Except.ok (Json.obj [])
    extractR := Except.error (JsErr.generation (js "extract"))
    narrativeR := Except.ok (Json.obj [])
    messagingR := Except.ok (Json.obj [])
    assembleR := Except.ok (Json.obj [])
    editR := Except.ok (Json.obj [])
    refineR := Except.ok none }

/-- Observation: the normalized slide count. -/
def slidesLengthOf (r : Except JsErr Json) : Option ℕ :=
  match r with
  | Except.ok p =>
    match jget p "slides" with
    | Json.arr xs => some xs.length
    | _ => none
  | Except.error _ => none

/-- Observation: the title of the first slide of a returned plan. -/
def firstSlideTitleOf (r : Except JsErr Json) : Option Json :=
  match r with
  | Except.ok p =>
    match jget p "slides" with
    | Json.arr (s :: _) => some (jsGet s (js "title"))
    | _ => none
  | Except.error _ => none

/-- Observation: how many normalized slides carry the `quote` layout. -/
def quoteLayoutCountOf (r : Except JsErr Json) : Option ℕ :=
  match r with
  | Except.ok p =>
    match jget p "slides" with
    | Json.arr xs => some ((xs.filter (slideLayoutIs "quote")).length)
    | _ => none
  | Except.error _ => none

/-- Observation: the `bullets` field of the first slide of a successful
normalization result. -/
def firstSlideBulletsOf (r : Except JsErr Json) : Option Json :=
  match r with
  | Except.ok p =>
    match jget p "slides" with
    | Json.arr (s :: _) => some (jsGet s (js "bullets"))
    | _ => none
  | Except.error _ => none

/-- The keys of an object field list. -/
def keysOf (fs : List (JStr × Json)) : List JStr := fs.map Prod.fst

/-- A value is string-clean at width `n` when it is not a truthy value
whose string coercion truncated to `n` characters is empty (values such
as `[]` or `[[]]` are truthy but stringify to the empty string). -/
def strClean (v : Json) (n : ℕ) : Bool := !(truthy v && (asStr v n).isEmpty)

/-- Every slide of a `slides` array has a string-clean `kind` and
`title`; non-arrays hold no slide, hence are vacuously clean. -/
def slidesKindTitleClean : Json → Bool
  | Json.arr xs => xs.all fun s =>
      strClean (jsGet s (js "kind")) 60 && strClean (jsGet s (js "title")) 140
  | _ => true

/-- `plan.theme || {}` is a plain object with pairwise-distinct keys, as
every JS object is: the duplicate-key possibility is an artifact of the
ordered-field-list object model, and truthy non-object themes are
excluded. -/
def themeObjOk (tv : Json) : Bool :=
  match jsOr tv (Json.obj []) with
  | Json.obj fs => decide (keysOf fs).Nodup
  | _ => false

/-! ## Theorems -/

/-! ### C8: injective draft-slide matching in the structural lock -/

theorem takeFirstMatchAux_not_used {kl : List JStr} {used : List ℕ} :
    ∀ {l : List (ℕ × Json)} {i x}, takeFirstMatchAux kl used l = some (i, x) → i ∉ used := by
  intro l
  induction l with
  | nil => intro i x h; simp [takeFirstMatchAux] at h
  | cons p rest ih =>
    obtain ⟨j, y⟩ := p
    intro i x h
    rw [takeFirstMatchAux] at h
    split at h
    · rename_i hcond
      have hij : j = i := congrArg Prod.fst (Option.some.inj h)
      exact hij ▸ hcond.1
    · exact ih h

theorem takeFirstMatch_not_used {existing : List Json} {used : List ℕ}
    {kinds : List JStr} {i : ℕ} {x : Json}
    (h : takeFirstMatch existing used kinds = some (i, x)) : i ∉ used :=
  takeFirstMatchAux_not_used h

theorem agencyMatchesAux_nodup (existing : List Json) :
    ∀ (sections : List AgencySection) (used : List ℕ),
      ((agencyMatchesAux existing used sections).filterMap
          (fun o => o.map Prod.fst)).Nodup ∧
      ∀ i ∈ (agencyMatchesAux existing used sections).filterMap
          (fun o => o.map Prod.fst), i ∉ used := by
  intro sections
  induction sections with
  | nil => intro used; simp [agencyMatchesAux]
  | cons s rest ih =>
    intro used
    rw [agencyMatchesAux]
    cases htf : takeFirstMatch existing used s.slide_kinds with
    | none =>
      simpa only [List.filterMap_cons, Option.map_none'] using ih used
    | some p =>
      obtain ⟨i, x⟩ := p
      have hnu : i ∉ used := takeFirstMatch_not_used htf
      obtain ⟨ihn, ihm⟩ := ih (used ++ [i])
      simp only [List.filterMap_cons, Option.map_some']
      constructor
      · rw [List.nodup_cons]
        refine ⟨fun hmem => ?_, ihn⟩
        have := ihm i hmem
        exact this (List.mem_append.mpr (Or.inr (by simp)))
      · intro j hj
        rcases List.mem_cons.mp hj with hji | hjrest
        · exact hji ▸ hnu
        · intro hju
          exact ihm j hjrest (List.mem_append.mpr (Or.inl hju))

/-- Claim C8: the structural lock consumes each draft-slide index at most
once — the list of indices matched by the ten required kinds has no
duplicates, for every draft slide list. -/
theorem agencyLock_injective_matching (existing : List Json) :
    (agencyMatchIndices existing).Nodup :=
  (agencyMatchesAux_nodup existing AGENCY_CREATIVE_10 []).1

/-! ### C10: outline extraction -/

theorem dedupeAux_mem (l : List (ℕ × JStr)) :
    ∀ acc n t, ((n, t) ∈ dedupeAux acc l ↔
      (n, t) ∈ acc ∨
        (n ∉ acc.map Prod.fst ∧
          l.find? (fun it => it.1 == n) = some (n, t))) := by
  induction l with
  | nil => intro acc n t; simp [dedupeAux]
  | cons it rest ih =>
    obtain ⟨i1, i2⟩ := it
    intro acc n t
    by_cases hc : i1 ∈ acc.map Prod.fst
    · rw [dedupeAux, if_pos hc, ih]
      by_cases hn : i1 = n
      · subst hn
        constructor
        · rintro (h | ⟨h1, _⟩)
          · exact Or.inl h
          · exact absurd hc h1
        · rintro (h | ⟨h1, _⟩)
          · exact Or.inl h
          · exact absurd hc h1
      · have hbe : ((i1, i2).1 == n) = false := by simp [hn]
        simp only [List.find?, hbe]
    · rw [dedupeAux, if_neg hc, ih]
      by_cases hn : i1 = n
      · subst hn
        have hfind : ((i1, i2) :: rest).find? (fun x => x.1 == i1) = some (i1, i2) := by
          simp [List.find?]
        constructor
        · rintro (h | ⟨h1, _⟩)
          · rw [List.mem_append] at h
            rcases h with h | h
            · exact Or.inl h
            · simp only [List.mem_singleton, Prod.mk.injEq] at h
              refine Or.inr ⟨hc, ?_⟩
              rw [hfind, h.2]
          · exfalso
            exact h1 (by simp [List.map_append])
        · rintro (h | ⟨_, h2⟩)
          · exact Or.inl (List.mem_append.mpr (Or.inl h))
          · rw [hfind] at h2
            have ht : i2 = t := congrArg Prod.snd (Option.some.inj h2)
            exact Or.inl (List.mem_append.mpr (Or.inr (by simp [ht])))
      · have hbe : ((i1, i2).1 == n) = false := by simp [hn]
        have hmapc : n ∈ (acc ++ [(i1, i2)]).map Prod.fst ↔ n ∈ acc.map Prod.fst := by
          rw [List.map_append]
          simp only [List.mem_append, List.map_cons, List.map_nil, List.mem_singleton]
          constructor
          · rintro (h | h)
            · exact h
            · exact absurd h.symm hn
          · exact Or.inl
        constructor
        · rintro (h | ⟨h1, h2⟩)
          · rw [List.mem_append] at h
            rcases h with h | h
            · exact Or.inl h
            · simp only [List.mem_singleton, Prod.mk.injEq] at h
              exact absurd h.1.symm hn
          · refine Or.inr ⟨fun hm => h1 (hmapc.mpr hm), ?_⟩
            simp only [List.find?, hbe]
            exact h2
        · rintro (h | ⟨h1, h2⟩)
          · exact Or.inl (List.mem_append.mpr (Or.inl h))
          · refine Or.inr ⟨fun hm => h1 (hmapc.mp hm), ?_⟩
            simpa only [List.find?, hbe] using h2

theorem dedupeAux_nodup (l : List (ℕ × JStr)) :
    ∀ acc, ((acc.map Prod.fst).Nodup) → ((dedupeAux acc l).map Prod.fst).Nodup := by
  induction l with
  | nil => intro acc h; simpa [dedupeAux] using h
  | cons it rest ih =>
    intro acc h
    by_cases hc : it.1 ∈ acc.map Prod.fst
    · rw [dedupeAux, if_pos hc]; exact ih acc h
    · rw [dedupeAux, if_neg hc]
      refine ih (acc ++ [it]) ?_
      simp [List.map_append, List.nodup_append, h, hc]

/-- Claim C10: the outline produced by `extractExplicitOutlineSignals`
has strictly increasing slide numbers (hence pairwise distinct), and for
every entry the kept title is the one of the *first* matched line with
that slide number. -/
theorem extractOutline_strictMono_firstKept (text : JStr) :
    List.Pairwise (fun a b : ℕ × JStr => a.1 < b.1)
      (extractExplicitOutlineSignals text).outline ∧
    ∀ n t, (n, t) ∈ (extractExplicitOutlineSignals text).outline →
      (rawOutlineItems text).find? (fun it => it.1 == n) = some (n, t) := by
  have hperm :
      List.Perm (List.insertionSort byKeyLE (dedupeByN (rawOutlineItems text)))
        (dedupeByN (rawOutlineItems text)) :=
    List.perm_insertionSort byKeyLE _
  have hsorted :
      List.Sorted byKeyLE (List.insertionSort byKeyLE (dedupeByN (rawOutlineItems text))) :=
    List.sorted_insertionSort byKeyLE _
  have hnodup0 : ((dedupeByN (rawOutlineItems text)).map Prod.fst).Nodup :=
    dedupeAux_nodup _ [] (by simp)
  have hnodup :
      ((List.insertionSort byKeyLE (dedupeByN (rawOutlineItems text))).map Prod.fst).Nodup :=
    ((hperm.map Prod.fst).nodup_iff).mpr hnodup0
  constructor
  · have hne : List.Pairwise (fun a b : ℕ × JStr => a.1 ≠ b.1)
        (List.insertionSort byKeyLE (dedupeByN (rawOutlineItems text))) :=
      (List.pairwise_map).mp hnodup
    have := hsorted.and hne
    refine this.imp ?_
    rintro a b ⟨hle, hneq⟩
    exact lt_of_le_of_ne hle hneq
  · intro n t hmem
    have hmem2 : (n, t) ∈ dedupeByN (rawOutlineItems text) := hperm.subset hmem
    have := (dedupeAux_mem (rawOutlineItems text) [] n t).mp hmem2
    rcases this with h | ⟨_, h2⟩
    · simp at h
    · exact h2

/-- Witness for C10: on a text with two `Slide 3` lines the outline keeps
the first title, and the theorem applies at that concrete input. -/
theorem extractOutline_strictMono_firstKept_witness :
    (rawOutlineItems (js "Slide 3: Market Overview\nSlide 3 - Duplicate")).find?
      (fun it => it.1 == 3) = some (3, js "Market Overview") :=
  (extractOutline_strictMono_firstKept (js "Slide 3: Market Overview\nSlide 3 - Duplicate")).2
    3 (js "Market Overview") (by decide)

/-- Claim C6 (counterexample): for the line `"Hello World"` and an empty
brief (so no whitelist term is present), the code classifies the line as
not weak, while the claimed rule set — whose short-line clause is
vacuously satisfied when the restricted whitelist is empty — classifies
it as weak. -/
theorem isWeak_specWeak_mismatch :
    isWeakAgencyConceptLine (js "Hello World") (js "") = false ∧
    specWeakLine (js "Hello World") (js "") = true := by
  constructor <;> rfl

/-- Claim C6 (amended): the classifier returns true exactly when the
trimmed line is empty, contains a colon, matches generic campaign
phrasing, is a 3+ item alliterative comma list, exceeds 12 words, or has
at most 6 words, shares no token with the brief-restricted whitelist,
*and* the brief mentions at least one whitelist term; in particular the
line `"Tune the City to One Frequency"` is not weak for a brief
containing `tune`, `city` and `frequency`. -/
theorem isWeak_eq_specWeakAmended :
    (∀ line briefText,
      isWeakAgencyConceptLine line briefText = specWeakLineAmended line briefText) ∧
    isWeakAgencyConceptLine (js "Tune the City to One Frequency")
      (js "tune the city frequency") = false := by
  constructor
  · intro line briefText
    unfold isWeakAgencyConceptLine specWeakLineAmended
    cases h1 : (trimStr line).isEmpty <;> simp only [h1, Bool.true_or, Bool.false_or] <;>
      try rfl
    cases h2 : containsSub (js ":") (trimStr line) <;>
      simp only [h2, Bool.true_or, Bool.false_or] <;> try rfl
    cases h3 : genericCampaignLine (trimStr line) <;>
      simp only [h3, Bool.true_or, Bool.false_or] <;> try rfl
    cases h4 : allitList (trimStr line) <;>
      simp only [h4, Bool.true_or, Bool.false_or] <;> try rfl
    cases h5 : decide (12 < (conceptWords (trimStr line)).length) <;>
      simp only [h5, Bool.true_or, Bool.false_or] <;> try rfl
    cases h6 : (briefKeywords briefText).isEmpty <;>
      simp only [h6, Bool.not_true, Bool.not_false, Bool.true_and, Bool.false_and,
        if_true, if_false] <;> try rfl
    cases h7 : (briefKeywords briefText).any
        (fun k => containsSub k (toLowerStr (trimStr line))) <;>
      cases h8 : decide ((conceptWords (trimStr line)).length ≤ 6) <;>
      simp [h7, h8]
  · rfl

/-! ### Field-lookup lemmas for object updates and spreads -/

theorem jsGet_obj (fs : List (JStr × Json)) (k : JStr) :
    jsGet (Json.obj fs) k = lookupField fs k := rfl

theorem lookupField_setField_self (fs : List (JStr × Json)) (k : JStr) (v : Json) :
    lookupField (setField fs k v) k = v := by
  induction fs with
  | nil => simp [setField, lookupField]
  | cons kv fs ih =>
    obtain ⟨k', w⟩ := kv
    by_cases h : k' = k
    · subst h; simp [setField, lookupField]
    · simp only [setField, if_neg h, lookupField, ih]

theorem lookupField_setField_ne (fs : List (JStr × Json)) {k k' : JStr} (h : k' ≠ k)
    (v : Json) : lookupField (setField fs k' v) k = lookupField fs k := by
  induction fs with
  | nil => simp [setField, lookupField, h]
  | cons kv fs ih =>
    obtain ⟨k2, w⟩ := kv
    by_cases h2 : k2 = k'
    · subst h2
      simp only [setField, if_pos rfl, lookupField]
      rw [if_neg h, if_neg h]
    · simp only [setField, if_neg h2, lookupField]
      by_cases h3 : k2 = k
      · rw [if_pos h3, if_pos h3]
      · rw [if_neg h3, if_neg h3, ih]

theorem lookupField_foldl_setField_not_mem (kvs : List (JStr × Json)) (k : JStr)
    (h : ∀ kv ∈ kvs, kv.1 ≠ k) :
    ∀ fs, lookupField (kvs.foldl (fun acc kv => setField acc kv.1 kv.2) fs) k =
      lookupField fs k := by
  induction kvs with
  | nil => intro fs; rfl
  | cons kv kvs ih =>
    intro fs
    rw [List.foldl_cons]
    rw [ih (fun x hx => h x (List.mem_cons.mpr (Or.inr hx)))]
    exact lookupField_setField_ne fs (h kv (List.mem_cons.mpr (Or.inl rfl))) kv.2

/-- Reading an unoverridden key from `{ ...(s || {}), overrides }` is the
same as reading it from `s`, for every `s` whose spread carries no
digit-indexed fields colliding with the key (objects, primitives, and —
for the keys used here — arrays and strings too, whose index keys are
digit strings). -/
theorem jsGet_mkSpread_obj (fs : List (JStr × Json)) (kvs : List (JStr × Json)) (k : JStr)
    (h : ∀ kv ∈ kvs, kv.1 ≠ k) :
    jsGet (mkSpread (Json.obj fs) kvs) k = lookupField fs k := by
  unfold mkSpread
  rw [jsGet_obj, lookupField_foldl_setField_not_mem kvs k h]
  rfl

/-! ### Structural lock output fields -/

theorem lock_deck_fields (dp e o : Json) :
    jsGet (lockDeckPlanToAgency10 dp e o) (js "slides") =
      Json.arr (lockedSlides (isAgencyTypographic o)
        (asStr (jsOr (jget dp "deck_title") (jsOr (jget e "title") (jstr "Creative Campaign"))) 120)
        (asStr (jsOr (jget dp "deck_subtitle") (jsOr (jget e "subtitle") (jstr ""))) 140)
        (match jget dp "slides" with | Json.arr xs => xs | _ => [])) ∧
    jsGet (lockDeckPlanToAgency10 dp e o) (js "deck_type") = jstr "ad_agency" ∧
    jsGet (lockDeckPlanToAgency10 dp e o) (js "recommended_slide_count") = jint 10 := by
  refine ⟨?_, ?_, ?_⟩
  · unfold lockDeckPlanToAgency10 mkSpread
    simp only [List.foldl_cons, List.foldl_nil]
    rw [jsGet_obj, lookupField_setField_self]
  · unfold lockDeckPlanToAgency10 mkSpread
    simp only [List.foldl_cons, List.foldl_nil]
    rw [jsGet_obj, lookupField_setField_ne _ (by decide), lookupField_setField_ne _ (by decide),
      lookupField_setField_ne _ (by decide), lookupField_setField_ne _ (by decide),
      lookupField_setField_self]
  · unfold lockDeckPlanToAgency10 mkSpread
    simp only [List.foldl_cons, List.foldl_nil]
    rw [jsGet_obj, lookupField_setField_ne _ (by decide), lookupField_setField_self]

theorem lock_is_obj (dp e o : Json) :
    ∃ fs, lockDeckPlanToAgency10 dp e o = Json.obj fs := by
  unfold lockDeckPlanToAgency10 mkSpread
  exact ⟨_, rfl⟩

theorem buildLockedSlide_kind (ty : Bool) (t st : JStr) (i : ℕ) (s : AgencySection)
    (m : Option Json) :
    jsGet (buildLockedSlide ty t st i s m) (js "kind") = Json.str s.kind := rfl

theorem agencyMatchesAux_length (ex : List Json) :
    ∀ (secs : List AgencySection) (used : List ℕ),
      (agencyMatchesAux ex used secs).length = secs.length := by
  intro secs
  induction secs with
  | nil => intro used; rfl
  | cons s rest ih =>
    intro used
    rw [agencyMatchesAux]
    rcases htf : takeFirstMatch ex used s.slide_kinds with _ | ⟨i, x⟩ <;> simp [htf, ih]

theorem lockedSlides_kinds_aux (ty : Bool) (t st : JStr) :
    ∀ (secs : List AgencySection) (n : ℕ) (ms : List (Option (ℕ × Json))),
      ms.length = secs.length →
      (((List.enumFrom n secs).zip ms).map fun pm =>
          buildLockedSlide ty t st pm.1.1 pm.1.2 (pm.2.map Prod.snd)).map
        (fun sl => jsGet sl (js "kind")) =
      secs.map fun s => Json.str s.kind := by
  intro secs
  induction secs with
  | nil => intro n ms h; simp
  | cons s rest ih =>
    intro n ms h
    cases ms with
    | nil => simp at h
    | cons m ms2 =>
      simp only [List.enumFrom, List.zip_cons_cons, List.map_cons]
      rw [buildLockedSlide_kind, ih (n + 1) ms2 (by simpa using h)]

theorem lockedSlides_kinds (ty : Bool) (t st : JStr) (ex : List Json) :
    (lockedSlides ty t st ex).map (fun sl => jsGet sl (js "kind")) =
      AGENCY_CREATIVE_10.map fun s => Json.str s.kind := by
  unfold lockedSlides
  exact lockedSlides_kinds_aux ty t st AGENCY_CREATIVE_10 0 (agencyMatches ex)
    (agencyMatchesAux_length ex AGENCY_CREATIVE_10 [])

theorem lockedSlides_length (ty : Bool) (t st : JStr) (ex : List Json) :
    (lockedSlides ty t st ex).length = 10 := by
  have h := congrArg List.length (lockedSlides_kinds ty t st ex)
  simpa using h

theorem lockedSlides_obj (ty : Bool) (t st : JStr) (ex : List Json) :
    ∀ sl ∈ lockedSlides ty t st ex, ∃ fs, sl = Json.obj fs := by
  intro sl hsl
  unfold lockedSlides at hsl
  obtain ⟨pm, _, rfl⟩ := List.mem_map.mp hsl
  exact ⟨_, rfl⟩

theorem findIdxAux_factor :
    ∀ (l : List Json) (n : ℕ),
      findIdxAux conceptKindPred n l =
        findIdxAux conceptKindValPred n (l.map fun sl => jsGet sl (js "kind")) := by
  intro l
  induction l with
  | nil => intro n; rfl
  | cons s rest ih =>
    intro n
    rw [List.map_cons, findIdxAux, findIdxAux]
    by_cases h : conceptKindPred s
    · rw [if_pos h, if_pos (show conceptKindValPred (jsGet s (js "kind")) = true from h)]
    · rw [if_neg h, if_neg (show ¬conceptKindValPred (jsGet s (js "kind")) = true from h), ih]

/-- The locked slide list always carries its concept slide at index 6. -/
theorem conceptIdx_lockedSlides (ty : Bool) (t st : JStr) (ex : List Json) :
    conceptIdx (lockedSlides ty t st ex) = some 6 := by
  unfold conceptIdx
  rw [findIdxAux_factor, lockedSlides_kinds]
  rfl

/-! ### Concept-refinement preservation lemmas -/

theorem refinePatchOne_kind (out : Json) (cl pl : JStr) (s : Json)
    (hobj : ∃ fs, s = Json.obj fs) :
    jsGet (refinePatchOne out cl pl s) (js "kind") = jsGet s (js "kind") := by
  obtain ⟨fs, rfl⟩ := hobj
  unfold refinePatchOne
  rw [show jsOr (Json.obj fs) (Json.obj []) = Json.obj fs from rfl]
  rw [jsGet_mkSpread_obj fs _ _ ?_]
  · rfl
  · intro kv hkv
    simp only [List.mem_cons, List.not_mem_nil, or_false] at hkv
    rcases hkv with rfl | rfl | rfl
    · exact (by decide : js "title" ≠ js "kind")
    · exact (by decide : js "subtitle" ≠ js "kind")
    · exact (by decide : js "bullets" ≠ js "kind")

theorem enumFrom_patch_kinds (g : Json → Json)
    (hg : ∀ s, (∃ fs, s = Json.obj fs) → jsGet (g s) (js "kind") = jsGet s (js "kind"))
    (idx : ℕ) :
    ∀ (l : List Json) (n : ℕ), (∀ sl ∈ l, ∃ fs, sl = Json.obj fs) →
      ((List.enumFrom n l).map fun p => if p.1 = idx then g p.2 else p.2).map
          (fun sl => jsGet sl (js "kind")) =
        l.map fun sl => jsGet sl (js "kind") := by
  intro l
  induction l with
  | nil => intro n h; rfl
  | cons s rest ih =>
    intro n h
    simp only [List.enumFrom, List.map_cons]
    have hs := h s (List.mem_cons_self s rest)
    have htail := ih (n + 1) fun x hx => h x (List.mem_cons_of_mem s hx)
    by_cases hn : n = idx
    · simp only [if_pos hn]
      rw [hg s hs, htail]
    · simp only [if_neg hn]
      rw [htail]

theorem refinePatchSlides_kinds (out : Json) (brief : JStr) (slides : List Json) (idx : ℕ)
    (h : ∀ sl ∈ slides, ∃ fs, sl = Json.obj fs) :
    (refinePatchSlides out brief slides idx).map (fun sl => jsGet sl (js "kind")) =
      slides.map fun sl => jsGet sl (js "kind") := by
  unfold refinePatchSlides
  exact enumFrom_patch_kinds _ (fun s hs => refinePatchOne_kind _ _ _ s hs) idx slides 0 h

theorem refinePatchSlides_length (out : Json) (brief : JStr) (slides : List Json) (idx : ℕ) :
    (refinePatchSlides out brief slides idx).length = slides.length := by
  unfold refinePatchSlides
  rw [List.length_map, List.enum_length]

/-- On a plan whose slide list has its concept slide at some index, the
refinement stage either propagates the generation error or returns an
object plan with the same slide count, the same per-slide kinds, and the
same `deck_type` / `recommended_slide_count`. -/
theorem refineAgencyConcept_locked (resp : Except JsErr (Option Json)) (brief : JStr)
    (dp : Json) (fs0 : List (JStr × Json)) (sl : List Json) (i : ℕ)
    (hobj : dp = Json.obj fs0)
    (hsl : jsGet dp (js "slides") = Json.arr sl)
    (hconcept : conceptIdx sl = some i)
    (hslobj : ∀ x ∈ sl, ∃ fs, x = Json.obj fs) :
    (∃ e, resp = Except.error e ∧ refineAgencyConcept resp brief dp = Except.error e) ∨
    (∃ out ys, refineAgencyConcept resp brief dp = Except.ok out ∧
      (∃ fs, out = Json.obj fs) ∧
      jsGet out (js "slides") = Json.arr ys ∧ ys.length = sl.length ∧
      ys.map (fun x => jsGet x (js "kind")) = sl.map (fun x => jsGet x (js "kind")) ∧
      jsGet out (js "deck_type") = jsGet dp (js "deck_type") ∧
      jsGet out (js "recommended_slide_count") = jsGet dp (js "recommended_slide_count")) := by
  have hget : jget dp "slides" = Json.arr sl := hsl
  simp only [refineAgencyConcept, hget, hconcept]
  cases resp with
  | error e => exact Or.inl ⟨e, rfl, rfl⟩
  | ok o =>
    cases o with
    | none =>
      refine Or.inr ⟨dp, sl, rfl, ⟨fs0, hobj⟩, hsl, rfl, rfl, rfl, rfl⟩
    | some out0 =>
      subst hobj
      refine Or.inr ⟨_, refinePatchSlides out0 brief sl i, rfl, ?_, ?_, ?_, ?_, ?_, ?_⟩
      · exact ⟨_, rfl⟩
      · rw [show jsOr (Json.obj fs0) (Json.obj []) = Json.obj fs0 from rfl]
        unfold mkSpread
        simp only [List.foldl_cons, List.foldl_nil]
        rw [jsGet_obj, lookupField_setField_self]
      · exact refinePatchSlides_length out0 brief sl i
      · exact refinePatchSlides_kinds out0 brief sl i hslobj
      · rw [show jsOr (Json.obj fs0) (Json.obj []) = Json.obj fs0 from rfl]
        unfold mkSpread
        simp only [List.foldl_cons, List.foldl_nil]
        rw [jsGet_obj, lookupField_setField_ne _ (by decide)]
        rfl
      · rw [show jsOr (Json.obj fs0) (Json.obj []) = Json.obj fs0 from rfl]
        unfold mkSpread
        simp only [List.foldl_cons, List.foldl_nil]
        rw [jsGet_obj, lookupField_setField_ne _ (by decide)]
        rfl

/-- The three trailing property assignments preserve `slides`,
`deck_type` and `recommended_slide_count` on object plans. -/
theorem jsSetProp_preserves (fs : List (JStr × Json)) (key : JStr) (x : Json) (k : JStr)
    (h : key ≠ k) :
    ∃ fs2, jsSetProp (Json.obj fs) key x = Except.ok (Json.obj fs2) ∧
      lookupField fs2 k = lookupField fs k :=
  ⟨setField fs key x, rfl, lookupField_setField_ne fs h x⟩

/-! ### C1: the delivered locked agency deck -/

theorem jsSetProp_obj (fs : List (JStr × Json)) (key : JStr) (x : Json) :
    jsSetProp (Json.obj fs) key x = Except.ok (Json.obj (setField fs key x)) := rfl

theorem trimLoopFuel_noop (fuel : ℕ) (slides : List Json) (target : ℕ)
    (h : ¬target < slides.length) : trimLoopFuel fuel slides target = slides := by
  cases fuel with
  | zero => rfl
  | succ n => rw [trimLoopFuel, if_neg h]

theorem normalizeSlide_kind (i : ℕ) (s : Json) :
    jsGet (normalizeSlide i s) (js "kind") =
      Json.str (asStr (jsOr (jsGet s (js "kind")) (jsGet (defaultSlide i) (js "kind"))) 60) := rfl

theorem enum_normalize_kinds :
    ∀ (l : List Json) (ks : List JStr) (n : ℕ),
      l.map (fun x => jsGet x (js "kind")) = ks.map Json.str →
      (∀ k ∈ ks, k ≠ [] ∧ k.take 60 = k) →
      ((List.enumFrom n l).map fun p => normalizeSlide p.1 p.2).map
          (fun x => jsGet x (js "kind")) = ks.map Json.str := by
  intro l
  induction l with
  | nil =>
    intro ks n h hks
    rw [List.map_nil] at h
    rw [List.enumFrom]
    exact h
  | cons s rest ih =>
    intro ks n h hks
    cases ks with
    | nil => simp at h
    | cons k ks2 =>
      simp only [List.map_cons, List.cons.injEq] at h
      obtain ⟨hk, hrest⟩ := h
      obtain ⟨hkne, hktake⟩ := hks k (List.mem_cons_self k ks2)
      simp only [List.enumFrom, List.map_cons]
      rw [normalizeSlide_kind, hk]
      have hor : jsOr (Json.str k) (jsGet (defaultSlide n) (js "kind")) = Json.str k := by
        unfold jsOr
        rw [if_pos (by simpa [truthy] using hkne)]
      rw [hor]
      have hasStr : asStr (Json.str k) 60 = k := by
        unfold asStr
        simp only [Json.isNull, if_false]
        exact hktake
      rw [hasStr, ih ks2 (n + 1) hrest fun x hx => hks x (List.mem_cons_of_mem k hx)]

theorem requestedSlides_of_rec10 (raw options : Json)
    (hr : jsGet raw (js "recommended_slide_count") = jint 10) :
    requestedSlidesOf raw options = clampInt (jsQQ (jget options "nSlides") (jint 10)) 5 30 10 := by
  unfold requestedSlidesOf
  rw [show jget raw "recommended_slide_count" = jint 10 from hr]
  rfl

/-- A plan carrying a 10-slide canonical-kind slide list, `deck_type`
`ad_agency` and `recommended_slide_count` 10 normalizes — whenever the
requested slide count resolves to at least 10 — to a plan that still has
exactly 10 slides with the canonical kind sequence. -/
theorem normalizePlan_locked10 (raw options : Json) (ys : List Json)
    (hs : jsGet raw (js "slides") = Json.arr ys)
    (hk : ys.map (fun x => jsGet x (js "kind")) =
      AGENCY_CREATIVE_10.map fun s => Json.str s.kind)
    (hd : jsGet raw (js "deck_type") = jstr "ad_agency")
    (hr : jsGet raw (js "recommended_slide_count") = jint 10)
    (hns : 10 ≤ clampInt (jsQQ (jget options "nSlides") (jint 10)) 5 30 10) :
    ∃ final xs, normalizePlan raw options = Except.ok final ∧
      jsGet final (js "slides") = Json.arr xs ∧ xs.length = 10 ∧
      xs.map (fun x => jsGet x (js "kind")) =
        AGENCY_CREATIVE_10.map fun s => Json.str s.kind := by
  have hlen : ys.length = 10 := by
    have h := congrArg List.length hk
    simpa using h
  have hdt : deckTypeOf raw options = js "ad_agency" := by
    unfold deckTypeOf
    rw [show jget raw "deck_type" = jstr "ad_agency" from hd]
    rfl
  have hreq : 10 ≤ requestedSlidesOf raw options := by
    rw [requestedSlides_of_rec10 raw options hr]
    exact hns
  have hkinds0 :
      (ys.enum.map fun p => normalizeSlide p.1 p.2).map (fun x => jsGet x (js "kind")) =
        AGENCY_CREATIVE_10.map fun s => Json.str s.kind := by
    have hk2 : ys.map (fun x => jsGet x (js "kind")) =
        (AGENCY_CREATIVE_10.map fun s => s.kind).map Json.str := by
      rw [List.map_map]
      exact hk
    have h := enum_normalize_kinds ys (AGENCY_CREATIVE_10.map fun s => s.kind) 0 hk2
      (by decide)
    rw [List.map_map] at h ⊢
    exact h
  have hlen0 : (ys.enum.map fun p => normalizeSlide p.1 p.2).length = 10 := by
    have h := congrArg List.length hkinds0
    simpa using h
  have htn : (10 : ℕ) ≤ (requestedSlidesOf raw options).toNat := by omega
  have hfinal : finalSlidesOf raw options ys = ys.enum.map fun p => normalizeSlide p.1 p.2 := by
    unfold finalSlidesOf trimLoop
    simp only [hdt, ne_eq, not_true_eq_false, if_false]
    rw [trimLoopFuel_noop _ _ _ (by omega)]
    exact List.take_of_length_le (by omega)
  refine ⟨normalizePlanCore raw options ys, ys.enum.map fun p => normalizeSlide p.1 p.2,
    ?_, ?_, hlen0, hkinds0⟩
  · unfold normalizePlan
    rw [show jget raw "slides" = Json.arr ys from hs]
    rfl
  · show lookupField _ _ = _
    rw [show lookupField
        [(js "deck_type", Json.str (deckTypeOf raw options)),
         (js "deck_title", Json.str (asStr
           (jsOr (jget raw "deck_title")
             (jsOr (jsGet (jget raw "_extract") (js "title")) (jstr "Untitled Deck"))) 140)),
         (js "deck_subtitle", Json.str (asStr
           (jsOr (jget raw "deck_subtitle")
             (jsOr (jsGet (jget raw "_extract") (js "subtitle")) (jstr ""))) 200)),
         (js "recommended_slide_count", Json.num (JNum.int
           (clampInt (jsQQ (jget raw "recommended_slide_count")
             (jint (requestedSlidesOf raw options))) 5 30 (requestedSlidesOf raw options)))),
         (js "theme", themeOf raw options),
         (js "slides", Json.arr (finalSlidesOf raw options ys)),
         (js "brand_logo", jsOr (jget raw "brand_logo")
           (jsOr (jsGet (jget raw "theme") (js "brand_logo")) Json.null)),
         (js "_extract", jsOr (jget raw "_extract") Json.null)] (js "slides") =
        Json.arr (finalSlidesOf raw options ys) from rfl]
    rw [hfinal]

/-- Claim C1 (amended): whenever the two-pass pipeline runs, the lock
condition holds for the extracted facts and options, and the requested
slide count resolves to at least 10 (in particular whenever
`options.nSlides` is absent), the plan delivered to the caller — the
normalization of the `planDeck` result — has exactly 10 slides whose
kinds are the fixed canonical sequence, regardless of what the narrative,
assembly, editorial and concept-refinement stages produced.  (With
`nSlides` clamping below 10 the claim fails: see the counterexample.) -/
theorem delivered_locked_deck_10 (oc : StageOutcomes) (briefText : JStr)
    (options extract0 extract final : Json)
    (htp : isFalseJ (jget options "twoPass") = false)
    (hex : oc.extractR = Except.ok extract0)
    (hat : attachSignals briefText extract0 = Except.ok extract)
    (hlock : shouldLockAgency10 extract options = true)
    (hns : 10 ≤ clampInt (jsQQ (jget options "nSlides") (jint 10)) 5 30 10)
    (hok : deliverPlan oc briefText options = Except.ok final) :
    ∃ xs, jsGet final (js "slides") = Json.arr xs ∧ xs.length = 10 ∧
      xs.map (fun x => jsGet x (js "kind")) =
        AGENCY_CREATIVE_10.map fun s => Json.str s.kind := by
  unfold deliverPlan planDeck at hok
  rw [htp] at hok
  simp only [Bool.not_false, Bool.not_true, Bool.false_eq_true, if_false, hex, hat] at hok
  cases hnar : oc.narrativeR with
  | error e => rw [hnar] at hok; simp at hok
  | ok narrative =>
  rw [hnar] at hok
  cases hmsg : oc.messagingR with
  | error e => rw [hmsg] at hok; simp at hok
  | ok messaging =>
  rw [hmsg] at hok
  cases hasm : oc.assembleR with
  | error e => rw [hasm] at hok; simp at hok
  | ok draftPlan =>
  rw [hasm] at hok
  simp only [hlock, if_true] at hok
  cases hpl : (if !isFalseJ (jget options "editorPass") then oc.editR
      else Except.ok draftPlan) with
  | error e => rw [hpl] at hok; simp at hok
  | ok plan =>
  rw [hpl] at hok
  simp only [] at hok
  obtain ⟨fsL, hfsL⟩ := lock_is_obj plan extract options
  obtain ⟨hslides, hdtype, hrec⟩ := lock_deck_fields plan extract options
  rcases refineAgencyConcept_locked oc.refineR briefText
      (lockDeckPlanToAgency10 plan extract options) fsL _ 6 hfsL hslides
      (conceptIdx_lockedSlides _ _ _ _) (lockedSlides_obj _ _ _ _) with
    ⟨e, _, hre⟩ | ⟨out, ys, hre, ⟨fso, hfso⟩, hoslides, hlenys, hkys, hodt, horec⟩
  · unfold planDeckFinish at hok
    rw [if_pos rfl] at hok
    rw [hre] at hok
    simp at hok
  · unfold planDeckFinish at hok
    rw [if_pos rfl] at hok
    rw [hre] at hok
    subst hfso
    simp only [jsSetProp] at hok
    have hk3 : ∀ k : JStr, js "_extract" ≠ k → js "_narrative" ≠ k → js "_messaging" ≠ k →
        jsGet (Json.obj (setField (setField (setField fso (js "_extract") extract)
          (js "_narrative") (lockNarrativeToAgency10 narrative extract))
          (js "_messaging") messaging)) k = lookupField fso k := by
      intro k h1 h2 h3
      rw [jsGet_obj, lookupField_setField_ne _ h3, lookupField_setField_ne _ h2,
        lookupField_setField_ne _ h1]
    have hkyscan : ys.map (fun x => jsGet x (js "kind")) =
        AGENCY_CREATIVE_10.map fun s => Json.str s.kind := by
      rw [hkys, lockedSlides_kinds]
    obtain ⟨final2, xs, hnp, hfs, hlen, hknd⟩ :=
      normalizePlan_locked10
        (Json.obj (setField (setField (setField fso (js "_extract") extract)
          (js "_narrative") (lockNarrativeToAgency10 narrative extract))
          (js "_messaging") messaging)) options ys
        (by rw [hk3 _ (by decide) (by decide) (by decide)]; exact hoslides)
        hkyscan
        (by rw [hk3 _ (by decide) (by decide) (by decide)]
            rw [show (lookupField fso (js "deck_type") : Json) =
              jsGet (Json.obj fso) (js "deck_type") from rfl]
            rw [hodt]; exact hdtype)
        (by rw [hk3 _ (by decide) (by decide) (by decide)]
            rw [show (lookupField fso (js "recommended_slide_count") : Json) =
              jsGet (Json.obj fso) (js "recommended_slide_count") from rfl]
            rw [horec]; exact hrec)
        hns
    rw [hnp] at hok
    have := Except.ok.inj hok
    subst this
    exact ⟨xs, hfs, hlen, hknd⟩

/-- Witness for C1: the amended theorem applied to a concrete locked
request without `nSlides`. -/
theorem delivered_locked_deck_10_witness :
    ∃ final xs,
      deliverPlan trivialOutcomes (js "") (Json.obj [(js "deckType", jstr "ad_agency")]) =
        Except.ok final ∧
      jsGet final (js "slides") = Json.arr xs ∧ xs.length = 10 ∧
      xs.map (fun x => jsGet x (js "kind")) =
        AGENCY_CREATIVE_10.map fun s => Json.str s.kind := by
  obtain ⟨xs, h1, h2, h3⟩ := delivered_locked_deck_10 trivialOutcomes (js "")
    (Json.obj [(js "deckType", jstr "ad_agency")]) (Json.obj []) (Json.obj []) _
    (by decide) rfl rfl (by decide) (by decide) rfl
  exact ⟨_, xs, rfl, h1, h2, h3⟩

/-- Claim C1 (counterexample): a locked `ad_agency` request with
`options.nSlides = 7` is delivered with only 7 slides — the normalization
pass trims the locked 10-slide deck, so the claim as stated (10 slides
regardless of `nSlides`) is false. -/
theorem delivered_locked_deck_trimmed_below_10 :
    slidesLengthOf (deliverPlan trivialOutcomes (js "")
      (Json.obj [(js "deckType", jstr "ad_agency"), (js "nSlides", jint 7)])) = some 7 := by
  rfl

/-! ### C9: stage-failure propagation -/

theorem refineAgencyConcept_error (e : JsErr) (brief : JStr) (dp : Json) (sl : List Json)
    (i : ℕ) (hsl : jsGet dp (js "slides") = Json.arr sl) (hc : conceptIdx sl = some i) :
    refineAgencyConcept (Except.error e) brief dp = Except.error e := by
  simp only [refineAgencyConcept, show jget dp "slides" = Json.arr sl from hsl, hc]

/-- Claim C9: if the Generation Service call of any executed stage —
extraction, narrative, messaging, assembly, editorial refinement (when
the editor pass is on), or concept refinement (when the lock holds) —
fails, `planDeck` returns exactly that error; since the result is an
`Except.error`, no (partial) deck plan is delivered. -/
theorem planDeck_propagates_stage_failure (oc : StageOutcomes) (briefText : JStr)
    (options : Json) (e : JsErr) :
    (isFalseJ (jget options "twoPass") = false → oc.extractR = Except.error e →
      planDeck oc briefText options = Except.error e) ∧
    (∀ extract0 extract, isFalseJ (jget options "twoPass") = false →
      oc.extractR = Except.ok extract0 →
      attachSignals briefText extract0 = Except.ok extract →
      oc.narrativeR = Except.error e →
      planDeck oc briefText options = Except.error e) ∧
    (∀ extract0 extract narrative, isFalseJ (jget options "twoPass") = false →
      oc.extractR = Except.ok extract0 →
      attachSignals briefText extract0 = Except.ok extract →
      oc.narrativeR = Except.ok narrative →
      oc.messagingR = Except.error e →
      planDeck oc briefText options = Except.error e) ∧
    (∀ extract0 extract narrative messaging, isFalseJ (jget options "twoPass") = false →
      oc.extractR = Except.ok extract0 →
      attachSignals briefText extract0 = Except.ok extract →
      oc.narrativeR = Except.ok narrative →
      oc.messagingR = Except.ok messaging →
      oc.assembleR = Except.error e →
      planDeck oc briefText options = Except.error e) ∧
    (∀ extract0 extract narrative messaging draftPlan,
      isFalseJ (jget options "twoPass") = false →
      oc.extractR = Except.ok extract0 →
      attachSignals briefText extract0 = Except.ok extract →
      oc.narrativeR = Except.ok narrative →
      oc.messagingR = Except.ok messaging →
      oc.assembleR = Except.ok draftPlan →
      isFalseJ (jget options "editorPass") = false →
      oc.editR = Except.error e →
      planDeck oc briefText options = Except.error e) ∧
    (∀ extract0 extract narrative messaging draftPlan plan,
      isFalseJ (jget options "twoPass") = false →
      oc.extractR = Except.ok extract0 →
      attachSignals briefText extract0 = Except.ok extract →
      oc.narrativeR = Except.ok narrative →
      oc.messagingR = Except.ok messaging →
      oc.assembleR = Except.ok draftPlan →
      (if !isFalseJ (jget options "editorPass") then oc.editR
        else Except.ok draftPlan) = Except.ok plan →
      shouldLockAgency10 extract options = true →
      oc.refineR = Except.error e →
      planDeck oc briefText options = Except.error e) := by
  refine ⟨?_, ?_, ?_, ?_, ?_, ?_⟩
  · intro htp hex
    unfold planDeck
    rw [htp]
    simp only [Bool.not_false, Bool.not_true, Bool.false_eq_true, if_false, hex]
  · intro extract0 extract htp hex hat hnar
    unfold planDeck
    rw [htp]
    simp only [Bool.not_false, Bool.not_true, Bool.false_eq_true, if_false, hex, hat, hnar]
  · intro extract0 extract narrative htp hex hat hnar hmsg
    unfold planDeck
    rw [htp]
    simp only [Bool.not_false, Bool.not_true, Bool.false_eq_true, if_false, hex, hat, hnar,
      hmsg]
  · intro extract0 extract narrative messaging htp hex hat hnar hmsg hasm
    unfold planDeck
    rw [htp]
    simp only [Bool.not_false, Bool.not_true, Bool.false_eq_true, if_false, hex, hat, hnar,
      hmsg, hasm]
  · intro extract0 extract narrative messaging draftPlan htp hex hat hnar hmsg hasm hep hed
    unfold planDeck
    rw [htp]
    simp only [Bool.not_false, Bool.not_true, Bool.false_eq_true, if_false, hex, hat, hnar,
      hmsg, hasm, hep, Bool.not_false, if_true, hed]
  · intro extract0 extract narrative messaging draftPlan plan htp hex hat hnar hmsg hasm hpl
      hlock href
    unfold planDeck
    rw [htp]
    simp only [Bool.not_false, Bool.not_true, Bool.false_eq_true, if_false, hex, hat, hnar,
      hmsg, hasm, hpl, hlock, if_true]
    unfold planDeckFinish
    rw [if_pos rfl, href]
    obtain ⟨hslides, _, _⟩ := lock_deck_fields plan extract options
    rw [refineAgencyConcept_error e briefText _ _ 6 hslides (conceptIdx_lockedSlides _ _ _ _)]

/-- Witness for C9: a failing extraction call propagates its error. -/
theorem planDeck_propagates_stage_failure_witness :
    planDeck failingExtractOutcomes (js "") (Json.obj []) =
      Except.error (JsErr.generation (js "extract")) :=
  (planDeck_propagates_stage_failure failingExtractOutcomes (js "") (Json.obj [])
    (JsErr.generation (js "extract"))).1 (by decide) rfl

/-! ### C2 / C4 / C5: normalization bounds, totality, trimming -/

theorem clampInt_le_hi (n : Json) (lo hi f : ℤ) (h : lo ≤ hi) : clampInt n lo hi f ≤ hi := by
  unfold clampInt
  cases jsToNum n with
  | nan => exact max_le h (min_le_left _ _)
  | int m => exact max_le h (min_le_left _ _)

theorem clampInt_lo_le (n : Json) (lo hi f : ℤ) : lo ≤ clampInt n lo hi f := by
  unfold clampInt
  cases jsToNum n with
  | nan => exact le_max_left _ _
  | int m => exact le_max_left _ _

/-- Claim C2 (amended): every successfully normalized plan has at most 30
slides; the lower bound 5 of the claim is not enforced (see the
counterexample), since normalization never pads a short deck. -/
theorem normalizePlan_slides_le_30 (plan options out : Json)
    (h : normalizePlan plan options = Except.ok out) :
    ∃ xs, jsGet out (js "slides") = Json.arr xs ∧ xs.length ≤ 30 := by
  unfold normalizePlan at h
  split at h
  · cases h
    refine ⟨finalSlidesOf plan options _, rfl, ?_⟩
    have h30 : requestedSlidesOf plan options ≤ 30 := by
      unfold requestedSlidesOf
      exact clampInt_le_hi _ _ _ _ (by norm_num)
    have hn : (requestedSlidesOf plan options).toNat ≤ 30 := Int.toNat_le.mpr h30
    exact le_trans (List.length_take_le _ _) hn
  · exact absurd h (by simp)

/-- Witness for C2: the upper bound applied at a concrete input. -/
theorem normalizePlan_slides_le_30_witness :
    ∃ out, normalizePlan (Json.obj []) (Json.obj []) = Except.ok out ∧
      ∃ xs, jsGet out (js "slides") = Json.arr xs ∧ xs.length ≤ 30 :=
  ⟨_, rfl, normalizePlan_slides_le_30 (Json.obj []) (Json.obj []) _ rfl⟩

/-- Claim C2 (counterexample): a plan-shaped input with an `ad_agency`
deck type and no slides normalizes to zero slides — the claimed lower
bound `5 ≤ slides.length` fails. -/
theorem normalizePlan_lower_bound_fails :
    slidesLengthOf
      (normalizePlan (Json.obj [(js "deck_type", jstr "ad_agency")]) (Json.obj [])) =
      some 0 := by
  rfl

/-- Claim C4 (code bug): `normalizePlan` throws on a plan-shaped object
whose `slides` field is a truthy non-array — `(plan.slides || []).map`
calls `.map` on a string, a `TypeError` — contradicting the documented
never-throw contract of the pass. -/
theorem normalizePlan_throws_on_nonarray_slides :
    normalizePlan (Json.obj [(js "slides", jstr "oops")]) (Json.obj []) =
      Except.error JsErr.typeError := by
  rfl

theorem dropFirstNonAnchorRev_spec :
    ∀ {l l2 : List Json}, dropFirstNonAnchorRev l = some l2 →
      ∃ ap x rest, l = ap ++ x :: rest ∧ l2 = ap ++ rest ∧ anchorKeep x = false ∧
        ∀ a ∈ ap, anchorKeep a = true := by
  intro l
  induction l with
  | nil => intro l2 h; simp [dropFirstNonAnchorRev] at h
  | cons x xs ih =>
    intro l2 h
    rw [dropFirstNonAnchorRev] at h
    split at h
    · rename_i hx
      cases h2 : dropFirstNonAnchorRev xs with
      | none => rw [h2] at h; simp at h
      | some ys =>
        rw [h2] at h
        simp only [Option.map_some'] at h
        cases h
        obtain ⟨ap, y, rest, he, he2, hy, hall⟩ := ih h2
        refine ⟨x :: ap, y, rest, by rw [List.cons_append, ← he], by rw [List.cons_append, ← he2],
          hy, ?_⟩
        intro a ha
        rcases List.mem_cons.mp ha with rfl | ha
        · exact hx
        · exact hall a ha
    · rename_i hx
      cases h
      exact ⟨[], x, xs, rfl, rfl, by simpa using hx, by simp⟩

theorem removeLastNonAnchor_spec {slides s2 : List Json}
    (h : removeLastNonAnchor slides = some s2) :
    ∃ pre x post, slides = pre ++ x :: post ∧ s2 = pre ++ post ∧
      anchorKeep x = false ∧ ∀ a ∈ post, anchorKeep a = true := by
  unfold removeLastNonAnchor at h
  cases h2 : dropFirstNonAnchorRev slides.reverse with
  | none => rw [h2] at h; simp at h
  | some ys =>
    rw [h2] at h
    simp only [Option.map_some'] at h
    cases h
    obtain ⟨ap, y, rest, he, he2, hy, hall⟩ := dropFirstNonAnchorRev_spec h2
    refine ⟨rest.reverse, y, ap.reverse, ?_, ?_, hy, ?_⟩
    · have := congrArg List.reverse he
      simpa [List.reverse_append] using this
    · rw [he2]
      simp [List.reverse_append]
    · intro a ha
      exact hall a (List.mem_reverse.mp ha)

theorem trimLoopFuel_spec :
    ∀ (fuel : ℕ) (slides : List Json) (target : ℕ),
      (trimLoopFuel fuel slides target).filter anchorKeep = slides.filter anchorKeep ∧
        List.Sublist (trimLoopFuel fuel slides target) slides := by
  intro fuel
  induction fuel with
  | zero => intro slides target; rw [trimLoopFuel]; exact ⟨rfl, List.Sublist.refl _⟩
  | succ n ih =>
    intro slides target
    rw [trimLoopFuel]
    split
    · cases hrem : removeLastNonAnchor slides with
      | none => exact ⟨rfl, List.Sublist.refl _⟩
      | some s2 =>
        obtain ⟨pre, x, post, he, he2, hx, _⟩ := removeLastNonAnchor_spec hrem
        obtain ⟨ihf, ihs⟩ := ih s2 target
        constructor
        · rw [ihf, he, he2]
          simp [List.filter_append, List.filter_cons, hx]
        · refine List.Sublist.trans ihs ?_
          rw [he, he2]
          exact List.Sublist.append_left (List.sublist_cons_self x post) pre
    · exact ⟨rfl, List.Sublist.refl _⟩

/-- Claim C5 (amended): each iteration of the trim loop removes the
*last* non-anchor slide (everything after it is anchor-typed) and the
loop as a whole never drops a `quote` / `infographic_3` anchor slide;
anchors can only be dropped by the final hard cap `slice(0, target)` when
more than `target` anchor-typed slides remain (see the counterexample). -/
theorem trimLoop_removes_from_end_keeps_anchors :
    (∀ slides s2, removeLastNonAnchor slides = some s2 →
      ∃ pre x post, slides = pre ++ x :: post ∧ s2 = pre ++ post ∧
        anchorKeep x = false ∧ ∀ a ∈ post, anchorKeep a = true) ∧
    ∀ slides target,
      (trimLoop slides target).filter anchorKeep = slides.filter anchorKeep ∧
        List.Sublist (trimLoop slides target) slides :=
  ⟨fun _ _ h => removeLastNonAnchor_spec h,
   fun slides target => trimLoopFuel_spec slides.length slides target⟩

/-- Witness for C5: one trim-loop step on a concrete two-slide deck
removes the trailing non-anchor slide. -/
theorem trimLoop_removes_from_end_keeps_anchors_witness :
    ∃ pre x post, ([infographicSlide, Json.obj []] : List Json) = pre ++ x :: post ∧
      ([infographicSlide] : List Json) = pre ++ post ∧
      anchorKeep x = false ∧ ∀ a ∈ post, anchorKeep a = true :=
  trimLoop_removes_from_end_keeps_anchors.1 [infographicSlide, Json.obj []] [infographicSlide]
    (by rfl)

/-- Claim C5 (counterexample): a non-locked plan consisting of six
`quote`-layout slides, normalized with `nSlides = 5`, keeps only 5 slides
of which 4 have the `quote` layout — at least two anchor-typed slides
were removed by the hard cap. -/
theorem normalizePlan_hard_cap_drops_anchor :
    slidesLengthOf (normalizePlan
      (Json.obj [(js "slides",
        Json.arr (List.replicate 6 (Json.obj [(js "layout", jstr "quote")])))])
      (Json.obj [(js "nSlides", jint 5)])) = some 5 ∧
    quoteLayoutCountOf (normalizePlan
      (Json.obj [(js "slides",
        Json.arr (List.replicate 6 (Json.obj [(js "layout", jstr "quote")])))])
      (Json.obj [(js "nSlides", jint 5)])) = some 4 := by
  constructor <;> rfl

/-! ### C7: the concept-quality gate overrides the model's keep signal -/

theorem refinePatchOne_title (out : Json) (cl pl : JStr) (s : Json) :
    jsGet (refinePatchOne out cl pl s) (js "title") =
      Json.str (if pl ≠ [] then pl else if cl ≠ [] then cl else js "Big idea") := by
  unfold refinePatchOne mkSpread
  simp only [List.foldl_cons, List.foldl_nil]
  rw [jsGet_obj, lookupField_setField_ne _ (by decide), lookupField_setField_ne _ (by decide),
    lookupField_setField_self]

theorem enumFrom_patch_getD_ne (g : Json → Json) (idx : ℕ) :
    ∀ (l : List Json) (n j : ℕ), n + j ≠ idx →
      ((List.enumFrom n l).map fun p => if p.1 = idx then g p.2 else p.2).getD j Json.null =
        l.getD j Json.null := by
  intro l
  induction l with
  | nil => intro n j _; rfl
  | cons s rest ih =>
    intro n j h
    cases j with
    | zero =>
      simp only [List.enumFrom, List.map_cons, List.getD_cons_zero]
      rw [if_neg (by omega)]
    | succ j2 =>
      simp only [List.enumFrom, List.map_cons, List.getD_cons_succ]
      exact ih (n + 1) j2 (by omega)

theorem enumFrom_patch_getD_eq (g : Json → Json) (idx : ℕ) :
    ∀ (l : List Json) (n j : ℕ), n + j = idx → j < l.length →
      ((List.enumFrom n l).map fun p => if p.1 = idx then g p.2 else p.2).getD j Json.null =
        g (l.getD j Json.null) := by
  intro l
  induction l with
  | nil => intro n j _ h2; simp at h2
  | cons s rest ih =>
    intro n j h h2
    cases j with
    | zero =>
      simp only [List.enumFrom, List.map_cons, List.getD_cons_zero]
      rw [if_pos (by omega)]
    | succ j2 =>
      simp only [List.enumFrom, List.map_cons, List.getD_cons_succ]
      exact ih (n + 1) j2 (by omega) (by simpa using h2)

/-- Claim C7 (amended): when the parsed refinement response claims
`keep_existing` but the current concept-slide title is weak, the
classifier wins: the patched concept slide takes the response
`concept_line` as its title, falling back to the current title when the
concept line is empty and the current title is not, and to the literal
`Big idea` when both are empty; all slides other than the one at the
concept index are unchanged. -/
theorem refine_overrides_model_keep (out : Json) (brief : JStr) (slides : List Json)
    (idx : ℕ)
    (hkeep : truthy (jget out "keep_existing") = true)
    (hweak : isWeakAgencyConceptLine (refineCurrentLine slides idx) brief = true) :
    (∀ j, j ≠ idx →
      (refinePatchSlides out brief slides idx).getD j Json.null = slides.getD j Json.null) ∧
    (idx < slides.length →
      jsGet ((refinePatchSlides out brief slides idx).getD idx Json.null) (js "title") =
        Json.str (if refineConceptLine out ≠ [] then refineConceptLine out
          else if refineCurrentLine slides idx ≠ [] then refineCurrentLine slides idx
          else js "Big idea")) := by
  have hfin : (if truthy (jget out "keep_existing") = true ∧
        ¬isWeakAgencyConceptLine (refineCurrentLine slides idx) brief = true then
      refineCurrentLine slides idx else refineConceptLine out) = refineConceptLine out := by
    rw [if_neg]
    rintro ⟨_, h2⟩
    exact h2 hweak
  constructor
  · intro j hj
    unfold refinePatchSlides
    rw [show List.enum slides = List.enumFrom 0 slides from rfl]
    exact enumFrom_patch_getD_ne _ idx slides 0 j (by omega)
  · intro hlt
    unfold refinePatchSlides
    rw [show List.enum slides = List.enumFrom 0 slides from rfl]
    rw [enumFrom_patch_getD_eq _ idx slides 0 idx (by omega) hlt]
    rw [refinePatchOne_title, hfin]
    by_cases hcl : refineConceptLine out = []
    · have hw0 : isWeakAgencyConceptLine ([] : JStr) brief = true := rfl
      rw [hcl]
      simp [hw0]
      intro hne
      rw [if_neg hne]
    · by_cases hwc : isWeakAgencyConceptLine (refineConceptLine out) brief = true
      · simp [hwc, hcl]
      · simp [hwc, hcl]

/-- Witness for C7: a weak current title (`Campaign: X`) with a
keep-existing response carrying a nonempty concept line gets that concept
line as title. -/
theorem refine_overrides_model_keep_witness :
    jsGet ((refinePatchSlides
        (Json.obj [(js "keep_existing", Json.bool true), (js "concept_line", jstr "Tune the City")])
        (js "")
        [Json.obj [(js "kind", jstr "creative_concept"), (js "title", jstr "Campaign: X")]]
        0).getD 0 Json.null) (js "title") = jstr "Tune the City" := by
  have h := (refine_overrides_model_keep
    (Json.obj [(js "keep_existing", Json.bool true), (js "concept_line", jstr "Tune the City")])
    (js "")
    [Json.obj [(js "kind", jstr "creative_concept"), (js "title", jstr "Campaign: X")]]
    0 (by decide) (by decide)).2 (by decide)
  rw [h]
  rfl

/-- Claim C7 (counterexample): with `keep_existing = true`, an empty
`concept_line`, and an empty (hence weak) current title, the resulting
concept-slide title is the literal `Big idea` — not the current title as
the claim states (its fallback clause says the current title is used
whenever the concept line is empty). -/
theorem refine_keep_bothEmpty_gives_big_idea :
    firstSlideTitleOf (refineAgencyConcept
      (Except.ok (some (Json.obj
        [(js "keep_existing", Json.bool true), (js "concept_line", jstr "")])))
      (js "")
      (Json.obj [(js "slides", Json.arr
        [Json.obj [(js "kind", jstr "creative_concept"), (js "title", jstr "")]])])) =
      some (jstr "Big idea") := by
  rfl

/-! ### C3: idempotence of the normalization pass.

General coercion and list lemmas first, then fixed-point lemmas for each
per-field normalizer, then per-slide and plan-level stability. -/

theorem asStr_str (x : JStr) (n : ℕ) : asStr (Json.str x) n = x.take n := rfl

theorem asStr_take_self (v : Json) (n : ℕ) : (asStr v n).take n = asStr v n := by
  unfold asStr
  split
  · simp
  · rw [List.take_take, min_self]

theorem asStr_str_asStr (u : Json) (n : ℕ) :
    asStr (Json.str (asStr u n)) n = asStr u n := by
  rw [asStr_str, asStr_take_self]

theorem truthy_str_ne {s : JStr} (h : s ≠ []) : truthy (Json.str s) = true := by
  cases s with
  | nil => exact absurd rfl h
  | cons c cs => rfl

theorem jsOr_truthy {a : Json} (b : Json) (h : truthy a = true) : jsOr a b = a := by
  simp [jsOr, h]

theorem jsOr_falsy {a : Json} (b : Json) (h : truthy a = false) : jsOr a b = b := by
  simp [jsOr, h]

theorem jsQQ_not_null {a : Json} (b : Json) (h : a.isNull = false) : jsQQ a b = a := by
  simp [jsQQ, h]

theorem jsQQ_null_idem (a : Json) : jsQQ (jsQQ a Json.null) Json.null = jsQQ a Json.null := by
  by_cases h : a.isNull = true <;> simp [jsQQ, h]

theorem jsOr_null_idem (a : Json) : jsOr (jsOr a Json.null) Json.null = jsOr a Json.null := by
  by_cases h : truthy a = true
  · rw [jsOr_truthy _ h, jsOr_truthy _ h]
  · have h2 : truthy a = false := by revert h; cases truthy a <;> simp
    rw [jsOr_falsy _ h2, jsOr_falsy _ (show truthy Json.null = false from rfl)]

theorem jsGet_jsOr_null (v : Json) (k : JStr) : jsGet (jsOr v Json.null) k = jsGet v k := by
  by_cases h : truthy v = true
  · rw [jsOr_truthy _ h]
  · have h2 : truthy v = false := by revert h; cases truthy v <;> simp
    rw [jsOr_falsy _ h2]
    cases v with
    | null => rfl
    | bool b => rfl
    | num k => rfl
    | str s => rfl
    | arr xs => simp [truthy] at h2
    | obj fs => simp [truthy] at h2

theorem take_length_le {α : Type} (l : List α) (n : ℕ) : (l.take n).length ≤ n := by
  rw [List.length_take]; exact min_le_left _ _

theorem map_fix {α : Type} (f : α → α) (l : List α) (h : ∀ a ∈ l, f a = a) :
    l.map f = l := by
  induction l with
  | nil => rfl
  | cons x xs ih =>
    rw [List.map_cons, h x (List.mem_cons_self x xs),
      ih fun a ha => h a (List.mem_cons_of_mem x ha)]

theorem filter_fix {α : Type} (p : α → Bool) (l : List α) (h : ∀ a ∈ l, p a = true) :
    l.filter p = l :=
  List.filter_eq_self.mpr h

theorem asStr_or_empty (C : JStr) (n : ℕ) (hC : C.take n = C) :
    asStr (jsOr (Json.str C) (jstr "")) n = C := by
  cases C with
  | nil =>
    have h1 : jsOr (Json.str []) (jstr "") = Json.str [] := rfl
    rw [h1, asStr_str, List.take_nil]
  | cons c cs => rw [jsOr_truthy _ (truthy_str_ne (List.cons_ne_nil c cs)), asStr_str, hC]

theorem lookupField_map_val {β : Type} (fields : List (JStr × β)) (val : JStr × β → Json) :
    ∀ g ∈ fields, (fields.map Prod.fst).Nodup →
      lookupField (fields.map fun f => (f.1, val f)) g.1 = val g := by
  induction fields with
  | nil => intro g hg _; cases hg
  | cons f0 fs ih =>
    intro g hg hnd
    rw [List.map_cons] at hnd
    obtain ⟨hn1, hn2⟩ := List.nodup_cons.mp hnd
    rw [List.map_cons, lookupField]
    rcases List.mem_cons.mp hg with h | h
    · subst h
      rw [if_pos rfl]
    · have hne : f0.1 ≠ g.1 := by
        intro he
        exact hn1 (by rw [he]; exact List.mem_map.mpr ⟨g, h, rfl⟩)
      rw [if_neg hne]
      exact ih g h hn2

theorem normStrArr_idem (cap n : ℕ) (dflt : Json)
    (hd : normStrArr cap n dflt dflt = dflt) (v : Json) :
    normStrArr cap n dflt (normStrArr cap n dflt v) = normStrArr cap n dflt v := by
  cases v with
  | arr xs =>
    simp only [normStrArr]
    have hlen : (((xs.take cap).map fun u => Json.str (asStr u n)).filter truthy).length ≤ cap := by
      calc (((xs.take cap).map fun u => Json.str (asStr u n)).filter truthy).length
          ≤ ((xs.take cap).map fun u => Json.str (asStr u n)).length :=
            List.length_filter_le _ _
        _ = (xs.take cap).length := by rw [List.length_map]
        _ ≤ cap := take_length_le _ _
    rw [List.take_of_length_le hlen]
    rw [map_fix _ _ (fun w hw => by
      obtain ⟨hw1, -⟩ := List.mem_filter.mp hw
      obtain ⟨u, -, rfl⟩ := List.mem_map.mp hw1
      rw [asStr_str_asStr])]
    rw [filter_fix _ _ (fun a ha => (List.mem_filter.mp ha).2)]
  | null => exact hd
  | bool b => exact hd
  | num k => exact hd
  | str s => exact hd
  | obj fs => exact hd

theorem recMk_fix (fields : List (JStr × ℕ)) (hnd : (fields.map Prod.fst).Nodup) (c : Json) :
    Json.obj (fields.map fun f =>
        (f.1, Json.str (asStr (jsGet (Json.obj (fields.map fun g =>
          (g.1, Json.str (asStr (jsGet c g.1) g.2)))) f.1) f.2))) =
      Json.obj (fields.map fun f => (f.1, Json.str (asStr (jsGet c f.1) f.2))) := by
  apply congrArg
  apply List.map_congr_left
  intro g hg
  have h1 : jsGet (Json.obj (fields.map fun f =>
      (f.1, Json.str (asStr (jsGet c f.1) f.2)))) g.1 =
      Json.str (asStr (jsGet c g.1) g.2) := by
    rw [jsGet_obj]
    exact lookupField_map_val fields (fun f => Json.str (asStr (jsGet c f.1) f.2)) g hg hnd
  rw [h1, asStr_str_asStr]

theorem normRecArr_idem (cap : ℕ) (fields : List (JStr × ℕ))
    (hnd : (fields.map Prod.fst).Nodup) (v : Json) :
    normRecArr cap fields (normRecArr cap fields v) = normRecArr cap fields v := by
  cases v with
  | arr xs =>
    simp only [normRecArr]
    rw [List.take_of_length_le (by rw [List.length_map]; exact take_length_le _ _)]
    apply congrArg
    apply map_fix
    intro a ha
    obtain ⟨c, -, rfl⟩ := List.mem_map.mp ha
    exact recMk_fix fields hnd c
  | null => rfl
  | bool b => rfl
  | num k => rfl
  | str s => rfl
  | obj fs => rfl

theorem normStatusItem_obj (I ST W E B : JStr) (hne : ST ≠ [])
    (hlow : toLowerStr ST = ST) (hmem : ST ∈ [js "red", js "yellow", js "green"])
    (hI : I.take 90 = I) (hW : W.take 40 = W) (hE : E.take 30 = E) (hB : B.take 120 = B) :
    normStatusItem (Json.obj
      [(js "item", Json.str I), (js "status", Json.str ST), (js "owner", Json.str W),
       (js "eta", Json.str E), (js "blocker", Json.str B)]) =
    Json.obj
      [(js "item", Json.str I), (js "status", Json.str ST), (js "owner", Json.str W),
       (js "eta", Json.str E), (js "blocker", Json.str B)] := by
  have h0 : normStatusItem (Json.obj
      [(js "item", Json.str I), (js "status", Json.str ST), (js "owner", Json.str W),
       (js "eta", Json.str E), (js "blocker", Json.str B)]) =
      Json.obj
        [(js "item", Json.str (I.take 90)),
         (js "status", Json.str
           (if toLowerStr (jsToString (jsOr (Json.str ST) (jstr ""))) ∈
               [js "red", js "yellow", js "green"] then
             toLowerStr (jsToString (jsOr (Json.str ST) (jstr ""))) else js "yellow")),
         (js "owner", Json.str (W.take 40)), (js "eta", Json.str (E.take 30)),
         (js "blocker", Json.str (B.take 120))] := rfl
  rw [h0, jsOr_truthy _ (truthy_str_ne hne)]
  have h1 : jsToString (Json.str ST) = ST := rfl
  rw [h1, hlow, if_pos hmem, hI, hW, hE, hB]

theorem normStatusItem_idem (it : Json) :
    normStatusItem (normStatusItem it) = normStatusItem it := by
  have hsh : normStatusItem it = Json.obj
      [(js "item", Json.str (asStr (jsGet it (js "item")) 90)),
       (js "status", Json.str
         (if toLowerStr (jsToString (jsOr (jsGet it (js "status")) (jstr ""))) ∈
             [js "red", js "yellow", js "green"] then
           toLowerStr (jsToString (jsOr (jsGet it (js "status")) (jstr ""))) else js "yellow")),
       (js "owner", Json.str (asStr (jsGet it (js "owner")) 40)),
       (js "eta", Json.str (asStr (jsGet it (js "eta")) 30)),
       (js "blocker", Json.str (asStr (jsGet it (js "blocker")) 120))] := rfl
  rw [hsh]
  by_cases hc : toLowerStr (jsToString (jsOr (jsGet it (js "status")) (jstr ""))) ∈
      [js "red", js "yellow", js "green"]
  · rw [if_pos hc]
    simp only [List.mem_cons, List.not_mem_nil, or_false] at hc
    rcases hc with h | h | h <;>
      rw [h] <;>
      exact normStatusItem_obj _ _ _ _ _ (by decide) (by decide) (by decide)
        (asStr_take_self _ _) (asStr_take_self _ _) (asStr_take_self _ _) (asStr_take_self _ _)
  · rw [if_neg hc]
    exact normStatusItem_obj _ _ _ _ _ (by decide) (by decide) (by decide)
      (asStr_take_self _ _) (asStr_take_self _ _) (asStr_take_self _ _) (asStr_take_self _ _)

theorem normStatusItems_idem (v : Json) :
    normStatusItems (normStatusItems v) = normStatusItems v := by
  cases v with
  | arr xs =>
    simp only [normStatusItems]
    rw [List.take_of_length_le (by rw [List.length_map]; exact take_length_le _ _)]
    apply congrArg
    apply map_fix
    intro a ha
    obtain ⟨c, -, rfl⟩ := List.mem_map.mp ha
    exact normStatusItem_idem c
  | null => rfl
  | bool b => rfl
  | num k => rfl
  | str s => rfl
  | obj fs => rfl

theorem normTableRow_idem (r : Json) : normTableRow (normTableRow r) = normTableRow r := by
  cases r with
  | arr vs =>
    simp only [normTableRow]
    rw [List.take_of_length_le (by rw [List.length_map]; exact take_length_le _ _)]
    apply congrArg
    apply map_fix
    intro a ha
    obtain ⟨u, -, rfl⟩ := List.mem_map.mp ha
    rw [asStr_str_asStr]
  | null => rfl
  | bool b => rfl
  | num k => rfl
  | str s => rfl
  | obj fs => rfl

theorem normTable_shape (v : Json) : normTable v = Json.null ∨
    ∃ (hs rs : List Json), normTable v = Json.obj
      [(js "headers", Json.arr ((hs.take 6).map fun h => Json.str (asStr h 40))),
       (js "rows", Json.arr (((rs.take 12).map normTableRow).filter normTableRowPred))] := by
  unfold normTable
  split
  · split
    · exact Or.inr ⟨_, _, rfl⟩
    · exact Or.inl rfl
  · exact Or.inl rfl

theorem normTable_idem (v : Json) : normTable (normTable v) = normTable v := by
  rcases normTable_shape v with h | ⟨hs, rs, h⟩
  · rw [h]; rfl
  · rw [h]
    have h2 : normTable (Json.obj
        [(js "headers", Json.arr ((hs.take 6).map fun h => Json.str (asStr h 40))),
         (js "rows", Json.arr (((rs.take 12).map normTableRow).filter normTableRowPred))]) =
      Json.obj
        [(js "headers", Json.arr (((((hs.take 6).map fun h =>
            Json.str (asStr h 40)).take 6)).map fun h => Json.str (asStr h 40))),
         (js "rows", Json.arr ((((((rs.take 12).map normTableRow).filter
            normTableRowPred).take 12).map normTableRow).filter normTableRowPred))] := rfl
    rw [h2]
    rw [List.take_of_length_le (show (((hs.take 6).map fun h =>
      Json.str (asStr h 40)).length ≤ 6) by rw [List.length_map]; exact take_length_le _ _)]
    rw [map_fix _ _ (fun a ha => by
      obtain ⟨u, -, rfl⟩ := List.mem_map.mp ha
      rw [asStr_str_asStr])]
    rw [List.take_of_length_le (le_trans (List.length_filter_le _ _)
      (by rw [List.length_map]; exact take_length_le _ _))]
    rw [map_fix normTableRow _ (fun a ha => by
      obtain ⟨hma, -⟩ := List.mem_filter.mp ha
      obtain ⟨r, -, rfl⟩ := List.mem_map.mp hma
      exact normTableRow_idem r)]
    rw [filter_fix _ _ (fun a ha => (List.mem_filter.mp ha).2)]

theorem normOkrItem_idem (o : Json) : normOkrItem (normOkrItem o) = normOkrItem o := by
  have h0 : normOkrItem (normOkrItem o) = Json.obj
      [(js "objective", Json.str (asStr (Json.str (asStr (jsGet o (js "objective")) 120)) 120)),
       (js "key_results", normStrArr 6 160 (Json.arr [])
         (normStrArr 6 160 (Json.arr []) (jsGet o (js "key_results"))))] := rfl
  rw [h0, asStr_str_asStr, normStrArr_idem 6 160 (Json.arr []) rfl]
  rfl

theorem normOkrs_idem (v : Json) : normOkrs (normOkrs v) = normOkrs v := by
  cases v with
  | arr xs =>
    simp only [normOkrs]
    rw [List.take_of_length_le (by rw [List.length_map]; exact take_length_le _ _)]
    apply congrArg
    apply map_fix
    intro a ha
    obtain ⟨o, -, rfl⟩ := List.mem_map.mp ha
    exact normOkrItem_idem o
  | null => rfl
  | bool b => rfl
  | num k => rfl
  | str s => rfl
  | obj fs => rfl

theorem normDiagram_idem (v : Json) : normDiagram (normDiagram v) = normDiagram v := by
  by_cases hv : truthy v = true
  · have h1 : normDiagram v = Json.obj
        [(js "code", Json.str (asStr (jsOr (jsGet v (js "code")) (jstr "")) 4000)),
         (js "theme", Json.str (asStr (jsOr (jsGet v (js "theme")) (jstr "")) 40))] := by
      unfold normDiagram; rw [if_pos hv]
    rw [h1]
    have h2 : normDiagram (Json.obj
        [(js "code", Json.str (asStr (jsOr (jsGet v (js "code")) (jstr "")) 4000)),
         (js "theme", Json.str (asStr (jsOr (jsGet v (js "theme")) (jstr "")) 40))]) =
      Json.obj
        [(js "code", Json.str (asStr (jsOr (Json.str (asStr (jsOr (jsGet v (js "code"))
          (jstr "")) 4000)) (jstr "")) 4000)),
         (js "theme", Json.str (asStr (jsOr (Json.str (asStr (jsOr (jsGet v (js "theme"))
          (jstr "")) 40)) (jstr "")) 40))] := rfl
    rw [h2, asStr_or_empty _ 4000 (asStr_take_self _ 4000),
      asStr_or_empty _ 40 (asStr_take_self _ 40)]
  · have h1 : normDiagram v = Json.null := by unfold normDiagram; rw [if_neg hv]
    rw [h1]; rfl

theorem normIconItem_idem (ic : Json) : normIconItem (normIconItem ic) = normIconItem ic := by
  have h0 : normIconItem (normIconItem ic) = Json.obj
      [(js "name", Json.str (asStr (jsOr (Json.str (asStr (jsOr (jsGet ic (js "name"))
        (jstr "")) 120)) (jstr "")) 120)),
       (js "label", Json.str (asStr (jsOr (Json.str (asStr (jsOr (jsGet ic (js "label"))
        (jstr "")) 80)) (jstr "")) 80))] := rfl
  rw [h0, asStr_or_empty _ 120 (asStr_take_self _ 120),
    asStr_or_empty _ 80 (asStr_take_self _ 80)]
  rfl

theorem normIcons_idem (v : Json) : normIcons (normIcons v) = normIcons v := by
  cases v with
  | arr xs =>
    simp only [normIcons]
    rw [List.take_of_length_le (by rw [List.length_map]; exact take_length_le _ _)]
    apply congrArg
    apply map_fix
    intro a ha
    obtain ⟨ic, -, rfl⟩ := List.mem_map.mp ha
    exact normIconItem_idem ic
  | null => rfl
  | bool b => rfl
  | num k => rfl
  | str s => rfl
  | obj fs => rfl

theorem normChartLabels_idem (w : Json) :
    normChartLabels (Json.arr (normChartLabels w)) = normChartLabels w := by
  cases w with
  | arr ls =>
    simp only [normChartLabels]
    rw [List.take_of_length_le (by rw [List.length_map]; exact take_length_le _ _)]
    apply map_fix
    intro a ha
    obtain ⟨u, -, rfl⟩ := List.mem_map.mp ha
    rw [asStr_str_asStr]
  | null => rfl
  | bool b => rfl
  | num k => rfl
  | str s => rfl
  | obj fs => rfl

theorem normChartValues_idem (w : Json) :
    normChartValues (Json.arr (normChartValues w)) = normChartValues w := by
  cases w with
  | arr vs =>
    simp only [normChartValues]
    rw [List.take_of_length_le (by rw [List.length_map]; exact take_length_le _ _)]
    apply map_fix
    intro a ha
    obtain ⟨u, -, rfl⟩ := List.mem_map.mp ha
    rfl
  | null => rfl
  | bool b => rfl
  | num k => rfl
  | str s => rfl
  | obj fs => rfl

theorem normChart_idem (v : Json) : normChart (normChart v) = normChart v := by
  by_cases hv : truthy v = true
  · have h1 : normChart v = Json.obj
        [(js "chart_type", Json.str (asStr (jsOr (jsGet v (js "chart_type")) (jstr "")) 20)),
         (js "labels", Json.arr (normChartLabels (jsGet v (js "labels")))),
         (js "values", Json.arr (normChartValues (jsGet v (js "values")))),
         (js "value_suffix", Json.str (asStr (jsOr (jsGet v (js "value_suffix")) (jstr "")) 20)),
         (js "spec", jsQQ (jsGet v (js "spec")) Json.null)] := by
      unfold normChart; rw [if_pos hv]
    rw [h1]
    have h2 : normChart (Json.obj
        [(js "chart_type", Json.str (asStr (jsOr (jsGet v (js "chart_type")) (jstr "")) 20)),
         (js "labels", Json.arr (normChartLabels (jsGet v (js "labels")))),
         (js "values", Json.arr (normChartValues (jsGet v (js "values")))),
         (js "value_suffix", Json.str (asStr (jsOr (jsGet v (js "value_suffix")) (jstr "")) 20)),
         (js "spec", jsQQ (jsGet v (js "spec")) Json.null)]) =
      Json.obj
        [(js "chart_type", Json.str (asStr (jsOr (Json.str (asStr (jsOr (jsGet v
          (js "chart_type")) (jstr "")) 20)) (jstr "")) 20)),
         (js "labels", Json.arr (normChartLabels (Json.arr (normChartLabels
          (jsGet v (js "labels")))))),
         (js "values", Json.arr (normChartValues (Json.arr (normChartValues
          (jsGet v (js "values")))))),
         (js "value_suffix", Json.str (asStr (jsOr (Json.str (asStr (jsOr (jsGet v
          (js "value_suffix")) (jstr "")) 20)) (jstr "")) 20)),
         (js "spec", jsQQ (jsQQ (jsGet v (js "spec")) Json.null) Json.null)] := rfl
    rw [h2, asStr_or_empty _ 20 (asStr_take_self _ 20),
      asStr_or_empty _ 20 (asStr_take_self _ 20),
      normChartLabels_idem, normChartValues_idem, jsQQ_null_idem]
  · have h1 : normChart v = Json.null := by unfold normChart; rw [if_neg hv]
    rw [h1]; rfl

/-- Field reads on a normalized slide (one `rfl` lemma per key read
back by a second normalization pass). -/

theorem nsGet_kind (i : ℕ) (s : Json) :
    jsGet (normalizeSlide i s) (js "kind") = Json.str (normKind i s) := rfl

theorem nsGet_layout (i : ℕ) (s : Json) :
    jsGet (normalizeSlide i s) (js "layout") = Json.str (normLayout i s) := rfl

theorem nsGet_title (i : ℕ) (s : Json) :
    jsGet (normalizeSlide i s) (js "title") = Json.str (normTitle i s) := rfl

theorem nsGet_subtitle (i : ℕ) (s : Json) :
    jsGet (normalizeSlide i s) (js "subtitle") = Json.str (normSubtitle s) := rfl

theorem nsGet_bullets (i : ℕ) (s : Json) :
    jsGet (normalizeSlide i s) (js "bullets") = normStrArr 8 180 (Json.arr []) (jsGet s (js "bullets")) := rfl

theorem nsGet_stat (i : ℕ) (s : Json) :
    jsGet (normalizeSlide i s) (js "stat") = jsQQ (jsGet s (js "stat")) Json.null := rfl

theorem nsGet_quote (i : ℕ) (s : Json) :
    jsGet (normalizeSlide i s) (js "quote") = jsQQ (jsGet s (js "quote")) Json.null := rfl

theorem nsGet_agenda_items (i : ℕ) (s : Json) :
    jsGet (normalizeSlide i s) (js "agenda_items") = normStrArr 10 120 Json.null (jsGet s (js "agenda_items")) := rfl

theorem nsGet_cards (i : ℕ) (s : Json) :
    jsGet (normalizeSlide i s) (js "cards") = normRecArr 6 [(js "title", 80), (js "body", 220), (js "tag", 40)] (jsGet s (js "cards")) := rfl

theorem nsGet_timeline_items (i : ℕ) (s : Json) :
    jsGet (normalizeSlide i s) (js "timeline_items") = normRecArr 12 [(js "date_or_phase", 40), (js "label", 80), (js "detail", 140)] (jsGet s (js "timeline_items")) := rfl

theorem nsGet_kpis (i : ℕ) (s : Json) :
    jsGet (normalizeSlide i s) (js "kpis") = normRecArr 8 [(js "label", 60), (js "value", 40), (js "delta", 30)] (jsGet s (js "kpis")) := rfl

theorem nsGet_status_items (i : ℕ) (s : Json) :
    jsGet (normalizeSlide i s) (js "status_items") = normStatusItems (jsGet s (js "status_items")) := rfl

theorem nsGet_table (i : ℕ) (s : Json) :
    jsGet (normalizeSlide i s) (js "table") = normTable (jsGet s (js "table")) := rfl

theorem nsGet_pricing (i : ℕ) (s : Json) :
    jsGet (normalizeSlide i s) (js "pricing") = jsQQ (jsGet s (js "pricing")) Json.null := rfl

theorem nsGet_matrix (i : ℕ) (s : Json) :
    jsGet (normalizeSlide i s) (js "matrix") = jsQQ (jsGet s (js "matrix")) Json.null := rfl

theorem nsGet_steps (i : ℕ) (s : Json) :
    jsGet (normalizeSlide i s) (js "steps") = normRecArr 8 [(js "title", 70), (js "detail", 160)] (jsGet s (js "steps")) := rfl

theorem nsGet_people (i : ℕ) (s : Json) :
    jsGet (normalizeSlide i s) (js "people") = normRecArr 10 [(js "name", 60), (js "role", 60), (js "bio", 200)] (jsGet s (js "people")) := rfl

theorem nsGet_logo_items (i : ℕ) (s : Json) :
    jsGet (normalizeSlide i s) (js "logo_items") = normStrArr 30 40 Json.null (jsGet s (js "logo_items")) := rfl

theorem nsGet_cta (i : ℕ) (s : Json) :
    jsGet (normalizeSlide i s) (js "cta") = jsQQ (jsGet s (js "cta")) Json.null := rfl

theorem nsGet_swot (i : ℕ) (s : Json) :
    jsGet (normalizeSlide i s) (js "swot") = jsQQ (jsGet s (js "swot")) Json.null := rfl

theorem nsGet_funnel (i : ℕ) (s : Json) :
    jsGet (normalizeSlide i s) (js "funnel") = normRecArr 7 [(js "label", 60), (js "value", 40)] (jsGet s (js "funnel")) := rfl

theorem nsGet_now_next_later (i : ℕ) (s : Json) :
    jsGet (normalizeSlide i s) (js "now_next_later") = jsQQ (jsGet s (js "now_next_later")) Json.null := rfl

theorem nsGet_okrs (i : ℕ) (s : Json) :
    jsGet (normalizeSlide i s) (js "okrs") = normOkrs (jsGet s (js "okrs")) := rfl

theorem nsGet_case_study (i : ℕ) (s : Json) :
    jsGet (normalizeSlide i s) (js "case_study") = jsQQ (jsGet s (js "case_study")) Json.null := rfl

theorem nsGet_diagram (i : ℕ) (s : Json) :
    jsGet (normalizeSlide i s) (js "diagram") = normDiagram (jsGet s (js "diagram")) := rfl

theorem nsGet_icons (i : ℕ) (s : Json) :
    jsGet (normalizeSlide i s) (js "icons") = normIcons (jsGet s (js "icons")) := rfl

theorem nsGet_chart (i : ℕ) (s : Json) :
    jsGet (normalizeSlide i s) (js "chart") = normChart (jsGet s (js "chart")) := rfl

theorem nsGet_org_chart (i : ℕ) (s : Json) :
    jsGet (normalizeSlide i s) (js "org_chart") = jsQQ (jsGet s (js "org_chart")) Json.null := rfl

theorem nsGet_faq (i : ℕ) (s : Json) :
    jsGet (normalizeSlide i s) (js "faq") = normRecArr 8 [(js "q", 140), (js "a", 220)] (jsGet s (js "faq")) := rfl

theorem nsGet_image_prompt (i : ℕ) (s : Json) :
    jsGet (normalizeSlide i s) (js "image_prompt") = Json.str (normImagePrompt i s) := rfl

theorem nsGet_speaker_notes (i : ℕ) (s : Json) :
    jsGet (normalizeSlide i s) (js "speaker_notes") = Json.str (normSpeakerNotes s) := rfl

theorem isNull_str (x : JStr) : (Json.str x).isNull = false := rfl

theorem strClean_asStr_ne {v : Json} {n : ℕ} (hc : strClean v n = true)
    (ht : truthy v = true) : asStr v n ≠ [] := by
  intro he
  unfold strClean at hc
  rw [ht, he] at hc
  simp at hc

theorem truthy_eq_false {v : Json} (h : ¬truthy v = true) : truthy v = false := by
  revert h; cases truthy v <;> simp

theorem normKind_ne_of_clean (idx : ℕ) (s : Json)
    (hc : strClean (jsGet s (js "kind")) 60 = true) : normKind idx s ≠ [] := by
  unfold normKind
  by_cases ht : truthy (jsGet s (js "kind")) = true
  · rw [jsOr_truthy _ ht]
    exact strClean_asStr_ne hc ht
  · rw [jsOr_falsy _ (truthy_eq_false ht)]
    have hd : jsGet (defaultSlide idx) (js "kind") =
        if idx = 0 then jstr "cover" else jstr "content" := rfl
    rw [hd]
    by_cases hi : idx = 0
    · rw [if_pos hi]; decide
    · rw [if_neg hi]; decide

theorem normTitle_ne_of_clean (idx : ℕ) (s : Json)
    (hc : strClean (jsGet s (js "title")) 140 = true) : normTitle idx s ≠ [] := by
  unfold normTitle
  by_cases ht : truthy (jsGet s (js "title")) = true
  · rw [jsOr_truthy _ ht]
    exact strClean_asStr_ne hc ht
  · rw [jsOr_falsy _ (truthy_eq_false ht)]
    have hd : jsGet (defaultSlide idx) (js "title") =
        if idx = 0 then jstr "Title"
        else Json.str (js "Slide " ++ natToStr (idx + 1)) := rfl
    rw [hd]
    by_cases hi : idx = 0
    · rw [if_pos hi]; decide
    · rw [if_neg hi, asStr_str]
      have hS : js "Slide " ++ natToStr (idx + 1) =
          'S' :: (js "lide " ++ natToStr (idx + 1)) := rfl
      rw [hS]
      intro h
      rcases List.take_eq_nil_iff.mp h with h1 | h1
      · exact absurd h1 (by norm_num)
      · exact List.noConfusion h1

theorem normKind_idem (idx2 idx : ℕ) (s : Json) (hk : normKind idx s ≠ []) :
    normKind idx2 (normalizeSlide idx s) = normKind idx s := by
  unfold normKind
  rw [nsGet_kind, jsOr_truthy _ (truthy_str_ne hk), asStr_str]
  exact asStr_take_self _ 60

theorem normTitle_idem (idx2 idx : ℕ) (s : Json) (ht : normTitle idx s ≠ []) :
    normTitle idx2 (normalizeSlide idx s) = normTitle idx s := by
  unfold normTitle
  rw [nsGet_title, jsOr_truthy _ (truthy_str_ne ht), asStr_str]
  exact asStr_take_self _ 140

theorem SLIDE_LAYOUTS_ok : ∀ l ∈ SLIDE_LAYOUTS, l ≠ [] ∧ l.take 40 = l := by decide

theorem normLayout_mem (idx : ℕ) (s : Json) : normLayout idx s ∈ SLIDE_LAYOUTS := by
  simp only [normLayout]
  split
  · rename_i h; exact h
  · have hd : jsGet (defaultSlide idx) (js "layout") =
        if idx = 0 then jstr "hero" else jstr "split" := rfl
    rw [hd]
    by_cases hi : idx = 0
    · rw [if_pos hi]; decide
    · rw [if_neg hi]; decide

theorem normLayout_str (idx2 : ℕ) (L : JStr) (s2 : Json)
    (hacc : jsGet s2 (js "layout") = Json.str L) (hne : L ≠ []) (htk : L.take 40 = L) :
    normLayout idx2 s2 = if L ∈ SLIDE_LAYOUTS then L
      else jsToString (jsGet (defaultSlide idx2) (js "layout")) := by
  simp only [normLayout]
  rw [hacc, jsOr_truthy _ (truthy_str_ne hne), asStr_str, htk]

theorem normLayout_idem (idx2 idx : ℕ) (s : Json) :
    normLayout idx2 (normalizeSlide idx s) = normLayout idx s := by
  obtain ⟨hne, htk⟩ := SLIDE_LAYOUTS_ok _ (normLayout_mem idx s)
  rw [normLayout_str idx2 (normLayout idx s) _ (nsGet_layout idx s) hne htk,
    if_pos (normLayout_mem idx s)]

theorem normSubtitle_idem (idx : ℕ) (s : Json) :
    normSubtitle (normalizeSlide idx s) = normSubtitle s := by
  unfold normSubtitle
  rw [nsGet_subtitle]
  exact asStr_or_empty _ 240 (asStr_take_self _ 240)

theorem normSpeakerNotes_idem (idx : ℕ) (s : Json) :
    normSpeakerNotes (normalizeSlide idx s) = normSpeakerNotes s := by
  unfold normSpeakerNotes
  rw [nsGet_speaker_notes, jsQQ_not_null _ (isNull_str _), asStr_str]
  exact asStr_take_self _ 1600

theorem normImagePrompt_eq (idx : ℕ) (s : Json) :
    normImagePrompt idx s =
      if normLayout idx s ∈ dataHeavyLayouts ∧
          (trimStr (asStr (jsQQ (jsGet s (js "image_prompt"))
            (jsGet (defaultSlide idx) (js "image_prompt"))) 800) = [] ∨
           toLowerStr (trimStr (asStr (jsQQ (jsGet s (js "image_prompt"))
            (jsGet (defaultSlide idx) (js "image_prompt"))) 800)) = js "none")
        then js "NONE"
      else asStr (jsQQ (jsGet s (js "image_prompt"))
        (jsGet (defaultSlide idx) (js "image_prompt"))) 800 := rfl

theorem normImagePrompt_take (idx : ℕ) (s : Json) :
    (normImagePrompt idx s).take 800 = normImagePrompt idx s := by
  rw [normImagePrompt_eq]
  split
  · decide
  · exact asStr_take_self _ 800

theorem normImagePrompt_cases (idx : ℕ) (s : Json) :
    normImagePrompt idx s = js "NONE" ∨
      ¬(normLayout idx s ∈ dataHeavyLayouts ∧
        (trimStr (normImagePrompt idx s) = [] ∨
         toLowerStr (trimStr (normImagePrompt idx s)) = js "none")) := by
  rw [normImagePrompt_eq idx s]
  split_ifs with h
  · exact Or.inl rfl
  · exact Or.inr h

theorem normImagePrompt_idem (idx2 idx : ℕ) (s : Json) :
    normImagePrompt idx2 (normalizeSlide idx s) = normImagePrompt idx s := by
  have hstep : normImagePrompt idx2 (normalizeSlide idx s) =
      if normLayout idx s ∈ dataHeavyLayouts ∧
          (trimStr (normImagePrompt idx s) = [] ∨
           toLowerStr (trimStr (normImagePrompt idx s)) = js "none")
        then js "NONE" else normImagePrompt idx s := by
    rw [normImagePrompt_eq idx2 (normalizeSlide idx s), nsGet_image_prompt,
      jsQQ_not_null _ (isNull_str _), asStr_str, normImagePrompt_take, normLayout_idem]
  rw [hstep]
  rcases normImagePrompt_cases idx s with hip | hnc
  · rw [hip]
    split <;> rfl
  · rw [if_neg hnc]

/-- A second normalization pass leaves a normalized slide unchanged
(for any pair of positions), provided the first pass produced a nonempty
`kind` and `title` (which `strClean` inputs always do). -/
theorem normalizeSlide_idem (idx2 idx : ℕ) (s : Json)
    (hk : normKind idx s ≠ []) (ht : normTitle idx s ≠ []) :
    normalizeSlide idx2 (normalizeSlide idx s) = normalizeSlide idx s := by
  have h0 : normalizeSlide idx2 (normalizeSlide idx s) = Json.obj
      [(js "kind", Json.str (normKind idx2 (normalizeSlide idx s))),
       (js "layout", Json.str (normLayout idx2 (normalizeSlide idx s))),
       (js "section", jstr ""),
       (js "setup_line", jstr ""),
       (js "takeaway", jstr ""),
       (js "bridge_line", jstr ""),
       (js "title", Json.str (normTitle idx2 (normalizeSlide idx s))),
       (js "subtitle", Json.str (normSubtitle (normalizeSlide idx s))),
       (js "bullets", normStrArr 8 180 (Json.arr []) (jsGet (normalizeSlide idx s) (js "bullets"))),
       (js "stat", jsQQ (jsGet (normalizeSlide idx s) (js "stat")) Json.null),
       (js "quote", jsQQ (jsGet (normalizeSlide idx s) (js "quote")) Json.null),
       (js "agenda_items", normStrArr 10 120 Json.null (jsGet (normalizeSlide idx s) (js "agenda_items"))),
       (js "cards", normRecArr 6 [(js "title", 80), (js "body", 220), (js "tag", 40)] (jsGet (normalizeSlide idx s) (js "cards"))),
       (js "timeline_items", normRecArr 12 [(js "date_or_phase", 40), (js "label", 80), (js "detail", 140)] (jsGet (normalizeSlide idx s) (js "timeline_items"))),
       (js "kpis", normRecArr 8 [(js "label", 60), (js "value", 40), (js "delta", 30)] (jsGet (normalizeSlide idx s) (js "kpis"))),
       (js "status_items", normStatusItems (jsGet (normalizeSlide idx s) (js "status_items"))),
       (js "table", normTable (jsGet (normalizeSlide idx s) (js "table"))),
       (js "pricing", jsQQ (jsGet (normalizeSlide idx s) (js "pricing")) Json.null),
       (js "matrix", jsQQ (jsGet (normalizeSlide idx s) (js "matrix")) Json.null),
       (js "steps", normRecArr 8 [(js "title", 70), (js "detail", 160)] (jsGet (normalizeSlide idx s) (js "steps"))),
       (js "people", normRecArr 10 [(js "name", 60), (js "role", 60), (js "bio", 200)] (jsGet (normalizeSlide idx s) (js "people"))),
       (js "logo_items", normStrArr 30 40 Json.null (jsGet (normalizeSlide idx s) (js "logo_items"))),
       (js "cta", jsQQ (jsGet (normalizeSlide idx s) (js "cta")) Json.null),
       (js "swot", jsQQ (jsGet (normalizeSlide idx s) (js "swot")) Json.null),
       (js "funnel", normRecArr 7 [(js "label", 60), (js "value", 40)] (jsGet (normalizeSlide idx s) (js "funnel"))),
       (js "now_next_later", jsQQ (jsGet (normalizeSlide idx s) (js "now_next_later")) Json.null),
       (js "okrs", normOkrs (jsGet (normalizeSlide idx s) (js "okrs"))),
       (js "case_study", jsQQ (jsGet (normalizeSlide idx s) (js "case_study")) Json.null),
       (js "diagram", normDiagram (jsGet (normalizeSlide idx s) (js "diagram"))),
       (js "icons", normIcons (jsGet (normalizeSlide idx s) (js "icons"))),
       (js "chart", normChart (jsGet (normalizeSlide idx s) (js "chart"))),
       (js "org_chart", jsQQ (jsGet (normalizeSlide idx s) (js "org_chart")) Json.null),
       (js "faq", normRecArr 8 [(js "q", 140), (js "a", 220)] (jsGet (normalizeSlide idx s) (js "faq"))),
       (js "image_prompt", Json.str (normImagePrompt idx2 (normalizeSlide idx s))),
       (js "speaker_notes", Json.str (normSpeakerNotes (normalizeSlide idx s)))] := rfl
  rw [h0, normKind_idem idx2 idx s hk, normLayout_idem idx2 idx s,
    normTitle_idem idx2 idx s ht, normSubtitle_idem idx s,
    normImagePrompt_idem idx2 idx s, normSpeakerNotes_idem idx s]
  rw [nsGet_bullets, nsGet_stat, nsGet_quote, nsGet_agenda_items, nsGet_cards,
    nsGet_timeline_items, nsGet_kpis, nsGet_status_items, nsGet_table, nsGet_pricing,
    nsGet_matrix, nsGet_steps, nsGet_people, nsGet_logo_items, nsGet_cta, nsGet_swot,
    nsGet_funnel, nsGet_now_next_later, nsGet_okrs, nsGet_case_study, nsGet_diagram,
    nsGet_icons, nsGet_chart, nsGet_org_chart, nsGet_faq]
  simp only [jsQQ_null_idem]
  rw [normStrArr_idem 8 180 (Json.arr []) rfl, normStrArr_idem 10 120 Json.null rfl,
    normStrArr_idem 30 40 Json.null rfl,
    normRecArr_idem 6 [(js "title", 80), (js "body", 220), (js "tag", 40)] (by decide),
    normRecArr_idem 12 [(js "date_or_phase", 40), (js "label", 80), (js "detail", 140)]
      (by decide),
    normRecArr_idem 8 [(js "label", 60), (js "value", 40), (js "delta", 30)] (by decide),
    normRecArr_idem 8 [(js "title", 70), (js "detail", 160)] (by decide),
    normRecArr_idem 10 [(js "name", 60), (js "role", 60), (js "bio", 200)] (by decide),
    normRecArr_idem 7 [(js "label", 60), (js "value", 40)] (by decide),
    normRecArr_idem 8 [(js "q", 140), (js "a", 220)] (by decide),
    normStatusItems_idem, normTable_idem, normOkrs_idem, normDiagram_idem,
    normIcons_idem, normChart_idem]
  rfl

/-! Key algebra of `setField`/`foldl`, used for the stability of the
theme merge `{ ...defaultTheme(), ...(plan.theme || {}) }`. -/

theorem setField_not_mem (fs : List (JStr × Json)) (k : JStr) (v : Json)
    (h : k ∉ keysOf fs) : setField fs k v = fs ++ [(k, v)] := by
  induction fs with
  | nil => rfl
  | cons kv fs ih =>
    rw [setField]
    have hne : kv.1 ≠ k := fun he => h (by rw [keysOf, List.map_cons, he]; exact List.mem_cons_self _ _)
    rw [if_neg hne, List.cons_append, ih (fun hm => h (by rw [keysOf, List.map_cons]; exact List.mem_cons_of_mem _ hm))]

theorem keysOf_setField_mem (fs : List (JStr × Json)) (k : JStr) (v : Json)
    (h : k ∈ keysOf fs) : keysOf (setField fs k v) = keysOf fs := by
  induction fs with
  | nil => cases h
  | cons kv fs ih =>
    simp only [keysOf, List.map_cons] at h ih ⊢
    rw [setField]
    by_cases he : kv.1 = k
    · rw [if_pos he]
      simp
    · rw [if_neg he]
      rcases List.mem_cons.mp h with h1 | h1
      · exact absurd h1.symm he
      · simp only [List.map_cons]
        rw [ih h1]

theorem keysOf_setField_not_mem (fs : List (JStr × Json)) (k : JStr) (v : Json)
    (h : k ∉ keysOf fs) : keysOf (setField fs k v) = keysOf fs ++ [k] := by
  rw [setField_not_mem fs k v h, keysOf, List.map_append]
  rfl

theorem keysOf_setField_shape (fs : List (JStr × Json)) (k : JStr) (v : Json)
    (base : List JStr)
    (hnd : (keysOf fs).Nodup) (hext : ∃ extra, keysOf fs = base ++ extra) :
    (keysOf (setField fs k v)).Nodup ∧ ∃ extra, keysOf (setField fs k v) = base ++ extra := by
  by_cases hm : k ∈ keysOf fs
  · rw [keysOf_setField_mem fs k v hm]
    exact ⟨hnd, hext⟩
  · rw [keysOf_setField_not_mem fs k v hm]
    obtain ⟨extra, hex⟩ := hext
    refine ⟨?_, extra ++ [k], by rw [hex, List.append_assoc]⟩
    rw [List.nodup_append]
    exact ⟨hnd, List.nodup_singleton k, by
      intro a ha hb
      rw [List.mem_singleton] at hb
      exact hm (hb ▸ ha)⟩

theorem foldl_setField_keys (pf : List (JStr × Json)) :
    ∀ acc : List (JStr × Json), (keysOf acc).Nodup →
      (keysOf (pf.foldl (fun acc kv => setField acc kv.1 kv.2) acc)).Nodup ∧
      ∃ extra, keysOf (pf.foldl (fun acc kv => setField acc kv.1 kv.2) acc) =
        keysOf acc ++ extra := by
  induction pf with
  | nil => intro acc hnd; exact ⟨hnd, [], (List.append_nil _).symm⟩
  | cons kv pf ih =>
    intro acc hnd
    rw [List.foldl_cons]
    by_cases hm : kv.1 ∈ keysOf acc
    · obtain ⟨h1, extra, h2⟩ := ih (setField acc kv.1 kv.2)
        (by rw [keysOf_setField_mem acc kv.1 kv.2 hm]; exact hnd)
      exact ⟨h1, extra, by rw [h2, keysOf_setField_mem acc kv.1 kv.2 hm]⟩
    · obtain ⟨h1, extra, h2⟩ := ih (setField acc kv.1 kv.2)
        (by
          rw [keysOf_setField_not_mem acc kv.1 kv.2 hm, List.nodup_append]
          exact ⟨hnd, List.nodup_singleton _, by
            intro a ha hb
            rw [List.mem_singleton] at hb
            exact hm (hb ▸ ha)⟩)
      refine ⟨h1, [kv.1] ++ extra, ?_⟩
      rw [h2, keysOf_setField_not_mem acc kv.1 kv.2 hm, List.append_assoc]

theorem setField_cons_ne (b : JStr × Json) (fs : List (JStr × Json)) (k : JStr) (v : Json)
    (h : k ≠ b.1) : setField (b :: fs) k v = b :: setField fs k v := by
  rw [show (b :: fs) = ((b.1, b.2) :: fs) from rfl, setField, if_neg (fun he => h he.symm)]

theorem foldl_setField_app (fs : List (JStr × Json)) :
    ∀ acc : List (JStr × Json), (∀ kv ∈ fs, kv.1 ∉ keysOf acc) → (keysOf fs).Nodup →
      fs.foldl (fun acc kv => setField acc kv.1 kv.2) acc = acc ++ fs := by
  induction fs with
  | nil => intro acc _ _; exact (List.append_nil _).symm
  | cons kv fs ih =>
    intro acc hdisj hnd
    rw [keysOf, List.map_cons] at hnd
    obtain ⟨hn1, hn2⟩ := List.nodup_cons.mp hnd
    rw [List.foldl_cons,
      setField_not_mem acc kv.1 kv.2 (hdisj kv (List.mem_cons_self _ _)),
      show (kv.1, kv.2) = kv from rfl]
    rw [ih (acc ++ [kv]) (by
        intro kw hkw
        rw [keysOf, List.map_append, List.mem_append]
        rintro (hin | hin)
        · exact hdisj kw (List.mem_cons_of_mem _ hkw) hin
        · rw [show List.map Prod.fst [kv] = [kv.1] from rfl, List.mem_singleton] at hin
          exact hn1 (hin ▸ List.mem_map.mpr ⟨kw, hkw, rfl⟩)) hn2]
    rw [List.append_assoc]
    rfl

theorem foldl_setField_cons_head (fs : List (JStr × Json)) :
    ∀ (b : JStr × Json) (acc : List (JStr × Json)), (∀ kv ∈ fs, kv.1 ≠ b.1) →
      fs.foldl (fun acc kv => setField acc kv.1 kv.2) (b :: acc) =
        b :: fs.foldl (fun acc kv => setField acc kv.1 kv.2) acc := by
  induction fs with
  | nil => intro b acc _; rfl
  | cons kv fs ih =>
    intro b acc h
    rw [List.foldl_cons, List.foldl_cons,
      setField_cons_ne b acc kv.1 kv.2 (h kv (List.mem_cons_self _ _))]
    exact ih b (setField acc kv.1 kv.2) (fun kw hkw => h kw (List.mem_cons_of_mem _ hkw))

theorem foldl_setField_extends :
    ∀ (base fs : List (JStr × Json)), (keysOf fs).Nodup →
      (∃ extra, keysOf fs = keysOf base ++ extra) →
      fs.foldl (fun acc kv => setField acc kv.1 kv.2) base = fs := by
  intro base
  induction base with
  | nil =>
    intro fs hnd _
    rw [foldl_setField_app fs [] (by intro kv _ h; cases h) hnd]
    rfl
  | cons b base ih =>
    intro fs hnd hext
    obtain ⟨extra, hex⟩ := hext
    cases fs with
    | nil =>
      rw [keysOf] at hex
      simp [keysOf] at hex
    | cons f fs2 =>
      rw [keysOf, List.map_cons, keysOf, List.map_cons, List.cons_append] at hex
      have hk1 : f.1 = b.1 := List.head_eq_of_cons_eq hex
      have htl : keysOf fs2 = keysOf base ++ extra := List.tail_eq_of_cons_eq hex
      rw [keysOf, List.map_cons] at hnd
      obtain ⟨hn1, hn2⟩ := List.nodup_cons.mp hnd
      rw [List.foldl_cons]
      have hset : setField (b :: base) f.1 f.2 = (f.1, f.2) :: base := by
        rw [show (b :: base) = ((b.1, b.2) :: base) from rfl, setField, if_pos hk1.symm]
        rw [hk1]
      rw [hset, show ((f.1, f.2) : JStr × Json) = f from rfl]
      rw [foldl_setField_cons_head fs2 f base
        (fun kv hkv he => hn1 (he ▸ List.mem_map.mpr ⟨kv, hkv, rfl⟩))]
      rw [ih fs2 hn2 ⟨extra, htl⟩]

theorem lookupField_not_mem (fs : List (JStr × Json)) (k : JStr) (h : k ∉ keysOf fs) :
    lookupField fs k = Json.null := by
  induction fs with
  | nil => rfl
  | cons kv fs ih =>
    obtain ⟨k1, v1⟩ := kv
    simp only [keysOf, List.map_cons] at h
    rw [lookupField, if_neg (fun he => h (by rw [he]; exact List.mem_cons_self _ _))]
    exact ih (fun hm => h (List.mem_cons_of_mem _ hm))

theorem lookupField_foldl_nodup (pf : List (JStr × Json)) (k : JStr) :
    ∀ base : List (JStr × Json), (keysOf pf).Nodup → k ∉ keysOf base →
      lookupField (pf.foldl (fun acc kv => setField acc kv.1 kv.2) base) k =
        lookupField pf k := by
  induction pf with
  | nil =>
    intro base _ hkb
    exact lookupField_not_mem base k hkb
  | cons kv pf ih =>
    intro base hnd hkb
    obtain ⟨k1, v1⟩ := kv
    simp only [keysOf, List.map_cons] at hnd
    obtain ⟨hn1, hn2⟩ := List.nodup_cons.mp hnd
    rw [List.foldl_cons]
    by_cases he : k1 = k
    · subst he
      rw [lookupField_foldl_setField_not_mem pf k1
          (fun kw hkw hek => hn1 (hek ▸ List.mem_map.mpr ⟨kw, hkw, rfl⟩)) _]
      rw [lookupField_setField_self, lookupField, if_pos rfl]
    · rw [ih (setField base k1 v1) hn2 ?hnotin]
      · rw [lookupField, if_neg he]
      case hnotin =>
        by_cases hm : k1 ∈ keysOf base
        · rw [keysOf_setField_mem base k1 v1 hm]; exact hkb
        · rw [keysOf_setField_not_mem base k1 v1 hm]
          rw [List.mem_append, List.mem_singleton]
          rintro (hin | hin)
          · exact hkb hin
          · exact he hin.symm

/-! Stability of the eight deck-level fields of `normalizePlanCore` under a
second normalization pass. -/

theorem themeOf_eq (plan options : Json) : themeOf plan options =
    if truthy (jget options "deckStyle") = true ∧
        ¬truthy (lookupField (foldTheme plan) (js "deck_style")) = true then
      Json.obj (setField (foldTheme plan) (js "deck_style") (jget options "deckStyle"))
    else Json.obj (foldTheme plan) := rfl

theorem foldTheme_shape (plan : Json) :
    (keysOf (foldTheme plan)).Nodup ∧
      ∃ extra, keysOf (foldTheme plan) = keysOf (spreadFields defaultTheme) ++ extra :=
  foldl_setField_keys _ _ (by decide)

theorem themeOf_shape (plan options : Json) :
    ∃ fs, themeOf plan options = Json.obj fs ∧ (keysOf fs).Nodup ∧
      ∃ extra, keysOf fs = keysOf (spreadFields defaultTheme) ++ extra := by
  obtain ⟨hnd, hext⟩ := foldTheme_shape plan
  rw [themeOf_eq]
  split_ifs with hc
  · exact ⟨_, rfl, keysOf_setField_shape _ _ _ _ hnd hext⟩
  · exact ⟨_, rfl, hnd, hext⟩

theorem themeOf_stable (p2 plan options : Json)
    (hacc : jget p2 "theme" = themeOf plan options) :
    themeOf p2 options = themeOf plan options := by
  obtain ⟨fs, hobj, hnd, hext⟩ := themeOf_shape plan options
  have hft : foldTheme p2 = fs := by
    unfold foldTheme
    rw [hacc, hobj, jsOr_truthy _ (show truthy (Json.obj fs) = true from rfl)]
    exact foldl_setField_extends _ fs hnd hext
  rw [themeOf_eq p2 options, hft]
  by_cases hc1 : truthy (jget options "deckStyle") = true ∧
      ¬truthy (lookupField (foldTheme plan) (js "deck_style")) = true
  · have hfs : fs = setField (foldTheme plan) (js "deck_style") (jget options "deckStyle") := by
      rw [themeOf_eq plan options, if_pos hc1] at hobj
      exact (Json.obj.inj hobj).symm
    rw [if_neg (by
      rintro ⟨-, hnt⟩
      rw [hfs, lookupField_setField_self] at hnt
      exact hnt hc1.1)]
    exact hobj.symm
  · have hfs : fs = foldTheme plan := by
      rw [themeOf_eq plan options, if_neg hc1] at hobj
      exact (Json.obj.inj hobj).symm
    rw [if_neg (by rw [hfs]; exact hc1)]
    exact hobj.symm

theorem lookupField_foldTheme_bl (plan : Json)
    (hth : themeObjOk (jget plan "theme") = true) :
    lookupField (foldTheme plan) (js "brand_logo") =
      jsGet (jget plan "theme") (js "brand_logo") := by
  unfold themeObjOk at hth
  by_cases htr : truthy (jget plan "theme") = true
  · rw [jsOr_truthy _ htr] at hth
    cases hv : jget plan "theme" with
    | obj pf =>
      rw [hv] at hth
      have hnd : (keysOf pf).Nodup := of_decide_eq_true hth
      unfold foldTheme
      rw [hv, jsOr_truthy _ (show truthy (Json.obj pf) = true from rfl)]
      rw [show spreadFields (Json.obj pf) = pf from rfl]
      rw [lookupField_foldl_nodup pf _ _ hnd (by decide)]
      rfl
    | null => rw [hv] at hth; exact Bool.noConfusion hth
    | bool b => rw [hv] at hth; exact Bool.noConfusion hth
    | num m => rw [hv] at hth; exact Bool.noConfusion hth
    | str s => rw [hv] at hth; exact Bool.noConfusion hth
    | arr l => rw [hv] at hth; exact Bool.noConfusion hth
  · unfold foldTheme
    rw [jsOr_falsy _ (truthy_eq_false htr)]
    rw [show spreadFields (Json.obj []) = ([] : List (JStr × Json)) from rfl]
    rw [lookupField_foldl_nodup [] _ _ (by simp [keysOf]) (by decide)]
    cases hv : jget plan "theme" with
    | null => rfl
    | bool b => rfl
    | num m => rfl
    | str s => rfl
    | arr l => rw [hv] at htr; exact absurd rfl htr
    | obj l => rw [hv] at htr; exact absurd rfl htr

theorem jsGet_themeOf_bl (plan options : Json)
    (hth : themeObjOk (jget plan "theme") = true) :
    jsGet (themeOf plan options) (js "brand_logo") =
      jsGet (jget plan "theme") (js "brand_logo") := by
  rw [themeOf_eq]
  split_ifs with hc
  · rw [jsGet_obj, lookupField_setField_ne _ (by decide), lookupField_foldTheme_bl plan hth]
  · rw [jsGet_obj, lookupField_foldTheme_bl plan hth]

theorem isNull_num (k : JNum) : (Json.num k).isNull = false := rfl

theorem jsQQ_null {a : Json} (b : Json) (h : a.isNull = true) : jsQQ a b = b := by
  simp [jsQQ, h]

theorem clampInt_jint (m lo hi f : ℤ) : clampInt (jint m) lo hi f = max lo (min hi m) := rfl

theorem clampInt_num_int (m lo hi f : ℤ) :
    clampInt (Json.num (JNum.int m)) lo hi f = max lo (min hi m) := rfl

theorem requestedSlidesOf_eq (plan options : Json) : requestedSlidesOf plan options =
    clampInt (jsQQ (jget options "nSlides") (jsQQ (jget plan "recommended_slide_count")
      (match jget plan "slides" with
       | Json.arr xs => jint xs.length
       | _ => jint 10))) 5 30 10 := rfl

theorem clampInt_idem_fb (n : Json) :
    clampInt n 5 30 (clampInt n 5 30 10) = clampInt n 5 30 10 := by
  unfold clampInt
  cases hj : jsToNum n with
  | nan => norm_num
  | int m => rfl

theorem rec_eq_requested_of_null (plan options : Json)
    (h : (jget options "nSlides").isNull = true) :
    clampInt (jsQQ (jget plan "recommended_slide_count")
        (jint (requestedSlidesOf plan options))) 5 30 (requestedSlidesOf plan options) =
      requestedSlidesOf plan options := by
  have h5 : (5:ℤ) ≤ requestedSlidesOf plan options := clampInt_lo_le _ _ _ _
  have h30 : requestedSlidesOf plan options ≤ 30 := clampInt_le_hi _ _ _ _ (by norm_num)
  by_cases hpr : (jget plan "recommended_slide_count").isNull = true
  · rw [jsQQ_null _ hpr, clampInt_jint]
    omega
  · have hprf : (jget plan "recommended_slide_count").isNull = false := by
      revert hpr; cases (jget plan "recommended_slide_count").isNull <;> simp
    rw [jsQQ_not_null _ hprf]
    have hR0 : requestedSlidesOf plan options =
        clampInt (jget plan "recommended_slide_count") 5 30 10 := by
      rw [requestedSlidesOf_eq, jsQQ_null _ h, jsQQ_not_null _ hprf]
    rw [hR0]
    exact clampInt_idem_fb _

theorem coreGet_deck_type (plan options : Json) (xs : List Json) :
    jget (normalizePlanCore plan options xs) "deck_type" =
      Json.str (deckTypeOf plan options) := rfl

theorem coreGet_deck_title (plan options : Json) (xs : List Json) :
    jget (normalizePlanCore plan options xs) "deck_title" =
      Json.str (asStr (jsOr (jget plan "deck_title")
        (jsOr (jsGet (jget plan "_extract") (js "title")) (jstr "Untitled Deck"))) 140) := rfl

theorem coreGet_deck_subtitle (plan options : Json) (xs : List Json) :
    jget (normalizePlanCore plan options xs) "deck_subtitle" =
      Json.str (asStr (jsOr (jget plan "deck_subtitle")
        (jsOr (jsGet (jget plan "_extract") (js "subtitle")) (jstr ""))) 200) := rfl

theorem coreGet_rec (plan options : Json) (xs : List Json) :
    jget (normalizePlanCore plan options xs) "recommended_slide_count" =
      Json.num (JNum.int (clampInt (jsQQ (jget plan "recommended_slide_count")
        (jint (requestedSlidesOf plan options))) 5 30 (requestedSlidesOf plan options))) := rfl

theorem coreGet_theme (plan options : Json) (xs : List Json) :
    jget (normalizePlanCore plan options xs) "theme" = themeOf plan options := rfl

theorem coreGet_slides (plan options : Json) (xs : List Json) :
    jget (normalizePlanCore plan options xs) "slides" =
      Json.arr (finalSlidesOf plan options xs) := rfl

theorem coreGet_brand_logo (plan options : Json) (xs : List Json) :
    jget (normalizePlanCore plan options xs) "brand_logo" =
      jsOr (jget plan "brand_logo")
        (jsOr (jsGet (jget plan "theme") (js "brand_logo")) Json.null) := rfl

theorem coreGet_extract (plan options : Json) (xs : List Json) :
    jget (normalizePlanCore plan options xs) "_extract" =
      jsOr (jget plan "_extract") Json.null := rfl

theorem requestedSlidesOf_core (plan options : Json) (xs : List Json) :
    requestedSlidesOf (normalizePlanCore plan options xs) options =
      requestedSlidesOf plan options := by
  by_cases h : (jget options "nSlides").isNull = true
  · rw [requestedSlidesOf_eq (normalizePlanCore plan options xs) options,
      jsQQ_null _ h, coreGet_rec, jsQQ_not_null _ (isNull_num _), clampInt_num_int,
      rec_eq_requested_of_null plan options h]
    have h5 : (5:ℤ) ≤ requestedSlidesOf plan options := clampInt_lo_le _ _ _ _
    have h30 : requestedSlidesOf plan options ≤ 30 := clampInt_le_hi _ _ _ _ (by norm_num)
    omega
  · have hnn : (jget options "nSlides").isNull = false := by
      revert h; cases (jget options "nSlides").isNull <;> simp
    rw [requestedSlidesOf_eq (normalizePlanCore plan options xs) options,
      requestedSlidesOf_eq plan options, jsQQ_not_null _ hnn, jsQQ_not_null _ hnn]

theorem rec_core_stable (plan options : Json) (xs : List Json) :
    clampInt (jsQQ (jget (normalizePlanCore plan options xs) "recommended_slide_count")
        (jint (requestedSlidesOf (normalizePlanCore plan options xs) options))) 5 30
        (requestedSlidesOf (normalizePlanCore plan options xs) options) =
      clampInt (jsQQ (jget plan "recommended_slide_count")
        (jint (requestedSlidesOf plan options))) 5 30 (requestedSlidesOf plan options) := by
  rw [coreGet_rec, jsQQ_not_null _ (isNull_num _), clampInt_num_int]
  have h5 : (5:ℤ) ≤ clampInt (jsQQ (jget plan "recommended_slide_count")
      (jint (requestedSlidesOf plan options))) 5 30 (requestedSlidesOf plan options) :=
    clampInt_lo_le _ _ _ _
  have h30 : clampInt (jsQQ (jget plan "recommended_slide_count")
      (jint (requestedSlidesOf plan options))) 5 30 (requestedSlidesOf plan options) ≤ 30 :=
    clampInt_le_hi _ _ _ _ (by norm_num)
  omega

theorem deckTypeOf_core (plan options : Json) (xs : List Json)
    (hdt : deckTypeOf plan options = js "ad_agency") :
    deckTypeOf (normalizePlanCore plan options xs) options = js "ad_agency" := by
  unfold deckTypeOf
  rw [coreGet_deck_type, hdt,
    jsOr_truthy _ (show truthy (Json.str (js "ad_agency")) = true by decide)]
  decide

theorem or3_title_of_clean (plan : Json)
    (h1 : strClean (jget plan "deck_title") 140 = true)
    (h2 : strClean (jsGet (jget plan "_extract") (js "title")) 140 = true) :
    asStr (jsOr (jget plan "deck_title")
      (jsOr (jsGet (jget plan "_extract") (js "title")) (jstr "Untitled Deck"))) 140 ≠ [] := by
  by_cases ha : truthy (jget plan "deck_title") = true
  · rw [jsOr_truthy _ ha]
    exact strClean_asStr_ne h1 ha
  · rw [jsOr_falsy _ (truthy_eq_false ha)]
    by_cases hb : truthy (jsGet (jget plan "_extract") (js "title")) = true
    · rw [jsOr_truthy _ hb]
      exact strClean_asStr_ne h2 hb
    · rw [jsOr_falsy _ (truthy_eq_false hb)]
      decide

theorem core_deck_title_stable (plan options : Json) (xs : List Json)
    (h1 : strClean (jget plan "deck_title") 140 = true)
    (h2 : strClean (jsGet (jget plan "_extract") (js "title")) 140 = true) :
    asStr (jsOr (jget (normalizePlanCore plan options xs) "deck_title")
      (jsOr (jsGet (jget (normalizePlanCore plan options xs) "_extract") (js "title"))
        (jstr "Untitled Deck"))) 140 =
    asStr (jsOr (jget plan "deck_title")
      (jsOr (jsGet (jget plan "_extract") (js "title")) (jstr "Untitled Deck"))) 140 := by
  rw [coreGet_deck_title,
    jsOr_truthy _ (truthy_str_ne (or3_title_of_clean plan h1 h2)), asStr_str]
  exact asStr_take_self _ 140

theorem core_deck_subtitle_stable (plan options : Json) (xs : List Json)
    (h1 : strClean (jget plan "deck_subtitle") 200 = true)
    (h2 : strClean (jsGet (jget plan "_extract") (js "subtitle")) 200 = true) :
    asStr (jsOr (jget (normalizePlanCore plan options xs) "deck_subtitle")
      (jsOr (jsGet (jget (normalizePlanCore plan options xs) "_extract") (js "subtitle"))
        (jstr ""))) 200 =
    asStr (jsOr (jget plan "deck_subtitle")
      (jsOr (jsGet (jget plan "_extract") (js "subtitle")) (jstr ""))) 200 := by
  rw [coreGet_deck_subtitle, coreGet_extract, jsGet_jsOr_null]
  by_cases hS : asStr (jsOr (jget plan "deck_subtitle")
      (jsOr (jsGet (jget plan "_extract") (js "subtitle")) (jstr ""))) 200 = []
  · have ha : truthy (jget plan "deck_subtitle") = false := by
      cases hb : truthy (jget plan "deck_subtitle") with
      | false => rfl
      | true =>
        rw [jsOr_truthy _ hb] at hS
        exact absurd hS (strClean_asStr_ne h1 hb)
    have he : truthy (jsGet (jget plan "_extract") (js "subtitle")) = false := by
      cases hb : truthy (jsGet (jget plan "_extract") (js "subtitle")) with
      | false => rfl
      | true =>
        rw [jsOr_falsy _ ha, jsOr_truthy _ hb] at hS
        exact absurd hS (strClean_asStr_ne h2 hb)
    rw [hS, jsOr_falsy _ (show truthy (Json.str []) = false from rfl), jsOr_falsy _ he]
    decide
  · rw [jsOr_truthy _ (truthy_str_ne hS), asStr_str]
    exact asStr_take_self _ 200

theorem jsOr_or_self (a c : Json) : jsOr (jsOr a c) c = jsOr a c := by
  by_cases h : truthy a = true
  · rw [jsOr_truthy _ h, jsOr_truthy _ h]
  · rw [jsOr_falsy _ (truthy_eq_false h)]
    by_cases h2 : truthy c = true
    · rw [jsOr_truthy _ h2]
    · rw [jsOr_falsy _ (truthy_eq_false h2)]

theorem core_brand_logo_stable (plan options : Json) (xs : List Json)
    (hth : themeObjOk (jget plan "theme") = true) :
    jsOr (jget (normalizePlanCore plan options xs) "brand_logo")
      (jsOr (jsGet (jget (normalizePlanCore plan options xs) "theme") (js "brand_logo"))
        Json.null) =
    jsOr (jget plan "brand_logo")
      (jsOr (jsGet (jget plan "theme") (js "brand_logo")) Json.null) := by
  rw [coreGet_brand_logo, coreGet_theme, jsGet_themeOf_bl plan options hth]
  exact jsOr_or_self _ _

/-! Stability of the slide list: the trim loop output is a sublist of
its input, so every surviving slide is a `normalizeSlide` output and a
second pass fixes it. -/

theorem dropFirstNonAnchorRev_sublist :
    ∀ (l l2 : List Json), dropFirstNonAnchorRev l = some l2 → l2.Sublist l := by
  intro l
  induction l with
  | nil => intro l2 h; simp [dropFirstNonAnchorRev] at h
  | cons x xs ih =>
    intro l2 h
    rw [dropFirstNonAnchorRev] at h
    split at h
    · cases h2 : dropFirstNonAnchorRev xs with
      | none => rw [h2] at h; simp at h
      | some ys =>
        rw [h2] at h
        simp only [Option.map_some'] at h
        cases h
        exact List.Sublist.cons₂ x (ih ys h2)
    · cases h
      exact List.sublist_cons_self x _

theorem removeLastNonAnchor_sublist {slides s2 : List Json}
    (h : removeLastNonAnchor slides = some s2) : s2.Sublist slides := by
  unfold removeLastNonAnchor at h
  cases h2 : dropFirstNonAnchorRev slides.reverse with
  | none => rw [h2] at h; simp at h
  | some ys =>
    rw [h2] at h
    simp only [Option.map_some'] at h
    cases h
    have hs := dropFirstNonAnchorRev_sublist _ _ h2
    simpa using hs.reverse

theorem trimLoopFuel_sublist : ∀ (fuel : ℕ) (slides : List Json) (target : ℕ),
    (trimLoopFuel fuel slides target).Sublist slides := by
  intro fuel
  induction fuel with
  | zero => intro slides target; exact List.Sublist.refl _
  | succ n ih =>
    intro slides target
    rw [trimLoopFuel]
    split
    · split
      · rename_i s2 hr
        exact (ih s2 target).trans (removeLastNonAnchor_sublist hr)
      · exact List.Sublist.refl _
    · exact List.Sublist.refl _

theorem trimLoop_sublist (slides : List Json) (target : ℕ) :
    (trimLoop slides target).Sublist slides :=
  trimLoopFuel_sublist _ _ _

theorem finalSlidesOf_agency (plan options : Json) (xs : List Json)
    (hdt : deckTypeOf plan options = js "ad_agency") :
    finalSlidesOf plan options xs =
      (trimLoop (xs.enum.map fun p => normalizeSlide p.1 p.2)
        (requestedSlidesOf plan options).toNat).take
        (requestedSlidesOf plan options).toNat := by
  simp only [finalSlidesOf]
  rw [if_neg (fun hne => hne hdt)]

theorem enumFrom_map_norm_mem : ∀ (l : List Json) (n : ℕ) (y : Json),
    y ∈ (List.enumFrom n l).map (fun p => normalizeSlide p.1 p.2) →
      ∃ i x, x ∈ l ∧ y = normalizeSlide i x := by
  intro l
  induction l with
  | nil => intro n y h; simp [List.enumFrom] at h
  | cons a l ih =>
    intro n y h
    rw [List.enumFrom, List.map_cons] at h
    rcases List.mem_cons.mp h with h | h
    · exact ⟨n, a, List.mem_cons_self a l, h⟩
    · obtain ⟨i, x, hx, hyx⟩ := ih (n + 1) y h
      exact ⟨i, x, List.mem_cons_of_mem a hx, hyx⟩

theorem enumFrom_map_fix (l : List Json)
    (h : ∀ y ∈ l, ∀ j : ℕ, normalizeSlide j y = y) :
    ∀ n, (List.enumFrom n l).map (fun p => normalizeSlide p.1 p.2) = l := by
  induction l with
  | nil => intro n; rfl
  | cons a l ih =>
    intro n
    rw [List.enumFrom, List.map_cons, h a (List.mem_cons_self a l) n,
      ih (fun y hy j => h y (List.mem_cons_of_mem a hy) j) (n + 1)]

theorem finalSlides_mem_norm (plan options : Json) (xs : List Json)
    (hdt : deckTypeOf plan options = js "ad_agency") (y : Json)
    (hy : y ∈ finalSlidesOf plan options xs) : ∃ i x, x ∈ xs ∧ y = normalizeSlide i x := by
  rw [finalSlidesOf_agency plan options xs hdt] at hy
  have h1 := List.take_subset _ _ hy
  have h2 := (trimLoop_sublist _ _).subset h1
  rw [show xs.enum = List.enumFrom 0 xs from rfl] at h2
  exact enumFrom_map_norm_mem xs 0 y h2

theorem finalSlidesOf_core (plan options : Json) (xs : List Json)
    (hdt : deckTypeOf plan options = js "ad_agency")
    (hfix : ∀ y ∈ finalSlidesOf plan options xs, ∀ j : ℕ, normalizeSlide j y = y) :
    finalSlidesOf (normalizePlanCore plan options xs) options
      (finalSlidesOf plan options xs) = finalSlidesOf plan options xs := by
  rw [finalSlidesOf_agency _ _ _ (deckTypeOf_core plan options xs hdt),
    requestedSlidesOf_core]
  have hlen : (finalSlidesOf plan options xs).length ≤
      (requestedSlidesOf plan options).toNat := by
    rw [finalSlidesOf_agency _ _ _ hdt]
    exact take_length_le _ _
  rw [show (finalSlidesOf plan options xs).enum =
      List.enumFrom 0 (finalSlidesOf plan options xs) from rfl,
    enumFrom_map_fix _ hfix 0, trimLoop,
    trimLoopFuel_noop _ _ _ (by omega)]
  exact List.take_of_length_le hlen

theorem normalizePlanCore_eq (p o : Json) (zs : List Json) :
    normalizePlanCore p o zs = Json.obj
      [(js "deck_type", Json.str (deckTypeOf p o)),
       (js "deck_title", Json.str (asStr (jsOr (jget p "deck_title")
         (jsOr (jsGet (jget p "_extract") (js "title")) (jstr "Untitled Deck"))) 140)),
       (js "deck_subtitle", Json.str (asStr (jsOr (jget p "deck_subtitle")
         (jsOr (jsGet (jget p "_extract") (js "subtitle")) (jstr ""))) 200)),
       (js "recommended_slide_count", Json.num (JNum.int
         (clampInt (jsQQ (jget p "recommended_slide_count") (jint (requestedSlidesOf p o)))
           5 30 (requestedSlidesOf p o)))),
       (js "theme", themeOf p o),
       (js "slides", Json.arr (finalSlidesOf p o zs)),
       (js "brand_logo", jsOr (jget p "brand_logo")
         (jsOr (jsGet (jget p "theme") (js "brand_logo")) Json.null)),
       (js "_extract", jsOr (jget p "_extract") Json.null)] := rfl

theorem normalizePlanCore_stable (plan options : Json) (xs : List Json)
    (hdt : deckTypeOf plan options = js "ad_agency")
    (hth : themeObjOk (jget plan "theme") = true)
    (hfix : ∀ y ∈ finalSlidesOf plan options xs, ∀ j : ℕ, normalizeSlide j y = y)
    (ht1 : strClean (jget plan "deck_title") 140 = true)
    (ht2 : strClean (jsGet (jget plan "_extract") (js "title")) 140 = true)
    (hs1 : strClean (jget plan "deck_subtitle") 200 = true)
    (hs2 : strClean (jsGet (jget plan "_extract") (js "subtitle")) 200 = true) :
    normalizePlanCore (normalizePlanCore plan options xs) options
      (finalSlidesOf plan options xs) = normalizePlanCore plan options xs := by
  rw [normalizePlanCore_eq (normalizePlanCore plan options xs) options
    (finalSlidesOf plan options xs)]
  rw [deckTypeOf_core plan options xs hdt, ← hdt,
    core_deck_title_stable plan options xs ht1 ht2,
    core_deck_subtitle_stable plan options xs hs1 hs2,
    rec_core_stable plan options xs,
    themeOf_stable _ plan options (coreGet_theme plan options xs),
    finalSlidesOf_core plan options xs hdt hfix,
    core_brand_logo_stable plan options xs hth,
    coreGet_extract, jsOr_null_idem]
  rfl

/-- Claim C3 (amended): `normalizePlan` is idempotent on the resolved
ad_agency deck type, for plans whose theme is absent or a plain object
(with pairwise-distinct keys, as every JS object has), whose slides carry
string-clean `kind` and `title` fields, and whose `deck_title`,
`deck_subtitle` and `_extract` title/subtitle are string-clean (truthy
values whose string coercion is nonempty, or falsy values).  For other
deck types idempotence fails: anchor injection adds sparse slides that
gain their full default field set only on the second pass. -/
theorem normalizePlan_idem_agency (plan options out : Json)
    (h : normalizePlan plan options = Except.ok out)
    (hdt : deckTypeOf plan options = js "ad_agency")
    (hth : themeObjOk (jget plan "theme") = true)
    (hsl : slidesKindTitleClean (jsOr (jget plan "slides") (Json.arr [])) = true)
    (ht1 : strClean (jget plan "deck_title") 140 = true)
    (ht2 : strClean (jsGet (jget plan "_extract") (js "title")) 140 = true)
    (hs1 : strClean (jget plan "deck_subtitle") 200 = true)
    (hs2 : strClean (jsGet (jget plan "_extract") (js "subtitle")) 200 = true) :
    normalizePlan out options = Except.ok out := by
  unfold normalizePlan at h
  cases hsv : jsOr (jget plan "slides") (Json.arr []) with
  | arr xs =>
    rw [hsv] at h
    have hout : out = normalizePlanCore plan options xs := (Except.ok.inj h).symm
    rw [hsv] at hsl
    have hclean : ∀ s ∈ xs, strClean (jsGet s (js "kind")) 60 = true ∧
        strClean (jsGet s (js "title")) 140 = true := by
      intro s hs
      have hone := (List.all_eq_true.mp hsl) s hs
      exact (Bool.and_eq_true _ _).mp hone
    have hfix : ∀ y ∈ finalSlidesOf plan options xs, ∀ j : ℕ, normalizeSlide j y = y := by
      intro y hy j
      obtain ⟨i, x, hx, rfl⟩ := finalSlides_mem_norm plan options xs hdt y hy
      exact normalizeSlide_idem j i x
        (normKind_ne_of_clean i x (hclean x hx).1)
        (normTitle_ne_of_clean i x (hclean x hx).2)
    subst hout
    unfold normalizePlan
    rw [coreGet_slides, jsOr_truthy _
      (show truthy (Json.arr (finalSlidesOf plan options xs)) = true from rfl)]
    show Except.ok (normalizePlanCore (normalizePlanCore plan options xs) options
      (finalSlidesOf plan options xs)) = Except.ok (normalizePlanCore plan options xs)
    rw [normalizePlanCore_stable plan options xs hdt hth hfix ht1 ht2 hs1 hs2]
  | null => rw [hsv] at h; exact Except.noConfusion h
  | bool b => rw [hsv] at h; exact Except.noConfusion h
  | num k => rw [hsv] at h; exact Except.noConfusion h
  | str s => rw [hsv] at h; exact Except.noConfusion h
  | obj fs => rw [hsv] at h; exact Except.noConfusion h

/-- Witness for the amended C3 at a concrete ad_agency plan. -/
theorem normalizePlan_idem_agency_witness :
    ∃ out, normalizePlan (Json.obj [(js "deck_type", jstr "ad_agency")]) (Json.obj []) =
        Except.ok out ∧
      normalizePlan out (Json.obj []) = Except.ok out := by
  obtain ⟨out, hout⟩ : ∃ out,
      normalizePlan (Json.obj [(js "deck_type", jstr "ad_agency")]) (Json.obj []) =
        Except.ok out := ⟨_, rfl⟩
  exact ⟨out, hout, normalizePlan_idem_agency _ _ out hout (by decide) (by decide)
    (by decide) (by decide) (by decide) (by decide) (by decide)⟩

/-- Claim C3 (counterexample): normalizing the empty plan injects sparse
anchor slides (the infographic anchor carries no `bullets` key), and the
second pass fills in the default field set: the first slide of
`normalize({})` has no `bullets` field, while after renormalization it is
`[]` — so `normalize(normalize(p)) = normalize(p)` fails. -/
theorem normalizePlan_not_idempotent :
    firstSlideBulletsOf (normalizePlan (Json.obj []) (Json.obj [])) = some Json.null ∧
    (match normalizePlan (Json.obj []) (Json.obj []) with
     | Except.ok p => firstSlideBulletsOf (normalizePlan p (Json.obj []))
     | Except.error _ => none) = some (Json.arr []) := ⟨rfl, rfl⟩

end DeckSmith
